import Mathlib

/-!
# ocserv VPN worker (`src/worker-vpn.c`): a shallow embedding

The worker state is an explicit record that is passed from call to call.
Everything the worker does to the outside world (bytes put on the TLS or DTLS
channel, writes to the tun device, messages to the main process) is appended
to the field `io_log` of that record, in program order.  Values that come from
the outside world (return codes of sends and writes, the TCP MSS, ...) are read
from an environment record `world`.

C integers: `unsigned` values are naturals below `2 ^ 32` and every arithmetic
operation on them is followed by an explicit reduction modulo `2 ^ 32`;
`int` and `time_t` values are integers.  Bytes are naturals below 256.
-/

namespace Ocserv

/-! ## Machine integers -/

/-- The modulus of the C type `unsigned` (32 bits). -/
def U32 : Nat := 4294967296

/-- Conversion of a C integer value to `unsigned`: reduction modulo `2 ^ 32`. -/
def u32 (z : Int) : Nat := (z % 4294967296).toNat

/-- The gnutls error code `GNUTLS_E_LARGE_PACKET` (gnutls.h). -/
def GNUTLS_E_LARGE_PACKET : Int := -7

/-- The gnutls error code `GNUTLS_E_REHANDSHAKE` (gnutls.h). -/
def GNUTLS_E_REHANDSHAKE : Int := -37

/-! ## Data model -/

/-- States of the datagram channel (`udp_port_state_t`, declared in `worker.h`).
The order of the constructors plays no role in the definitions below. -/
inductive udp_state_t where
  | UP_DISABLED
  | UP_WAIT_FD
  | UP_SETUP
  | UP_HANDSHAKE
  | UP_INACTIVE
  | UP_ACTIVE
deriving DecidableEq, Repr

/-- The authentication state of the worker.  The enumeration lives in
`worker.h`; this file only ever compares it with `S_AUTH_COMPLETE`, so every
other value is kept as its numeric code. -/
inductive auth_state_t where
  | S_AUTH_COMPLETE
  | S_AUTH_OTHER (code : Nat)
deriving DecidableEq, Repr

/-- One entry of the datagram ciphersuite table (`dtls_ciphersuite_st`).  The
gnutls algorithm identifiers are kept as their symbolic names. -/
structure dtls_ciphersuite_st where
  oc_name : String
  gnutls_name : String
  gnutls_version : String
  gnutls_mac : String
  gnutls_cipher : String
  server_prio : Nat
deriving DecidableEq, Repr

/-- The header selected by `header_check` for the value being received. -/
inductive header_t where
  | HEADER_NONE
  | HEADER_COOKIE
  | HEADER_MASTER_SECRET
  | HEADER_HOSTNAME
  | HEADER_CSTP_MTU
  | HEADER_CSTP_ATYPE
  | HEADER_DTLS_MTU
  | HEADER_DTLS_CIPHERSUITE
  | HEADER_CONNECTION
  | HEADER_USER_AGENT
deriving DecidableEq, Repr

/-- The fields of `struct http_req_st` that this file reads or writes.
Strings are C strings, given by their characters. -/
structure http_req_st where
  url : String
  value : List Char
  next_header : header_t
  cookie : List Nat
  cookie_set : Nat
  sid_cookie_set : Nat
  master_secret_set : Nat
  master_secret : List Nat
  selected_ciphersuite : Option dtls_ciphersuite_st
  cstp_mtu : Nat
  dtls_mtu : Nat
  no_ipv4 : Nat
  no_ipv6 : Nat
  hostname : List Char
  user_agent : List Char
deriving DecidableEq, Repr

/-- The fields of the configuration (`ws->config`) used by this file.  A
pointer field is `none` when it is `NULL`. -/
structure cfg_st where
  network_name : Option String
  auth_timeout : Nat
  dpd : Nat
  default_domain : Option String
  udp_port : Nat
  keepalive : Nat
  cookie_validity : Nat
  default_mtu : Nat
  output_buffer : Nat
  net_priority : Int
  try_mtu : Nat
  banner : Option String
deriving DecidableEq, Repr

/-- The network information of the session (`ws->vinfo`). -/
structure vpn_st where
  ipv4 : Option String
  ipv4_netmask : Option String
  ipv4_dns : Option String
  ipv4_nbns : Option String
  ipv6 : Option String
  ipv6_netmask : Option String
  ipv6_dns : Option String
  ipv6_nbns : Option String
  routes : List String
  mtu : Nat
deriving DecidableEq, Repr

/-- The two record-layer channels of a session. -/
inductive channel where
  | tls
  | dtls
deriving DecidableEq, Repr

/-- Externally visible actions of the worker, in the order of the source:
text written to the TLS channel during the HTTP phase (`tls_puts`,
`tls_printf` with its format string and argument), records sent on either
channel, writes to the tun device, messages to the main process, and calls that
close a channel or change the data MTU of the DTLS session.  Socket options and
log lines are not recorded. -/
inductive Event where
  | tls_puts (s : String)
  | tls_printf_u (fmt : String) (v : Nat)
  | tls_printf_s (fmt : String) (v : String)
  | tls_printf_hex (fmt : String) (v : List Nat)
  | tls_cork
  | tls_uncork
  | tls_close
  | dtls_close
  | tls_fatal_close
  | alarm_off
  | record_send (ch : channel) (data : List Nat)
  | tun_write (data : List Nat)
  | tun_mtu_msg (mtu : Nat)
  | session_info_msg (tls_desc : Bool) (dtls_ciphersuite : Option String)
      (user_agent : Option (List Char))
  | dtls_set_data_mtu (mtu : Nat)
  | dtls_set_mtu (mtu : Nat)
  | dtls_handshake
  | tls_handshake
  | dtls_alert_no_renegotiation
deriving DecidableEq, Repr

/-- The worker state (`struct worker_st`), restricted to the fields this file
uses, together with the log of actions performed so far. -/
structure worker_st where
  config : cfg_st
  req : http_req_st
  vinfo : vpn_st
  routes : List String
  auth_state : auth_state_t
  proto_inet : Bool
  session_set : Bool
  dtls_session_set : Bool
  udp_state : udp_state_t
  conn_mtu : Nat
  last_good_mtu : Nat
  last_bad_mtu : Nat
  buffer_size : Nat
  last_msg_tcp : Int
  last_msg_udp : Int
  last_periodic_check : Int
  last_tls_rehandshake : Int
  master_secret : List Nat
  session_id : List Nat
  sid : List Nat
  io_log : List Event
deriving DecidableEq, Repr

/-- Values supplied by the outside world.  A return code is looked up by the
number of actions the worker has performed before the call. -/
structure world where
  send_ret : Nat → Int
  force_write_ret : Nat → Int
  malloc_ok : Bool
  realloc_ok : Bool
  auth_cookie_ret : Int
  rt_vpn_info : Int × vpn_st
  tcp_maxseg : Nat → Option Int
  dtls_overhead : dtls_ciphersuite_st → Int
  tls_overhead : Int
  gettime : Nat → Int
  handshake_ret : Nat → Int
  error_is_fatal : Int → Bool
  dtls_data_mtu : Nat → Nat
  dtls_init_ok : Nat → Bool

/-- The result of running a piece of the worker: it returns a value, or the
process exits (`exit_worker`), or it dereferences a null pointer. -/
inductive result (α : Type) where
  | ok (v : α) (ws : worker_st)
  | exited (ws : worker_st)
  | null_deref (ws : worker_st)

/-- The state in which a run ended. -/
def result.state {α : Type} : result α → worker_st
  | result.ok _ ws => ws
  | result.exited ws => ws
  | result.null_deref ws => ws

/-- The actions performed by a run that started in state `ws`. -/
def result.emitted {α : Type} (r : result α) (ws : worker_st) : List Event :=
  r.state.io_log.drop ws.io_log.length

/-- The same run, with `v` as the value of a returning outcome. -/
def result.replace {α β : Type} (r : result α) (v : β) : result β :=
  match r with
  | result.ok _ ws => result.ok v ws
  | result.exited ws => result.exited ws
  | result.null_deref ws => result.null_deref ws

/-- The value of a returning outcome. -/
def result.value {α : Type} : result α → Option α
  | result.ok v _ => some v
  | _ => none

/-- Whether the run ended in a null-pointer dereference. -/
def result.is_null_deref {α : Type} : result α → Bool
  | result.null_deref _ => true
  | _ => false

/-- Whether the run ended in `exit_worker`. -/
def result.is_exited {α : Type} : result α → Bool
  | result.exited _ => true
  | _ => false

/-- Append one action to the log. -/
def worker_st.act (ws : worker_st) (e : Event) : worker_st :=
  { ws with io_log := ws.io_log ++ [e] }

/-- The packet type codes `AC_PKT_*`.  They are declared in `vpn.h`, which is
not part of the sources at hand, so they are a parameter of the embedding. -/
structure pkt_types where
  AC_PKT_DATA : Nat
  AC_PKT_DPD_OUT : Nat
  AC_PKT_DPD_RESP : Nat
  AC_PKT_DISCONN : Nat
  AC_PKT_KEEPALIVE : Nat
  AC_PKT_TERM_SERVER : Nat
deriving DecidableEq, Repr

/-- The type codes as the AnyConnect protocol assigns them (data 0, DPD request
3, DPD response 4, disconnect 5, keepalive 7, terminate 9).  Of these only the 4
is visible in this file, in the literal reply `"STF\x01\x00\x00\x04\x00"` of
`parse_data`; the general theorems below hold for every assignment. -/
def AC_PKT : pkt_types :=
  { AC_PKT_DATA := 0, AC_PKT_DPD_OUT := 3, AC_PKT_DPD_RESP := 4,
    AC_PKT_DISCONN := 5, AC_PKT_KEEPALIVE := 7, AC_PKT_TERM_SERVER := 9 }

/-! ## MTU controller -/

/-- The macro `MIN_MTU(ws)`. -/
def MIN_MTU (ws : worker_st) : Nat :=
  if ws.vinfo.ipv6.isSome then 1281 else 257

/-- The function `mtu_send`: report `mtu - 1` to the main process. -/
def mtu_send (ws : worker_st) (mtu : Nat) : worker_st :=
  ws.act (Event.tun_mtu_msg (u32 ((mtu : Int) - 1)))

/-- The function `mtu_set`. -/
def mtu_set (ws : worker_st) (mtu : Nat) : worker_st :=
  let ws1 := { ws with conn_mtu := mtu }
  let ws2 := if ws1.dtls_session_set then ws1.act (Event.dtls_set_data_mtu ws1.conn_mtu) else ws1
  mtu_send ws2 ws2.conn_mtu

/-- The function `mtu_not_ok`: the returned pair is the return value and the
state after the call. -/
def mtu_not_ok (ws : worker_st) : Int × worker_st :=
  let min := MIN_MTU ws
  let ws1 := { ws with last_bad_mtu := ws.conn_mtu }
  if ws1.last_good_mtu = min then
    (-1, { ws1 with udp_state := udp_state_t.UP_DISABLED })
  else
    let ws2 :=
      if ws1.last_good_mtu ≥ ws1.conn_mtu then
        { ws1 with last_good_mtu := max (((2 * ws1.conn_mtu) % U32) / 3) min }
      else ws1
    (0, mtu_set ws2 ws2.last_good_mtu)

/-- The function `mtu_discovery_init`. -/
def mtu_discovery_init (ws : worker_st) (mtu : Nat) : worker_st :=
  { ws with last_good_mtu := mtu, last_bad_mtu := mtu }

/-- The function `mtu_ok`. -/
def mtu_ok (ws : worker_st) : worker_st :=
  if ws.last_bad_mtu = (ws.conn_mtu + 1) % U32 ∨ ws.last_bad_mtu = ws.conn_mtu then ws
  else
    let ws1 := { ws with last_good_mtu := ws.conn_mtu }
    let c := ((ws1.conn_mtu + ws1.last_bad_mtu) % U32) / 2
    mtu_set ws1 c

/-- The state after `n` successive calls of `mtu_not_ok`. -/
def mtu_not_ok_iter : Nat → worker_st → worker_st
  | 0, ws => ws
  | n + 1, ws => mtu_not_ok_iter n (mtu_not_ok ws).2

/-! ## Framing codec -/

/-- The function `parse_data`.  `ts` is the channel the frame arrived on
(`ws->session == ts` holds exactly on the reliable channel). -/
def parse_data (c : pkt_types) (w : world) (ws : worker_st) (ts : channel)
    (head : Nat) (buf : List Nat) (_now : Int) : result Int :=
  if head = c.AC_PKT_DPD_RESP then result.ok head ws
  else if head = c.AC_PKT_KEEPALIVE then result.ok head ws
  else if head = c.AC_PKT_DPD_OUT then
    match ts with
    | channel.tls =>
      let ret := w.send_ret ws.io_log.length
      let ws1 := ws.act (Event.record_send channel.tls [83, 84, 70, 1, 0, 0, 4, 0])
      if ret < 0 then result.ok (-1) ws1 else result.ok head ws1
    | channel.dtls =>
      let ret := w.send_ret ws.io_log.length
      let ws1 := ws.act (Event.record_send channel.dtls [c.AC_PKT_DPD_RESP])
      if ret = GNUTLS_E_LARGE_PACKET then
        let ws2 := (mtu_not_ok ws1).2
        let ret2 := w.send_ret ws2.io_log.length
        let ws3 := ws2.act (Event.record_send channel.dtls [c.AC_PKT_DPD_RESP])
        if ret2 < 0 then result.ok (-1) ws3 else result.ok head ws3
      else if ret < 0 then result.ok (-1) ws1 else result.ok head ws1
  else if head = c.AC_PKT_DISCONN then result.exited ws
  else if head = c.AC_PKT_DATA then
    let ret := w.force_write_ret ws.io_log.length
    let ws1 := ws.act (Event.tun_write buf)
    if ret = -1 then result.ok (-1) ws1 else result.ok head ws1
  else result.ok head ws

/-- The tail of the two decoders: once `parse_data` has returned, the
time stamp of the channel is refreshed and the value is passed on. -/
def result.then_set (r : result Int) (f : worker_st → worker_st) : result Int :=
  match r with
  | result.ok v ws => result.ok v (f ws)
  | result.exited ws => result.exited ws
  | result.null_deref ws => result.null_deref ws

/-- The function `parse_cstp_data`; `buf_size` is the length of `buf`. -/
def parse_cstp_data (c : pkt_types) (w : world) (ws : worker_st)
    (buf : List Nat) (now : Int) : result Int :=
  if buf.length < 8 then result.ok (-1) ws
  else if buf.getD 0 0 ≠ 83 ∨ buf.getD 1 0 ≠ 84 ∨ buf.getD 2 0 ≠ 70 ∨ buf.getD 3 0 ≠ 1
      ∨ buf.getD 7 0 ≠ 0 then result.ok (-1) ws
  else
    let pktlen := buf.getD 4 0 * 256 + buf.getD 5 0
    if buf.length ≠ 8 + pktlen then result.ok (-1) ws
    else
      (parse_data c w ws channel.tls (buf.getD 6 0) ((buf.drop 8).take pktlen) now).then_set
        (fun ws1 => { ws1 with last_msg_tcp := now })

/-- The function `parse_dtls_data`; `buf_size` is the length of `buf`. -/
def parse_dtls_data (c : pkt_types) (w : world) (ws : worker_st)
    (buf : List Nat) (now : Int) : result Int :=
  if buf.length < 1 then result.ok (-1) ws
  else
    (parse_data c w ws channel.dtls (buf.getD 0 0) ((buf.drop 1).take (buf.length - 1)) now).then_set
      (fun ws1 => { ws1 with last_msg_udp := now })

/-- The 8-byte header the tunnel loop writes in front of a packet of `l`
bytes before it is sent on the reliable channel. -/
def cstp_header (l : Nat) (type : Nat) : List Nat :=
  [83, 84, 70, 1, (l / 256) % 256, l % 256, type, 0]

/-- The well-formedness test of the reliable decoder, spelled as in the
specification: magic `S T F 0x01`, byte 7 zero, length field matches. -/
def cstp_well_formed (b : List Nat) : Prop :=
  b.getD 0 0 = 83 ∧ b.getD 1 0 = 84 ∧ b.getD 2 0 = 70 ∧ b.getD 3 0 = 1 ∧ b.getD 7 0 = 0 ∧
    b.length = 8 + (b.getD 4 0 * 256 + b.getD 5 0)

/-! ## Tunnel setup (`connect_handler` up to the main loop) -/

/-- How `connect_handler` leaves its setup part: with `return v`, or by
entering the main loop with the locals `mtu_overhead` and `dtls_mtu`. -/
inductive conn_out where
  | ret (v : Int)
  | tunnel (mtu_overhead : Nat) (dtls_mtu : Nat)
deriving DecidableEq, Repr

/-- One `tls_puts` / `tls_printf` followed by `SEND_ERR(ret)`: a negative
return value jumps to `send_error`, which calls `exit_worker`. -/
def send_line {α : Type} (w : world) (ws : worker_st) (e : Event)
    (k : worker_st → result α) : result α :=
  if w.send_ret ws.io_log.length < 0 then result.exited (ws.act e) else k (ws.act e)

/-- A header that is sent only when its string is not `NULL`. -/
def send_opt {α : Type} (w : world) (ws : worker_st) (o : Option String) (fmt : String)
    (k : worker_st → result α) : result α :=
  match o with
  | none => k ws
  | some v => send_line w ws (Event.tls_printf_s fmt v) k

/-- The address block of one family: `X-CSTP-Address` and the optional netmask,
DNS and NBNS headers, sent when the address is set and the family is allowed. -/
def send_addr {α : Type} (w : world) (ws : worker_st) (addr netmask dns nbns : Option String)
    (no_ip : Nat) (k : worker_st → result α) : result α :=
  match addr with
  | none => k ws
  | some a =>
    if no_ip = 0 then
      send_line w ws (Event.tls_printf_s "X-CSTP-Address: %s\r\n" a) fun ws1 =>
      send_opt w ws1 netmask "X-CSTP-Netmask: %s\r\n" fun ws2 =>
      send_opt w ws2 dns "X-CSTP-DNS: %s\r\n" fun ws3 =>
      send_opt w ws3 nbns "X-CSTP-NBNS: %s\r\n" k
    else k ws

/-- The two loops over routes: a route of a family the peer excluded is
skipped, every other one is sent as `X-CSTP-Split-Include`. -/
def send_routes {α : Type} (w : world) (no_ipv4 no_ipv6 : Nat) :
    List String → worker_st → (worker_st → result α) → result α
  | [], ws, k => k ws
  | r :: rs, ws, k =>
    if no_ipv6 ≠ 0 ∧ ':' ∈ r.data then send_routes w no_ipv4 no_ipv6 rs ws k
    else if no_ipv4 ≠ 0 ∧ '.' ∈ r.data then send_routes w no_ipv4 no_ipv6 rs ws k
    else
      send_line w ws (Event.tls_printf_s "X-CSTP-Split-Include: %s\r\n" r) fun ws1 =>
      send_routes w no_ipv4 no_ipv6 rs ws1 k

/-- The label `exit` of `connect_handler`. -/
def exit_label {α : Type} (ws : worker_st) : result α :=
  let ws1 := ws.act Event.tls_close
  let ws2 :=
    if ws1.udp_state = udp_state_t.UP_ACTIVE ∧ ws1.dtls_session_set then ws1.act Event.dtls_close
    else ws1
  result.exited ws2

/-- The function `session_info_send`. -/
def session_info_send (ws : worker_st) : result Unit :=
  let ua := if ws.req.user_agent ≠ [] then some ws.req.user_agent else none
  if ws.udp_state ≠ udp_state_t.UP_DISABLED then
    match ws.req.selected_ciphersuite with
    | none => result.null_deref ws
    | some cs => result.ok () (ws.act (Event.session_info_msg ws.session_set (some cs.oc_name) ua))
  else result.ok () (ws.act (Event.session_info_msg ws.session_set none ua))

/-- Lines 1354-1401 of `connect_handler`: buffer adjustment, `X-CSTP-MTU`,
the MTU report, the end of the response and the session-info message. -/
def connect_handler_finish (w : world) (ws : worker_st) (mtu_overhead dtls_mtu : Nat) :
    result conn_out :=
  let need := (ws.conn_mtu + mtu_overhead) % U32
  if ws.buffer_size ≤ need ∧ w.realloc_ok = false then
    exit_label { ws with buffer_size := need }
  else
    let ws1 := if ws.buffer_size ≤ need then { ws with buffer_size := need } else ws
    let overhead : Int := 8 + w.tls_overhead
    let cstp_mtu := u32 ((ws1.conn_mtu : Int) - overhead)
    let cstp_mtu1 := if dtls_mtu > 0 then min cstp_mtu dtls_mtu else cstp_mtu
    send_line w ws1 (Event.tls_printf_u "X-CSTP-MTU: %u\r\n" cstp_mtu1) fun ws2 =>
    let ws3 := mtu_send ws2 ws2.conn_mtu
    send_opt w ws3 ws3.config.banner "X-CSTP-Banner: %s\r\n" fun ws4 =>
    send_line w ws4 (Event.tls_puts "\r\n") fun ws5 =>
    send_line w ws5 Event.tls_uncork fun ws6 =>
    let tnow := w.gettime ws6.io_log.length
    let ws7 := { ws6 with last_msg_tcp := tnow, last_msg_udp := tnow }
    (session_info_send ws7).replace (conn_out.tunnel mtu_overhead dtls_mtu)

/-- Lines 1274-1350 of `connect_handler`: the `X-DTLS-*` headers and the
datagram part of the MTU computation (`udp_state != UP_DISABLED`). -/
def connect_handler_udp (w : world) (ws : worker_st) : result conn_out :=
  send_line w ws (Event.tls_printf_hex "X-DTLS-Session-ID: %s\r\n" ws.session_id) fun ws1 =>
  send_line w ws1 (Event.tls_printf_u "X-DTLS-DPD: %u\r\n" ws1.config.dpd) fun ws2 =>
  send_line w ws2 (Event.tls_printf_u "X-DTLS-Port: %u\r\n" ws2.config.udp_port) fun ws3 =>
  send_line w ws3 (Event.tls_printf_u "X-DTLS-Rekey-Time: %u\r\n"
    (u32 (2 * ws3.config.cookie_validity) / 3)) fun ws4 =>
  send_line w ws4 (Event.tls_printf_u "X-DTLS-Keepalive: %u\r\n" ws4.config.keepalive) fun ws5 =>
  match ws5.req.selected_ciphersuite with
  | none => result.null_deref ws5
  | some cs =>
    send_line w ws5 (Event.tls_printf_s "X-DTLS-CipherSuite: %s\r\n" cs.oc_name) fun ws6 =>
    let mtu_overhead : Nat := (if ws6.proto_inet then 20 + 1 else 40 + 1) + 8
    let ws7 := { ws6 with
      conn_mtu := min ws6.conn_mtu (u32 ((ws6.vinfo.mtu : Int) - mtu_overhead)) }
    let overhead : Int := 1 + w.dtls_overhead cs
    let ws8 :=
      if ws7.req.dtls_mtu ≤ 0 then { ws7 with req := { ws7.req with dtls_mtu := ws7.req.cstp_mtu } }
      else ws7
    let ws9 :=
      if ws8.req.dtls_mtu > 0 then
        { ws8 with
          conn_mtu := min (u32 ((ws8.req.dtls_mtu : Int) + overhead + mtu_overhead)) ws8.conn_mtu }
      else ws8
    let dtls_mtu := u32 ((ws9.conn_mtu : Int) - overhead)
    let ws10 := ws9.act (Event.tls_printf_u "X-DTLS-MTU: %u\r\n" dtls_mtu)
    connect_handler_finish w ws10 mtu_overhead dtls_mtu

/-- Lines 1236-1258 of `connect_handler`: `conn_mtu` for the reliable channel
from the device MTU and the result of `getsockopt(TCP_MAXSEG)` (`none` when the
call fails).  `mtu_overhead` is `CSTP_OVERHEAD = 8` here. -/
def tcp_conn_mtu (mtu : Nat) (maxseg : Option Int) : Nat :=
  let mtu_overhead : Nat := 8
  let conn_mtu := u32 ((mtu : Int) - mtu_overhead)
  match maxseg with
  | none => conn_mtu
  | some m => min conn_mtu (u32 (m - 13 - mtu_overhead))

/-- Lines 1232-1352 of `connect_handler`: the MTU of the reliable channel from
`vinfo.mtu` and the TCP MSS, then the datagram part if the channel is enabled. -/
def connect_handler_mtu (w : world) (ws : worker_st) : result conn_out :=
  let ws1 :=
    if ws.config.default_mtu > 0 then
      { ws with vinfo := { ws.vinfo with mtu := ws.config.default_mtu } }
    else ws
  let ws2 := { ws1 with
    conn_mtu := tcp_conn_mtu ws1.vinfo.mtu (w.tcp_maxseg ws1.io_log.length) }
  if ws2.udp_state ≠ udp_state_t.UP_DISABLED then connect_handler_udp w ws2
  else connect_handler_finish w ws2 8 0

/-- Lines 1096-1230 of `connect_handler`: the `200 CONNECTED` response and the
`X-CSTP-*` headers; the datagram channel is enabled on the way. -/
def connect_handler_reply (w : world) (ws : worker_st) : result conn_out :=
  let ws1 := if ws.config.auth_timeout ≠ 0 then ws.act Event.alarm_off else ws
  let ws2 := { ws1 with req := { ws1.req with url := "", value := [] } }
  let ws3 := ws2.act Event.tls_cork
  send_line w ws3 (Event.tls_puts "HTTP/1.1 200 CONNECTED\r\n") fun ws4 =>
  send_line w ws4 (Event.tls_puts "X-CSTP-Version: 1\r\n") fun ws5 =>
  send_line w ws5 (Event.tls_printf_u "X-CSTP-DPD: %u\r\n" ws5.config.dpd) fun ws6 =>
  send_opt w ws6 ws6.config.default_domain "X-CSTP-Default-Domain: %s\r\n" fun ws7 =>
  let ws8 :=
    if ws7.config.udp_port ≠ 0 ∧ ws7.req.master_secret_set ≠ 0 then
      { ws7 with master_secret := ws7.req.master_secret, udp_state := udp_state_t.UP_WAIT_FD }
    else { ws7 with udp_state := udp_state_t.UP_DISABLED }
  send_addr w ws8 ws8.vinfo.ipv4 ws8.vinfo.ipv4_netmask ws8.vinfo.ipv4_dns ws8.vinfo.ipv4_nbns
    ws8.req.no_ipv4 fun ws9 =>
  send_addr w ws9 ws9.vinfo.ipv6 ws9.vinfo.ipv6_netmask ws9.vinfo.ipv6_dns ws9.vinfo.ipv6_nbns
    ws9.req.no_ipv6 fun ws10 =>
  send_routes w ws10.req.no_ipv4 ws10.req.no_ipv6 ws10.vinfo.routes ws10 fun ws11 =>
  send_routes w ws11.req.no_ipv4 ws11.req.no_ipv6 ws11.routes ws11 fun ws12 =>
  send_line w ws12 (Event.tls_printf_u "X-CSTP-Keepalive: %u\r\n" ws12.config.keepalive)
    fun ws13 =>
  send_line w ws13 (Event.tls_puts "X-CSTP-Smartcard-Removal-Disconnect: true\r\n") fun ws14 =>
  send_line w ws14 (Event.tls_printf_u "X-CSTP-Rekey-Time: %u\r\n"
    (u32 (2 * ws14.config.cookie_validity) / 3)) fun ws15 =>
  send_line w ws15 (Event.tls_puts "X-CSTP-Rekey-Method: new-tunnel\r\n") fun ws16 =>
  send_line w ws16 (Event.tls_puts
    "X-CSTP-Session-Timeout: none\r\nX-CSTP-Idle-Timeout: none\r\nX-CSTP-Disconnected-Timeout: none\r\nX-CSTP-Keep: true\r\nX-CSTP-TCP-Keepalive: true\r\nX-CSTP-Tunnel-All-DNS: false\r\nX-CSTP-License: accept\r\n")
    fun ws17 =>
  connect_handler_mtu w ws17

/-- The function `connect_handler` from its entry to the entry of the main
loop.  `auth_cookie` is the cookie verifier of the authentication module; only
its return value is used here. -/
def connect_handler (w : world) (ws : worker_st) : result conn_out :=
  let ws1 := { ws with buffer_size := 16 * 1024 }
  if w.malloc_ok = false then
    result.exited ((ws1.act (Event.tls_puts "HTTP/1.1 503 Service Unavailable\r\n\r\n")).act
      Event.tls_close)
  else if ws1.auth_state ≠ auth_state_t.S_AUTH_COMPLETE ∧ ws1.req.cookie_set = 0 then
    result.exited ((ws1.act (Event.tls_puts "HTTP/1.1 503 Service Unavailable\r\n\r\n")).act
      Event.tls_fatal_close)
  else if ws1.auth_state ≠ auth_state_t.S_AUTH_COMPLETE ∧ w.auth_cookie_ret < 0 then
    result.exited ((ws1.act (Event.tls_puts "HTTP/1.1 503 Service Unavailable\r\n\r\n")).act
      Event.tls_fatal_close)
  else if ws1.req.url ≠ "/CSCOSSLC/tunnel" then
    result.exited ((ws1.act (Event.tls_puts "HTTP/1.1 404 Nah, go away\r\n\r\n")).act
      Event.tls_fatal_close)
  else if ws1.config.network_name = none then
    result.ok (conn_out.ret (-1))
      ((ws1.act (Event.tls_puts "HTTP/1.1 503 Service Unavailable\r\n")).act
        (Event.tls_puts "X-Reason: Server configuration error\r\n\r\n"))
  else
    let ws2 := { ws1 with vinfo := w.rt_vpn_info.2 }
    if w.rt_vpn_info.1 < 0 then
      result.ok (conn_out.ret (-1))
        ((ws2.act (Event.tls_puts "HTTP/1.1 503 Service Unavailable\r\n")).act
          (Event.tls_puts "X-Reason: Server configuration error\r\n\r\n"))
    else connect_handler_reply w ws2

/-! ## Periodic check and the handshake case of the UDP arm -/

/-- Lines 942-960 of `periodic_check`: the poll of the TCP MSS and the update
of `last_periodic_check`. -/
def periodic_check_mss (w : world) (ws : worker_st) (mtu_overhead : Nat) (now : Int) :
    Int × worker_st :=
  let ws1 :=
    match w.tcp_maxseg ws.io_log.length with
    | none => ws
    | some m =>
      let max := m - 13
      if max > 0 ∧ u32 (max - mtu_overhead) < ws.conn_mtu then
        mtu_set ws (min ws.conn_mtu (u32 (max - mtu_overhead)))
      else ws
  (0, { ws1 with last_periodic_check := now })

/-- Lines 905-919 of `periodic_check`: dead peer detection on the datagram
channel. -/
def periodic_check_udp (c : pkt_types) (ws : worker_st) (now : Int) : worker_st :=
  if ws.udp_state = udp_state_t.UP_ACTIVE ∧
      now - ws.last_msg_udp > (((2 * ws.config.dpd) % U32 : Nat) : Int) then
    let ws0 := ws.act (Event.record_send channel.dtls [c.AC_PKT_DPD_OUT])
    if now - ws0.last_msg_udp > (((3 * ws0.config.dpd) % U32 : Nat) : Int) then
      { ws0 with udp_state := udp_state_t.UP_INACTIVE }
    else ws0
  else ws

/-- The function `periodic_check`; the pair is the return value and the state
after the call.  `now` and the time stamps are `time_t` values, the DPD
products are `unsigned`. -/
def periodic_check (c : pkt_types) (w : world) (ws : worker_st) (mtu_overhead : Nat)
    (now : Int) : Int × worker_st :=
  if now - ws.last_periodic_check < 30 then (0, ws)
  else
    let ws1 := periodic_check_udp c ws now
    if now - ws1.last_msg_tcp > (((2 * ws1.config.dpd) % U32 : Nat) : Int) then
      let ws2 :=
        ws1.act (Event.record_send channel.tls [83, 84, 70, 1, 0, 0, c.AC_PKT_DPD_OUT, 0])
      if now - ws2.last_msg_tcp > (((3 * ws2.config.dpd) % U32 : Nat) : Int) then (-1, ws2)
      else periodic_check_mss w ws2 mtu_overhead now
    else periodic_check_mss w ws1 mtu_overhead now

/-- The case `UP_HANDSHAKE` of the UDP arm of the main loop (lines 1643-1689);
`dtls_mtu` is the local of `connect_handler`.  After `mtu_not_ok` the test
`ret == 0` still sees `GNUTLS_E_LARGE_PACKET`, so `hsk_restart` is not taken. -/
def udp_arm_handshake (w : world) (ws : worker_st) (dtls_mtu : Nat) : worker_st :=
  let ret := w.handshake_ret ws.io_log.length
  let ws0 := ws.act Event.dtls_handshake
  if ret < 0 ∧ w.error_is_fatal ret = true then
    { ws0 with udp_state := udp_state_t.UP_DISABLED }
  else
    let ws1 := if ret = GNUTLS_E_LARGE_PACKET then (mtu_not_ok ws0).2 else ws0
    if ret = 0 then
      let mtu := w.dtls_data_mtu ws1.io_log.length
      let mtu1 := if mtu > dtls_mtu then dtls_mtu else mtu
      let ws2 := { ws1 with udp_state := udp_state_t.UP_ACTIVE }
      let ws3 := mtu_discovery_init ws2 mtu1
      mtu_set ws3 mtu1
    else ws1

/-! ## Request headers (`value_check`) -/

/-- Modelled from the spec: `TLS_MASTER_SIZE`, the size of the TLS master secret
in bytes, is declared in a header that is not part of the sources at hand; the
specification gives the master secret 48 bytes and requires at least 96
hexadecimal characters in the header. -/
def TLS_MASTER_SIZE : Nat := 48

/-- Library functions and size constants used by `value_check` that are not
defined in this file. -/
structure http_env where
  value_malloc_ok : Bool
  hex2bin : List Char → List Nat
  atoi : List Char → Int
  base64_decode : List Char → Bool × List Nat
  MAX_HOSTNAME_SIZE : Nat
  MAX_AGENT_NAME : Nat
  COOKIE_SIZE : Nat
  SID_SIZE : Nat

/-- The table `ciphersuites` (built against gnutls 3.2.7 or later). -/
def ciphersuites : List dtls_ciphersuite_st :=
  [ { oc_name := "OC-DTLS1_2-ESALSA20-SHA",
      gnutls_name := "NONE:+VERS-DTLS1.2:+COMP-NULL:+ESTREAM-SALSA20-256:+SHA1:+RSA:%COMPAT:%DISABLE_SAFE_RENEGOTIATION",
      gnutls_version := "GNUTLS_DTLS1_2", gnutls_mac := "GNUTLS_MAC_SHA1",
      gnutls_cipher := "GNUTLS_CIPHER_ESTREAM_SALSA20_256", server_prio := 100 },
    { oc_name := "OC-DTLS1_2-SALSA20-SHA",
      gnutls_name := "NONE:+VERS-DTLS1.2:+COMP-NULL:+SALSA20-256:+SHA1:+RSA:%COMPAT:%DISABLE_SAFE_RENEGOTIATION",
      gnutls_version := "GNUTLS_DTLS1_2", gnutls_mac := "GNUTLS_MAC_SHA1",
      gnutls_cipher := "GNUTLS_CIPHER_SALSA20_256", server_prio := 100 },
    { oc_name := "OC-DTLS1_2-AES128-GCM",
      gnutls_name := "NONE:+VERS-DTLS1.2:+COMP-NULL:+AES-128-GCM:+AEAD:+RSA:%COMPAT:%DISABLE_SAFE_RENEGOTIATION:+SIGN-ALL",
      gnutls_version := "GNUTLS_DTLS1_2", gnutls_mac := "GNUTLS_MAC_AEAD",
      gnutls_cipher := "GNUTLS_CIPHER_AES_128_GCM", server_prio := 90 },
    { oc_name := "OC-DTLS1_2-AES256-GCM",
      gnutls_name := "NONE:+VERS-DTLS1.2:+COMP-NULL:+AES-256-GCM:+AEAD:+RSA:%COMPAT:%DISABLE_SAFE_RENEGOTIATION:+SIGN-ALL",
      gnutls_version := "GNUTLS_DTLS1_2", gnutls_mac := "GNUTLS_MAC_AEAD",
      gnutls_cipher := "GNUTLS_CIPHER_AES_256_GCM", server_prio := 80 },
    { oc_name := "AES128-SHA",
      gnutls_name := "NONE:+VERS-DTLS0.9:+COMP-NULL:+AES-128-CBC:+SHA1:+RSA:%COMPAT:%DISABLE_SAFE_RENEGOTIATION",
      gnutls_version := "GNUTLS_DTLS0_9", gnutls_mac := "GNUTLS_MAC_SHA1",
      gnutls_cipher := "GNUTLS_CIPHER_AES_128_CBC", server_prio := 50 },
    { oc_name := "DES-CBC3-SHA",
      gnutls_name := "NONE:+VERS-DTLS0.9:+COMP-NULL:+3DES-CBC:+SHA1:+RSA:%COMPAT:%DISABLE_SAFE_RENEGOTIATION",
      gnutls_version := "GNUTLS_DTLS0_9", gnutls_mac := "GNUTLS_MAC_SHA1",
      gnutls_cipher := "GNUTLS_CIPHER_3DES_CBC", server_prio := 1 } ]

/-- The C string held in a buffer: the characters before the first NUL. -/
def c_str (v : List Char) : List Char := v.takeWhile (fun ch => ch ≠ Char.ofNat 0)

/-- The tokens that successive calls of `strtok` with the single delimiter
`delim` return: the maximal non-empty runs of other characters.  `cur` is the
token being read. -/
def strtok_go (delim : Char) : List Char → List Char → List (List Char)
  | [], cur => if cur = [] then [] else [cur]
  | ch :: rest, cur =>
    if ch = delim then
      if cur = [] then strtok_go delim rest [] else cur :: strtok_go delim rest []
    else strtok_go delim rest (cur ++ [ch])

/-- All tokens of the C string `s`. -/
def strtok_all (delim : Char) (s : List Char) : List (List Char) := strtok_go delim s []

/-- The body of the `for` loop over the table for one token: an entry whose
`oc_name` equals the token replaces the selection if nothing is selected yet or
the selected entry has a smaller `server_prio`. -/
def select_entry (token : List Char) (sel : Option dtls_ciphersuite_st)
    (e : dtls_ciphersuite_st) : Option dtls_ciphersuite_st :=
  if token = e.oc_name.data then
    match sel with
    | none => some e
    | some cur => if cur.server_prio < e.server_prio then some e else some cur
  else sel

/-- The `while` loop of the case `HEADER_DTLS_CIPHERSUITE`, started from `sel`. -/
def select_ciphersuite (tbl : List dtls_ciphersuite_st) (tokens : List (List Char))
    (sel : Option dtls_ciphersuite_st) : Option dtls_ciphersuite_st :=
  tokens.foldl (fun acc token => tbl.foldl (select_entry token) acc) sel

/-- The function `c_isspace` of gnulib. -/
def c_isspace (ch : Char) : Bool :=
  ch = ' ' ∨ ch = '\t' ∨ ch = '\n' ∨ ch = Char.ofNat 11 ∨ ch = Char.ofNat 12 ∨ ch = '\r'

/-- Whether the C string `s` begins with the literal `lit` (`strncmp` over the
length of the literal). -/
def starts_with (lit s : List Char) : Bool := s.take lit.length = lit

/-- The loop `while (tmplen > 1 && c_isspace(p[tmplen-1])) tmplen--`, on the
reversed string. -/
def trim_rev : List Char → List Char
  | [] => []
  | [ch] => [ch]
  | ch :: rest => if c_isspace ch then trim_rev rest else ch :: rest

/-- The text that is handed to `base64_decode`: `tmplen` characters of `p`. -/
def trim_tail (p : List Char) : List Char := (trim_rev p.reverse).reverse

/-- One round of the `while` loop of the case `HEADER_COOKIE`. -/
def cookie_token (env : http_env) (ws : worker_st) (token : List Char) : worker_st :=
  let p := token.dropWhile c_isspace
  if starts_with "webvpn=".data p then
    let d := env.base64_decode (trim_tail (p.drop 7))
    { ws with req := { ws.req with
        cookie := d.2,
        cookie_set := if d.1 = false ∨ d.2.length ≠ env.COOKIE_SIZE then 0 else 1 } }
  else if starts_with "webvpncontext=".data p then
    let d := env.base64_decode (trim_tail (p.drop 14))
    { ws with
        sid := d.2,
        req := { ws.req with
          sid_cookie_set := if d.1 = false ∨ d.2.length ≠ env.SID_SIZE then 0 else 1 } }
  else ws

/-- The function `value_check`, with the ciphersuite table as an argument. -/
def value_check (env : http_env) (tbl : List dtls_ciphersuite_st) (ws : worker_st) :
    worker_st :=
  let req := ws.req
  if req.value.length ≤ 0 then ws
  else if env.value_malloc_ok = false then ws
  else
    let value := c_str req.value
    match req.next_header with
    | header_t.HEADER_MASTER_SECRET =>
      if req.value.length < TLS_MASTER_SIZE * 2 then
        { ws with req := { req with master_secret_set := 0 } }
      else
        { ws with req := { req with
            master_secret := env.hex2bin (req.value.take (TLS_MASTER_SIZE * 2)),
            master_secret_set := 1 } }
    | header_t.HEADER_HOSTNAME =>
      if req.value.length + 1 > env.MAX_HOSTNAME_SIZE then
        { ws with req := { req with hostname := [] } }
      else { ws with req := { req with hostname := value } }
    | header_t.HEADER_USER_AGENT =>
      if req.value.length + 1 > env.MAX_AGENT_NAME then
        { ws with req := { req with user_agent := [] } }
      else { ws with req := { req with user_agent := value } }
    | header_t.HEADER_DTLS_CIPHERSUITE =>
      { ws with req := { req with
          selected_ciphersuite := select_ciphersuite tbl (strtok_all ':' value) none } }
    | header_t.HEADER_CSTP_MTU =>
      { ws with req := { req with cstp_mtu := u32 (env.atoi value) } }
    | header_t.HEADER_CSTP_ATYPE =>
      let req1 := if "IPv4".data <:+: req.value then req else { req with no_ipv4 := 1 }
      let req2 := if "IPv6".data <:+: req.value then req1 else { req1 with no_ipv6 := 1 }
      { ws with req := req2 }
    | header_t.HEADER_DTLS_MTU =>
      { ws with req := { req with dtls_mtu := u32 (env.atoi value) } }
    | header_t.HEADER_COOKIE =>
      (strtok_all ';' value).foldl (cookie_token env) ws
    | _ => ws

/-- Replace the selection by `e` unless the selected entry has at least its priority. -/
def pick_entry (sel : Option dtls_ciphersuite_st) (e : dtls_ciphersuite_st) :
    Option dtls_ciphersuite_st :=
  match sel with
  | none => some e
  | some cur => if cur.server_prio < e.server_prio then some e else some cur

/-! ## The main loop of `connect_handler` -/

/-- Modelled from the spec: the macro `GNUTLS_FATAL_ERR` is defined in a header
that is not part of the sources at hand.  By the specification a fatal error
of the record layer ends the worker; the macro fires for a negative code that
`gnutls_error_is_fatal` reports as fatal. -/
def GNUTLS_FATAL_ERR (w : world) (ret : Int) : Bool :=
  decide (ret < 0) && w.error_is_fatal ret

/-- Modelled from the spec: `handle_worker_commands` is defined outside this
file.  By the specification the hand-over of the UDP file descriptor takes
`udp_state` from `WAIT_FD` to `SETUP`, and a negative return value is fatal.
The pair is the return value and the state after the call. -/
def handle_worker_commands (ws : worker_st) (udp_fd_handover : Bool) (ret : Int) :
    Int × worker_st :=
  if udp_fd_handover = true ∧ ws.udp_state = udp_state_t.UP_WAIT_FD then
    (ret, { ws with udp_state := udp_state_t.UP_SETUP })
  else (ret, ws)

/-- Modelled from the spec: the comparison `udp_state > UP_WAIT_FD`.  The
enumeration is declared in a header that is not part of the sources at hand;
by the specification its order is `DISABLED`, `WAIT_FD`, `SETUP`, `HANDSHAKE`,
`ACTIVE`, `INACTIVE`, so the comparison holds for the four states after
`WAIT_FD`. -/
def udp_state_t.after_wait_fd : udp_state_t → Bool
  | udp_state_t.UP_DISABLED => false
  | udp_state_t.UP_WAIT_FD => false
  | _ => true

/-- The result of `read` on the tun device: an error (`l < 0`, with whether
`errno` is `EAGAIN` or `EINTR`) or the bytes read (`l` is their number). -/
inductive tun_read where
  | error (transient : Bool)
  | data (p : List Nat)
deriving DecidableEq, Repr

/-- The result of `tls_recv`: a code that is not a byte count, or the bytes
received (`ret` is their number). -/
inductive net_read where
  | code (ret : Int)
  | data (b : List Nat)
deriving DecidableEq, Repr

/-- The value `ret` of a receive. -/
def net_read.ret : net_read → Int
  | net_read.code r => r
  | net_read.data b => b.length

/-- The bytes of a receive. -/
def net_read.bytes : net_read → List Nat
  | net_read.code _ => []
  | net_read.data b => b

/-- How an arm of the loop body ends: control falls through to the next arm, or
a `continue` starts the next iteration. -/
inductive flow where
  | next
  | continue_loop
deriving DecidableEq, Repr

/-- Lines 1512-1524: the packet is framed with the 8-byte header and sent on
the reliable channel. -/
def tun_send_tls (c : pkt_types) (w : world) (ws : worker_st) (p : List Nat) : result flow :=
  let ret := w.send_ret ws.io_log.length
  let ws1 := ws.act (Event.record_send channel.tls (cstp_header p.length c.AC_PKT_DATA ++ p))
  if GNUTLS_FATAL_ERR w ret = true then result.exited ws1 else result.ok flow.next ws1

/-- The tun arm of the loop body (lines 1464-1527).  `rd` is the result of the
`read`, `tx_allowed` whether `bandwidth_update` admits the packet. -/
def tun_arm (c : pkt_types) (w : world) (ws : worker_st) (rd : tun_read) (tx_allowed : Bool) :
    result flow :=
  match rd with
  | tun_read.error transient =>
    if transient = true then result.ok flow.continue_loop ws else exit_label ws
  | tun_read.data p =>
    if p.length = 0 then result.ok flow.continue_loop ws
    else if tx_allowed = false then result.ok flow.next ws
    else if ws.udp_state = udp_state_t.UP_ACTIVE then
      let ret := w.send_ret ws.io_log.length
      let ws1 := ws.act (Event.record_send channel.dtls (c.AC_PKT_DATA :: p))
      if GNUTLS_FATAL_ERR w ret = true then result.exited ws1
      else if ret = GNUTLS_E_LARGE_PACKET then
        tun_send_tls c w (mtu_not_ok ws1).2 p
      else
        let ws2 :=
          if u32 ret ≥ ws1.conn_mtu ∧ ws1.config.try_mtu ≠ 0 then mtu_ok ws1 else ws1
        if ws2.udp_state ≠ udp_state_t.UP_ACTIVE then tun_send_tls c w ws2 p
        else result.ok flow.next ws2
    else tun_send_tls c w ws p

/-- The loop `do ret = gnutls_handshake(ws->session); while (ret < 0 &&
gnutls_error_is_fatal(ret) == 0)`.  At most `fuel + 1` calls are made; `none`
means that the loop has not ended by then. -/
def handshake_loop (w : world) : Nat → worker_st → Option (Int × worker_st)
  | fuel, ws =>
    let ret := w.handshake_ret ws.io_log.length
    let ws1 := ws.act Event.tls_handshake
    if ret < 0 ∧ w.error_is_fatal ret = false then
      match fuel with
      | 0 => none
      | n + 1 => handshake_loop w n ws1
    else some (ret, ws1)

/-- Lines 1567-1582: the answer to `GNUTLS_E_REHANDSHAKE` on the reliable
channel. -/
def tls_rekey (w : world) (fuel : Nat) (ws : worker_st) (now : Int) : Option (result Unit) :=
  if ws.last_tls_rehandshake > 0 ∧
      now - ws.last_tls_rehandshake < ((ws.config.cookie_validity / 3 : Nat) : Int) then
    some (exit_label ws)
  else
    match handshake_loop w fuel ws with
    | none => none
    | some (ret, ws1) =>
      if GNUTLS_FATAL_ERR w ret = true then some (result.exited ws1)
      else some (result.ok () { ws1 with last_tls_rehandshake := now })

/-- Lines 1542-1565: a positive `ret` of `tls_recv` is parsed as a reliable
frame unless the RX limiter drops it; the value is `ret` after the block. -/
def tls_arm_data (c : pkt_types) (w : world) (ws : worker_st) (b : List Nat)
    (rx_allowed : Bool) (now udp_recv_time : Int) : result Int :=
  if rx_allowed = false then result.ok b.length ws
  else
    match parse_cstp_data c w ws b now with
    | result.ok r ws1 =>
      if r < 0 then exit_label ws1
      else if r = c.AC_PKT_DATA ∧ ws1.udp_state = udp_state_t.UP_ACTIVE ∧
          now - udp_recv_time > 15 then
        result.ok r { ws1 with udp_state := udp_state_t.UP_INACTIVE }
      else result.ok r ws1
    | result.exited ws1 => result.exited ws1
    | result.null_deref ws1 => result.null_deref ws1

/-- The reliable-receive arm of the loop body (lines 1529-1583). -/
def tls_arm (c : pkt_types) (w : world) (fuel : Nat) (ws : worker_st) (rcv : net_read)
    (rx_allowed : Bool) (now udp_recv_time : Int) : Option (result Unit) :=
  if GNUTLS_FATAL_ERR w rcv.ret = true then some (result.exited ws)
  else if rcv.ret = 0 then some (result.exited ws)
  else
    match (if rcv.ret > 0 then tls_arm_data c w ws rcv.bytes rx_allowed now udp_recv_time
           else result.ok rcv.ret ws) with
    | result.ok ret ws1 =>
      if ret = GNUTLS_E_REHANDSHAKE then tls_rekey w fuel ws1 now
      else some (result.ok () ws1)
    | result.exited ws1 => some (result.exited ws1)
    | result.null_deref ws1 => some (result.null_deref ws1)

/-- The function `setup_dtls_connection`; `dtls_init_ok` says whether the gnutls
calls that build the session all succeed. -/
def setup_dtls_connection (w : world) (ws : worker_st) : Int × worker_st :=
  match ws.req.selected_ciphersuite with
  | none => (-1, ws)
  | some _ =>
    if w.dtls_init_ok ws.io_log.length = false then (-1, ws)
    else (0, { ws with udp_state := udp_state_t.UP_HANDSHAKE, dtls_session_set := true })

/-- Lines 1600-1620: a positive `ret` of the datagram receive makes the channel
active and is parsed as a datagram frame unless the RX limiter drops it; the
value is `ret` after the block. -/
def udp_arm_parse (c : pkt_types) (w : world) (ws : worker_st) (rcv : net_read)
    (rx_allowed : Bool) (now : Int) : result Int :=
  if rcv.ret > 0 then
    if rx_allowed = false then
      result.ok rcv.ret { ws with udp_state := udp_state_t.UP_ACTIVE }
    else
      match parse_dtls_data c w { ws with udp_state := udp_state_t.UP_ACTIVE } rcv.bytes now with
      | result.ok r ws2 => if r < 0 then exit_label ws2 else result.ok r ws2
      | result.exited ws2 => result.exited ws2
      | result.null_deref ws2 => result.null_deref ws2
  else result.ok rcv.ret ws

/-- The cases `UP_ACTIVE` / `UP_INACTIVE` of the UDP arm (lines 1589-1632); the
value is the new `udp_recv_time`. -/
def udp_arm_recv (c : pkt_types) (w : world) (ws : worker_st) (rcv : net_read)
    (rx_allowed : Bool) (now : Int) : result Int :=
  if GNUTLS_FATAL_ERR w rcv.ret = true then result.exited ws
  else
    match udp_arm_parse c w ws rcv rx_allowed now with
    | result.ok ret ws3 =>
      if ret = GNUTLS_E_REHANDSHAKE then
        if GNUTLS_FATAL_ERR w (w.send_ret ws3.io_log.length) = true then
          result.exited (ws3.act Event.dtls_alert_no_renegotiation)
        else result.ok now (ws3.act Event.dtls_alert_no_renegotiation)
      else result.ok now ws3
    | result.exited ws3 => result.exited ws3
    | result.null_deref ws3 => result.null_deref ws3

/-- The UDP arm of the loop body (the `switch` of lines 1588-1692); the value
is `udp_recv_time` after the arm. -/
def udp_arm (c : pkt_types) (w : world) (ws : worker_st) (rcv : net_read) (rx_allowed : Bool)
    (now : Int) (dtls_mtu : Nat) (udp_recv_time : Int) : result Int :=
  match ws.udp_state with
  | udp_state_t.UP_ACTIVE => udp_arm_recv c w ws rcv rx_allowed now
  | udp_state_t.UP_INACTIVE => udp_arm_recv c w ws rcv rx_allowed now
  | udp_state_t.UP_SETUP =>
    if (setup_dtls_connection w ws).1 < 0 then exit_label (setup_dtls_connection w ws).2
    else
      let ws1 := (setup_dtls_connection w ws).2
      result.ok udp_recv_time
        (mtu_discovery_init (ws1.act (Event.dtls_set_mtu ws1.conn_mtu)) ws1.conn_mtu)
  | udp_state_t.UP_HANDSHAKE => result.ok udp_recv_time (udp_arm_handshake w ws dtls_mtu)
  | _ => result.ok udp_recv_time ws

/-- The locals of `connect_handler` that live across iterations of the loop. -/
structure loop_locals where
  mtu_overhead : Nat
  dtls_mtu : Nat
  udp_recv_time : Int
  dtls_pending : Nat
deriving DecidableEq, Repr

/-- What the outside world supplies to one iteration of the loop: the
`terminate` flag, the pending counts of the record layer, the outcome of the
`select`, the clock, and the results of the reads that the iteration may issue. -/
structure loop_input where
  terminate : Bool
  tls_pending : Nat
  dtls_pending : Nat
  select_ret : Int
  select_eintr : Bool
  tun_ready : Bool
  conn_ready : Bool
  udp_ready : Bool
  cmd_ready : Bool
  now : Int
  tun : tun_read
  tx_allowed : Bool
  tls_recv : net_read
  tls_rx_allowed : Bool
  dtls_recv : net_read
  dtls_rx_allowed : Bool
  udp_fd_handover : Bool
  cmd_ret : Int
  fuel : Nat

/-- Lines 1695-1700 and the end of the loop body: the control socket. -/
def loop_cmd (inp : loop_input) (cmd_ready : Bool) (loc : loop_locals) (ws : worker_st) :
    result loop_locals :=
  if cmd_ready = true then
    if (handle_worker_commands ws inp.udp_fd_handover inp.cmd_ret).1 < 0 then
      exit_label (handle_worker_commands ws inp.udp_fd_handover inp.cmd_ret).2
    else result.ok loc (handle_worker_commands ws inp.udp_fd_handover inp.cmd_ret).2
  else result.ok loc ws

/-- Lines 1585-1700 of the loop body: the UDP arm, then the control socket. -/
def loop_udp (c : pkt_types) (w : world) (inp : loop_input) (udp_ready cmd_ready : Bool)
    (loc : loop_locals) (ws : worker_st) : result loop_locals :=
  if ws.udp_state.after_wait_fd = true ∧ (udp_ready = true ∨ loc.dtls_pending ≠ 0) then
    match udp_arm c w ws inp.dtls_recv inp.dtls_rx_allowed inp.now loc.dtls_mtu
        loc.udp_recv_time with
    | result.ok t ws1 => loop_cmd inp cmd_ready { loc with udp_recv_time := t } ws1
    | result.exited ws1 => result.exited ws1
    | result.null_deref ws1 => result.null_deref ws1
  else loop_cmd inp cmd_ready loc ws

/-- Lines 1529-1700 of the loop body: the reliable-receive arm and what follows. -/
def loop_tls (c : pkt_types) (w : world) (inp : loop_input) (conn_ready udp_ready cmd_ready : Bool)
    (loc : loop_locals) (ws : worker_st) : Option (result loop_locals) :=
  if conn_ready = true ∨ inp.tls_pending ≠ 0 then
    match tls_arm c w inp.fuel ws inp.tls_recv inp.tls_rx_allowed inp.now loc.udp_recv_time with
    | none => none
    | some (result.ok _ ws1) => some (loop_udp c w inp udp_ready cmd_ready loc ws1)
    | some (result.exited ws1) => some (result.exited ws1)
    | some (result.null_deref ws1) => some (result.null_deref ws1)
  else some (loop_udp c w inp udp_ready cmd_ready loc ws)

/-- Lines 1464-1700 of the loop body: the tun arm and what follows. -/
def loop_tun (c : pkt_types) (w : world) (inp : loop_input)
    (tun_ready conn_ready udp_ready cmd_ready : Bool) (loc : loop_locals) (ws : worker_st) :
    Option (result loop_locals) :=
  if tun_ready = true then
    match tun_arm c w ws inp.tun inp.tx_allowed with
    | result.ok flow.next ws1 => loop_tls c w inp conn_ready udp_ready cmd_ready loc ws1
    | result.ok flow.continue_loop ws1 => some (result.ok loc ws1)
    | result.exited ws1 => some (result.exited ws1)
    | result.null_deref ws1 => some (result.null_deref ws1)
  else loop_tls c w inp conn_ready udp_ready cmd_ready loc ws

/-- One iteration of the main loop (lines 1404-1702).  The value of a
returning outcome is the locals at the start of the next iteration; `none`
means that the rehandshake loop has not ended within `inp.fuel`.  When the
`select` is skipped, `FD_ISSET` sees the descriptors as `FD_SET` left them. -/
def loop_step (c : pkt_types) (w : world) (inp : loop_input) (loc : loop_locals)
    (ws : worker_st) : Option (result loop_locals) :=
  if inp.terminate = true then
    let ret := w.send_ret ws.io_log.length
    let ws1 := ws.act
      (Event.record_send channel.tls [83, 84, 70, 1, 0, 0, c.AC_PKT_TERM_SERVER, 0])
    if GNUTLS_FATAL_ERR w ret = true then some (result.exited ws1) else some (exit_label ws1)
  else
    let dtls_pending := if ws.dtls_session_set = true then inp.dtls_pending else loc.dtls_pending
    let loc1 := { loc with dtls_pending := dtls_pending }
    let waited : Bool := decide (inp.tls_pending = 0 ∧ dtls_pending = 0)
    if waited = true ∧ inp.select_ret = -1 then
      if inp.select_eintr = true then some (result.ok loc1 ws) else some (exit_label ws)
    else
      let tun_ready := if waited = true then inp.tun_ready else true
      let conn_ready := if waited = true then inp.conn_ready else true
      let cmd_ready := if waited = true then inp.cmd_ready else true
      let udp_ready := if waited = true then inp.udp_ready else ws.udp_state.after_wait_fd
      if (periodic_check c w ws loc1.mtu_overhead inp.now).1 < 0 then
        some (exit_label (periodic_check c w ws loc1.mtu_overhead inp.now).2)
      else
        loop_tun c w inp tun_ready conn_ready udp_ready cmd_ready loc1
          (periodic_check c w ws loc1.mtu_overhead inp.now).2

/-- The states of the tunnel loop that a session started in `ws0` can reach:
the state in which `connect_handler` enters the loop, and every state at the
start of a later iteration. -/
inductive tunnel_reach (c : pkt_types) (w : world) (ws0 : worker_st) :
    loop_locals → worker_st → Prop where
  | entry (o d : Nat) (ws1 : worker_st)
      (h : connect_handler w ws0 = result.ok (conn_out.tunnel o d) ws1) :
      tunnel_reach c w ws0
        { mtu_overhead := o, dtls_mtu := d, udp_recv_time := 0, dtls_pending := 0 } ws1
  | step (inp : loop_input) (loc loc1 : loop_locals) (ws ws1 : worker_st)
      (hr : tunnel_reach c w ws0 loc ws)
      (h : loop_step c w inp loc ws = some (result.ok loc1 ws1)) :
      tunnel_reach c w ws0 loc1 ws1

/-- A property `P` of the session state that is kept by every state change the
loop body can perform: the actions on the log, the time stamps of the two
channels and of the periodic check (the stamp of the last rekey is treated
apart, where a rekey is accepted), the three
ways the MTU is changed (`mtu_not_ok`, `mtu_ok` while the datagram channel is
active, `mtu_set` to a value that is not larger), and the assignments to
`udp_state`, each from the states in which the loop body performs it.  `d` is
the local `dtls_mtu` that caps the MTU at the end of the DTLS handshake. -/
structure loop_closed (d : Nat) (P : worker_st → Prop) : Prop where
  log : ∀ (ws : worker_st) (l : List Event), P ws → P { ws with io_log := l }
  stamps : ∀ (ws : worker_st) (a b e : Int), P ws →
    P { ws with last_msg_tcp := a, last_msg_udp := b, last_periodic_check := e }
  not_ok : ∀ ws : worker_st, P ws →
    ws.udp_state = udp_state_t.UP_HANDSHAKE ∨ ws.udp_state = udp_state_t.UP_ACTIVE →
    P (mtu_not_ok ws).2
  ok : ∀ ws : worker_st, P ws → ws.udp_state = udp_state_t.UP_ACTIVE → P (mtu_ok ws)
  lower : ∀ (ws : worker_st) (m : Nat), P ws → m ≤ ws.conn_mtu → P (mtu_set ws m)
  inactive : ∀ ws : worker_st, P ws → ws.udp_state = udp_state_t.UP_ACTIVE →
    P { ws with udp_state := udp_state_t.UP_INACTIVE }
  active : ∀ ws : worker_st, P ws →
    ws.udp_state = udp_state_t.UP_ACTIVE ∨ ws.udp_state = udp_state_t.UP_INACTIVE →
    P { ws with udp_state := udp_state_t.UP_ACTIVE }
  setup : ∀ ws : worker_st, P ws → ws.udp_state = udp_state_t.UP_SETUP →
    P (mtu_discovery_init
      { ws with udp_state := udp_state_t.UP_HANDSHAKE, dtls_session_set := true } ws.conn_mtu)
  hs_fail : ∀ ws : worker_st, P ws → ws.udp_state = udp_state_t.UP_HANDSHAKE →
    P { ws with udp_state := udp_state_t.UP_DISABLED }
  hs_done : ∀ (ws : worker_st) (m : Nat), P ws → ws.udp_state = udp_state_t.UP_HANDSHAKE →
    m ≤ d → P (mtu_set (mtu_discovery_init { ws with udp_state := udp_state_t.UP_ACTIVE } m) m)
  handover : ∀ ws : worker_st, P ws → ws.udp_state = udp_state_t.UP_WAIT_FD →
    P { ws with udp_state := udp_state_t.UP_SETUP }

/-- The iterations of the loop for the inputs `inps`, as long as each returns;
the value is the locals and the state at the start of the next iteration. -/
def loop_run (c : pkt_types) (w : world) :
    List loop_input → loop_locals → worker_st → Option (loop_locals × worker_st)
  | [], loc, ws => some (loc, ws)
  | inp :: rest, loc, ws =>
    match loop_step c w inp loc ws with
    | some (result.ok loc1 ws1) => loop_run c w rest loc1 ws1
    | _ => none

/-- The buffer invariant of the tunnel loop for the locals `mtu_overhead = o`
and `dtls_mtu = d`: the buffer holds `conn_mtu + o` bytes and `d + o` bytes, and
while the datagram channel is past its setup it holds `last_bad_mtu + o`
bytes. -/
def buf_inv (o d : Nat) (ws : worker_st) : Prop :=
  16384 ≤ ws.buffer_size ∧ 8 ≤ o ∧ o ≤ 49 ∧ ws.conn_mtu + o ≤ ws.buffer_size ∧
  d + o ≤ ws.buffer_size ∧
  (ws.udp_state = udp_state_t.UP_HANDSHAKE ∨ ws.udp_state = udp_state_t.UP_ACTIVE ∨
      ws.udp_state = udp_state_t.UP_INACTIVE → ws.last_bad_mtu + o ≤ ws.buffer_size)

/-- The relation between `udp_state` and the DTLS session handle that the loop
keeps: the handle is set in `HANDSHAKE`, `ACTIVE` and `INACTIVE`, and it is
null in `WAIT_FD` and `SETUP`. -/
def dtls_handle_inv (ws : worker_st) : Prop :=
  (ws.udp_state = udp_state_t.UP_HANDSHAKE ∨ ws.udp_state = udp_state_t.UP_ACTIVE ∨
      ws.udp_state = udp_state_t.UP_INACTIVE → ws.dtls_session_set = true) ∧
  (ws.udp_state = udp_state_t.UP_WAIT_FD ∨ ws.udp_state = udp_state_t.UP_SETUP →
    ws.dtls_session_set = false)

/-- The frames sent on channel `ch` among the actions `ev`, in order. -/
def sent_on (ch : channel) (ev : List Event) : List (List Nat) :=
  ev.filterMap fun e =>
    match e with
    | Event.record_send ch1 d => if ch1 = ch then some d else none
    | _ => none

/-- The actions added to the log between the states `ws` and `ws1`. -/
def new_events (ws ws1 : worker_st) : List Event := ws1.io_log.drop ws.io_log.length

/-- The case labels of the `switch` in `parse_data` are pairwise different, as
C requires of case labels. -/
def pkt_types.distinct (c : pkt_types) : Prop :=
  [c.AC_PKT_DPD_RESP, c.AC_PKT_KEEPALIVE, c.AC_PKT_DPD_OUT, c.AC_PKT_DISCONN,
    c.AC_PKT_DATA].Nodup

instance (c : pkt_types) : Decidable c.distinct := by
  unfold pkt_types.distinct
  infer_instance

/-- The device MTU that `connect_handler` starts from: `config->default_mtu`
when it is set, else the MTU reported by `get_rt_vpn_info`. -/
def setup_mtu (w : world) (ws : worker_st) : Nat :=
  if ws.config.default_mtu > 0 then ws.config.default_mtu else w.rt_vpn_info.2.mtu

/-- Every value-returning outcome of a run satisfies `Q`. -/
def result.sat {α : Type} (r : result α) (Q : α → worker_st → Prop) : Prop :=
  ∀ v ws1, r = result.ok v ws1 → Q v ws1

/-- The bracketing relation of the MTU controller. -/
def mtu_bracket (ws : worker_st) : Prop :=
  MIN_MTU ws ≤ ws.last_good_mtu ∧ ws.last_good_mtu ≤ ws.conn_mtu ∧ ws.conn_mtu ≤ ws.last_bad_mtu

instance (ws : worker_st) : Decidable (mtu_bracket ws) := by
  unfold mtu_bracket
  infer_instance

instance (b : List Nat) : Decidable (cstp_well_formed b) := by
  unfold cstp_well_formed
  infer_instance

/-! ## Sample values used to exercise the definitions -/

/-- A configuration with one network and the datagram port open. -/
def sample_cfg : cfg_st :=
  { network_name := some "vpns0", auth_timeout := 40, dpd := 60, default_domain := none,
    udp_port := 443, keepalive := 32400, cookie_validity := 172800, default_mtu := 0,
    output_buffer := 0, net_priority := 0, try_mtu := 1, banner := none }

/-- A request for the tunnel URL that carries no optional header. -/
def sample_req : http_req_st :=
  { url := "/CSCOSSLC/tunnel", value := [], next_header := header_t.HEADER_NONE,
    cookie := [], cookie_set := 0, sid_cookie_set := 0, master_secret_set := 0,
    master_secret := [],
    selected_ciphersuite := none, cstp_mtu := 0, dtls_mtu := 0, no_ipv4 := 0, no_ipv6 := 0,
    hostname := [], user_agent := [] }

/-- An IPv4-only address assignment with a 1500-byte device MTU. -/
def sample_vinfo : vpn_st :=
  { ipv4 := some "192.168.1.2", ipv4_netmask := some "255.255.255.0", ipv4_dns := none,
    ipv4_nbns := none, ipv6 := none, ipv6_netmask := none, ipv6_dns := none,
    ipv6_nbns := none, routes := [], mtu := 1500 }

/-- An authenticated worker over IPv4 before any tunnel traffic. -/
def sample_ws : worker_st :=
  { config := sample_cfg, req := sample_req, vinfo := sample_vinfo, routes := [],
    auth_state := auth_state_t.S_AUTH_COMPLETE, proto_inet := true, session_set := true,
    dtls_session_set := false, udp_state := udp_state_t.UP_DISABLED, conn_mtu := 1500,
    last_good_mtu := 1500, last_bad_mtu := 1500, buffer_size := 16384, last_msg_tcp := 0,
    last_msg_udp := 0, last_periodic_check := 0, last_tls_rehandshake := 0,
    master_secret := [], session_id := [], sid := [], io_log := [] }

/-- An outside world in which every call succeeds.  As in gnutls, the codes
`GNUTLS_E_LARGE_PACKET` (-7), `GNUTLS_E_REHANDSHAKE` (-37), `GNUTLS_E_AGAIN`
(-28) and `GNUTLS_E_INTERRUPTED` (-52) are not fatal; every other negative code
is. -/
def sample_world : world :=
  { send_ret := fun _ => 8, force_write_ret := fun _ => 0, malloc_ok := true,
    realloc_ok := true, auth_cookie_ret := 0, rt_vpn_info := (0, sample_vinfo),
    tcp_maxseg := fun _ => some 1460, dtls_overhead := fun _ => 37, tls_overhead := 29,
    gettime := fun _ => 1000, handshake_ret := fun _ => 0,
    error_is_fatal := fun e => decide (e ≠ -7 ∧ e ≠ -37 ∧ e ≠ -28 ∧ e ≠ -52),
    dtls_data_mtu := fun _ => 1400, dtls_init_ok := fun _ => true }

/-- A state in which doubling `conn_mtu` leaves the range of `unsigned`. -/
def wrap_ws : worker_st :=
  { sample_ws with conn_mtu := 2147483648, last_good_mtu := 2147483648,
                   last_bad_mtu := 2147483648 }

/-- A bracketed state in which `conn_mtu + last_bad_mtu` leaves the range of `unsigned`. -/
def wrap_sum_ws : worker_st :=
  { sample_ws with conn_mtu := 2147483648, last_good_mtu := 257, last_bad_mtu := 2147483650 }

/-- A state in which `conn_mtu + 1` leaves the range of `unsigned`. -/
def wrap_one_ws : worker_st :=
  { sample_ws with conn_mtu := 4294967295, last_good_mtu := 4294967295, last_bad_mtu := 0 }

/-- A state whose `last_good_mtu` has reached `MIN_MTU` (no IPv6). -/
def floor_ws : worker_st :=
  { sample_ws with conn_mtu := 300, last_good_mtu := 257, last_bad_mtu := 400,
                   udp_state := udp_state_t.UP_ACTIVE }

/-- A state whose `last_good_mtu` is below `conn_mtu`. -/
def climbing_ws : worker_st :=
  { sample_ws with conn_mtu := 1250, last_good_mtu := 1000, last_bad_mtu := 1500 }

/-- A state in which the bisection has converged. -/
def converged_ws : worker_st :=
  { sample_ws with conn_mtu := 1000, last_good_mtu := 999, last_bad_mtu := 1001 }

/-- A state after one failed probe at 1500: `conn_mtu` is 1000. -/
def probe_ws : worker_st :=
  { sample_ws with conn_mtu := 1000, last_good_mtu := 1000, last_bad_mtu := 1500 }

/-- A peer that has not authenticated and sends no cookie, asking for a URL
other than the tunnel URL. -/
def unauth_ws : worker_st :=
  { sample_ws with auth_state := auth_state_t.S_AUTH_OTHER 0,
                   req := { sample_req with url := "/" } }

/-- An authenticated tunnel request that carries a master secret but for which
no datagram ciphersuite has been selected. -/
def udp_no_cs_ws : worker_st :=
  { sample_ws with req := { sample_req with master_secret_set := 1 } }

/-- Library functions for the header examples; the decoders are not exercised. -/
def sample_env : http_env :=
  { value_malloc_ok := true, hex2bin := fun _ => [], atoi := fun _ => 0,
    base64_decode := fun _ => (false, []), MAX_HOSTNAME_SIZE := 256, MAX_AGENT_NAME := 32,
    COOKIE_SIZE := 48, SID_SIZE := 32 }

/-- A request in which an `X-DTLS-CipherSuite` value is about to be checked. -/
def cs_ws (value : String) (sel : Option dtls_ciphersuite_st) : worker_st :=
  { sample_ws with req := { sample_req with
      value := value.data, next_header := header_t.HEADER_DTLS_CIPHERSUITE,
      selected_ciphersuite := sel } }

/-- A world in which the tun device reports an MTU of 200. -/
def small_mtu_world : world :=
  { sample_world with rt_vpn_info := (0, { sample_vinfo with mtu := 200 }) }

/-- A world in which the TCP socket reports an MSS of 121. -/
def small_mss_world : world :=
  { sample_world with tcp_maxseg := fun _ => some 121 }

/-- A world in which the DTLS session reports a data MTU of 100. -/
def small_dtls_world : world :=
  { sample_world with dtls_data_mtu := fun _ => 100 }

/-- A worker whose datagram channel is in its handshake. -/
def handshake_ws : worker_st :=
  { sample_ws with udp_state := udp_state_t.UP_HANDSHAKE, dtls_session_set := true,
                   conn_mtu := 1400, last_good_mtu := 1400, last_bad_mtu := 1400 }

/-- A session whose `dpd` is 2^31 seconds, with an active datagram channel; all
time stamps are 0. -/
def dpd_wrap_ws : worker_st :=
  { sample_ws with
    config := { sample_cfg with dpd := 2147483648 }
    udp_state := udp_state_t.UP_ACTIVE
    dtls_session_set := true }

/-- A request in which an `X-DTLS-Master-Secret` value is about to be checked. -/
def master_ws (value : List Char) : worker_st :=
  { sample_ws with
    req := { sample_req with value := value, next_header := header_t.HEADER_MASTER_SECRET } }

/-- A world in which the first send reports `GNUTLS_E_LARGE_PACKET` and every
later one succeeds. -/
def large_packet_world : world :=
  { sample_world with send_ret := fun n => if n = 0 then -7 else 1 }

/-- A session with an active datagram channel. -/
def active_ws : worker_st :=
  { sample_ws with udp_state := udp_state_t.UP_ACTIVE, dtls_session_set := true }

/-- A world in which the tun device reports an MTU of 4 and the TCP MSS cannot
be read. -/
def tiny_mtu_world : world :=
  { sample_world with
    rt_vpn_info := (0, { sample_vinfo with mtu := 4 })
    tcp_maxseg := fun _ => none }

/-- An authenticated tunnel request that carries a master secret and for which
a datagram ciphersuite has been selected. -/
def udp_ws : worker_st :=
  { sample_ws with
    req := { sample_req with master_secret_set := 1, selected_ciphersuite := ciphersuites.head? } }

/-- A world in which every handshake ends with a fatal error. -/
def fatal_handshake_world : world :=
  { sample_world with handshake_ret := fun _ => -12 }

/-- An iteration in which the `select` returns at time 1010 with no descriptor
ready. -/
def idle_input : loop_input :=
  { terminate := false, tls_pending := 0, dtls_pending := 0, select_ret := 0,
    select_eintr := false, tun_ready := false, conn_ready := false, udp_ready := false,
    cmd_ready := false, now := 1010, tun := tun_read.error true, tx_allowed := true,
    tls_recv := net_read.code (-28), tls_rx_allowed := true, dtls_recv := net_read.code (-28),
    dtls_rx_allowed := true, udp_fd_handover := false, cmd_ret := 0, fuel := 0 }

/-- An iteration in which the tun device delivers the packet 1, 2, 3. -/
def tun_input : loop_input :=
  { idle_input with tun_ready := true, tun := tun_read.data [1, 2, 3] }

/-- An iteration in which the main process hands over the UDP socket. -/
def handover_input : loop_input :=
  { idle_input with cmd_ready := true, udp_fd_handover := true }

/-- An iteration in which the UDP socket is readable. -/
def udp_input : loop_input :=
  { idle_input with udp_ready := true }

/-- The locals with which the sample session enters the loop. -/
def sample_locals : loop_locals :=
  { mtu_overhead := 8, dtls_mtu := 0, udp_recv_time := 0, dtls_pending := 0 }

/-- The state in which the sample session enters the loop. -/
def sample_entry : worker_st := (connect_handler sample_world sample_ws).state

/-- The state in which the sample session enters the loop when the tun device
reports an MTU of 4. -/
def tiny_entry : worker_st := (connect_handler tiny_mtu_world sample_ws).state

/-- The sample session after a first iteration, which forwards a tun packet. -/
def after_tun : loop_locals × worker_st :=
  (loop_run AC_PKT sample_world [tun_input] sample_locals sample_entry).getD
    (sample_locals, sample_entry)

/-- The locals with which the session `udp_ws` enters the loop. -/
def udp_locals : loop_locals :=
  { mtu_overhead := 29, dtls_mtu := 1401, udp_recv_time := 0, dtls_pending := 0 }

/-- The session `udp_ws` after the hand-over of the UDP socket, the setup of
the DTLS session and a handshake that ends with a fatal error. -/
def dead_dtls : loop_locals × worker_st :=
  (loop_run AC_PKT fatal_handshake_world [handover_input, udp_input, udp_input] udp_locals
    (connect_handler fatal_handshake_world udp_ws).state).getD (udp_locals, udp_ws)

/-- The session `udp_ws` after the hand-over of the UDP socket and the setup of
the DTLS session. -/
def dtls_up : loop_locals × worker_st :=
  (loop_run AC_PKT sample_world [handover_input, udp_input] udp_locals
    (connect_handler sample_world udp_ws).state).getD (udp_locals, udp_ws)

/-- A world in which every send reports the non-fatal error -28
(`GNUTLS_E_AGAIN`). -/
def again_world : world :=
  { sample_world with send_ret := fun _ => -28 }

/-- The state `probe_ws` (`conn_mtu = 1000`, `last_bad_mtu = 1500`) with an
active datagram channel. -/
def probe_active_ws : worker_st :=
  { probe_ws with udp_state := udp_state_t.UP_ACTIVE, dtls_session_set := true }

/-- A session with an active datagram channel whose time stamps are all 990. -/
def active_990_ws : worker_st :=
  { active_ws with last_msg_tcp := 990, last_msg_udp := 990, last_periodic_check := 990 }

/-- An iteration at time 1000 in which a `KEEPALIVE` datagram (the byte 7) is
received. -/
def keepalive_dgram_input : loop_input :=
  { idle_input with now := 1000, udp_ready := true, dtls_recv := net_read.data [7] }

/-- An iteration at time 1020 in which the UDP socket is readable but the
receive returns the non-fatal error -28, that is no data. -/
def empty_dgram_input : loop_input :=
  { idle_input with now := 1020, udp_ready := true, dtls_recv := net_read.code (-28) }

/-- An iteration at time 1030 in which a `DATA` frame with the payload 9 is
received on the reliable channel. -/
def tls_data_input : loop_input :=
  { idle_input with
    now := 1030
    conn_ready := true
    tls_recv := net_read.data [83, 84, 70, 1, 0, 1, 0, 0, 9] }

/-- The session `active_990_ws` after a datagram at 1000, an empty receive at
1020 and a reliable `DATA` frame at 1030. -/
def switch_run : Option (loop_locals × worker_st) :=
  loop_run AC_PKT sample_world [keepalive_dgram_input, empty_dgram_input, tls_data_input]
    udp_locals active_990_ws

/-- A session whose datagram channel is inactive and whose `last_good_mtu` has
reached `MIN_MTU`. -/
def floor_inactive_ws : worker_st :=
  { floor_ws with udp_state := udp_state_t.UP_INACTIVE, dtls_session_set := true }

/-- A session whose datagram channel is inactive. -/
def inactive_ws : worker_st :=
  { sample_ws with udp_state := udp_state_t.UP_INACTIVE, dtls_session_set := true }

/-- A session with an active datagram channel at a time near 1000: the last
reliable message came at time 990, the last datagram at time `t`, and no
periodic check has run yet. -/
def udp_silent_ws (t : Int) : worker_st :=
  { active_ws with last_msg_tcp := 990, last_msg_udp := t }

/-- The sample session with a rekey recorded at time 1000. -/
def rekeyed_ws : worker_st :=
  { sample_ws with last_tls_rehandshake := 1000 }

/-- An iteration at time `now` in which the reliable socket is readable and the
record layer reports `GNUTLS_E_REHANDSHAKE`. -/
def rekey_input (now : Int) : loop_input :=
  { idle_input with
    now := now
    conn_ready := true
    tls_recv := net_read.code GNUTLS_E_REHANDSHAKE }

/-- The sample session in its first iteration, at time 1010, after the periodic
check. -/
def rekey_ready : worker_st :=
  (periodic_check AC_PKT sample_world sample_entry 8 1010).2

/-- The sample session after a rekey accepted in its first iteration, at time
1010: one handshake call is logged and the time is recorded. -/
def rekey_accepted : worker_st :=
  { rekey_ready with
    io_log := rekey_ready.io_log ++ List.replicate (0 + 1) Event.tls_handshake
    last_tls_rehandshake := 1010 }

/-- The session `rekey_accepted` after an idle iteration and an iteration that
forwards a tun packet. -/
def rekey_later : loop_locals × worker_st :=
  (loop_run AC_PKT sample_world [idle_input, tun_input] sample_locals rekey_accepted).getD
    (sample_locals, rekey_accepted)

/-! ## Theorems -/

/-! ### MTU controller -/

theorem mtu_set_fields (ws : worker_st) (mtu : Nat) :
    (mtu_set ws mtu).conn_mtu = mtu ∧ (mtu_set ws mtu).last_good_mtu = ws.last_good_mtu ∧
    (mtu_set ws mtu).last_bad_mtu = ws.last_bad_mtu ∧ (mtu_set ws mtu).udp_state = ws.udp_state ∧
    (mtu_set ws mtu).vinfo = ws.vinfo ∧ (mtu_set ws mtu).buffer_size = ws.buffer_size := by
  unfold mtu_set mtu_send worker_st.act
  by_cases h : ws.dtls_session_set <;> simp [h]

theorem MIN_MTU_mtu_set (ws : worker_st) (mtu : Nat) : MIN_MTU (mtu_set ws mtu) = MIN_MTU ws := by
  unfold MIN_MTU
  rw [(mtu_set_fields ws mtu).2.2.2.2.1]

theorem mtu_not_ok_fail (ws : worker_st) (h : ws.last_good_mtu = MIN_MTU ws) :
    mtu_not_ok ws =
      (-1, { ws with last_bad_mtu := ws.conn_mtu, udp_state := udp_state_t.UP_DISABLED }) := by
  simp [mtu_not_ok, h]

theorem mtu_not_ok_lower (ws : worker_st) (h : ws.last_good_mtu ≠ MIN_MTU ws)
    (hge : ws.conn_mtu ≤ ws.last_good_mtu) :
    mtu_not_ok ws =
      (0, mtu_set { ws with last_bad_mtu := ws.conn_mtu,
                            last_good_mtu := max (((2 * ws.conn_mtu) % U32) / 3) (MIN_MTU ws) }
            (max (((2 * ws.conn_mtu) % U32) / 3) (MIN_MTU ws))) := by
  simp [mtu_not_ok, h, hge]

theorem mtu_not_ok_keep (ws : worker_st) (h : ws.last_good_mtu ≠ MIN_MTU ws)
    (hlt : ws.last_good_mtu < ws.conn_mtu) :
    mtu_not_ok ws = (0, mtu_set { ws with last_bad_mtu := ws.conn_mtu } ws.last_good_mtu) := by
  have : ¬ ws.conn_mtu ≤ ws.last_good_mtu := by omega
  simp [mtu_not_ok, h, this]

theorem mtu_ok_converged (ws : worker_st)
    (h : ws.last_bad_mtu = (ws.conn_mtu + 1) % U32 ∨ ws.last_bad_mtu = ws.conn_mtu) :
    mtu_ok ws = ws := by
  simp [mtu_ok, h]

theorem mtu_ok_probe (ws : worker_st)
    (h : ¬ (ws.last_bad_mtu = (ws.conn_mtu + 1) % U32 ∨ ws.last_bad_mtu = ws.conn_mtu)) :
    mtu_ok ws = mtu_set { ws with last_good_mtu := ws.conn_mtu }
      (((ws.conn_mtu + ws.last_bad_mtu) % U32) / 2) := by
  simp [mtu_ok, h]

/-- C7 (amended): `mtu_not_ok` sets `last_bad_mtu` to the old `conn_mtu`; when
`last_good_mtu = MIN_MTU` it disables the datagram channel, returns -1 and keeps
`conn_mtu` and `last_good_mtu`; otherwise it returns 0 and both `conn_mtu` and
`last_good_mtu` become `max(floor(2*conn_mtu/3), MIN_MTU)` if the old
`last_good_mtu >= conn_mtu` and `2*conn_mtu` fits in 32 bits, and the old
`last_good_mtu` if it is smaller. -/
theorem mtu_not_ok_law (ws : worker_st) :
    (mtu_not_ok ws).2.last_bad_mtu = ws.conn_mtu ∧
    (ws.last_good_mtu = MIN_MTU ws →
      (mtu_not_ok ws).1 = -1 ∧ (mtu_not_ok ws).2.udp_state = udp_state_t.UP_DISABLED ∧
      (mtu_not_ok ws).2.conn_mtu = ws.conn_mtu ∧
      (mtu_not_ok ws).2.last_good_mtu = ws.last_good_mtu) ∧
    (ws.last_good_mtu ≠ MIN_MTU ws →
      (mtu_not_ok ws).1 = 0 ∧
      (ws.conn_mtu ≤ ws.last_good_mtu → 2 * ws.conn_mtu < U32 →
        (mtu_not_ok ws).2.conn_mtu = max (2 * ws.conn_mtu / 3) (MIN_MTU ws) ∧
        (mtu_not_ok ws).2.last_good_mtu = max (2 * ws.conn_mtu / 3) (MIN_MTU ws)) ∧
      (ws.last_good_mtu < ws.conn_mtu →
        (mtu_not_ok ws).2.conn_mtu = ws.last_good_mtu ∧
        (mtu_not_ok ws).2.last_good_mtu = ws.last_good_mtu)) := by
  refine ⟨?_, ?_, ?_⟩
  · by_cases h : ws.last_good_mtu = MIN_MTU ws
    · rw [mtu_not_ok_fail ws h]
    · by_cases hge : ws.conn_mtu ≤ ws.last_good_mtu
      · rw [mtu_not_ok_lower ws h hge]
        exact (mtu_set_fields _ _).2.2.1
      · rw [mtu_not_ok_keep ws h (by omega)]
        exact (mtu_set_fields _ _).2.2.1
  · intro h
    rw [mtu_not_ok_fail ws h]
    exact ⟨rfl, rfl, rfl, rfl⟩
  · intro h
    refine ⟨?_, ?_, ?_⟩
    · by_cases hge : ws.conn_mtu ≤ ws.last_good_mtu
      · rw [mtu_not_ok_lower ws h hge]
      · rw [mtu_not_ok_keep ws h (by omega)]
    · intro hge hfit
      rw [mtu_not_ok_lower ws h hge, Nat.mod_eq_of_lt hfit]
      exact ⟨(mtu_set_fields _ _).1, (mtu_set_fields _ _).2.1⟩
    · intro hlt
      rw [mtu_not_ok_keep ws h hlt]
      exact ⟨(mtu_set_fields _ _).1, (mtu_set_fields _ _).2.1⟩

/-- C7, witness: from `conn_mtu = last_good_mtu = last_bad_mtu = 1500` without
IPv6 one call returns 0 and gives `conn_mtu = 1000`, `last_bad_mtu = 1500`; from
`last_good_mtu = 257` the call returns -1 and disables the datagram channel;
from `last_good_mtu = 1000 < conn_mtu = 1250` it falls back to 1000. -/
theorem mtu_not_ok_law_witness :
    ((mtu_not_ok sample_ws).1 = 0 ∧ (mtu_not_ok sample_ws).2.conn_mtu = 1000 ∧
      (mtu_not_ok sample_ws).2.last_good_mtu = 1000 ∧
      (mtu_not_ok sample_ws).2.last_bad_mtu = 1500) ∧
    ((mtu_not_ok floor_ws).1 = -1 ∧
      (mtu_not_ok floor_ws).2.udp_state = udp_state_t.UP_DISABLED ∧
      (mtu_not_ok floor_ws).2.conn_mtu = 300) ∧
    ((mtu_not_ok climbing_ws).1 = 0 ∧ (mtu_not_ok climbing_ws).2.conn_mtu = 1000) := by
  have h := mtu_not_ok_law sample_ws
  have hne : sample_ws.last_good_mtu ≠ MIN_MTU sample_ws := by decide
  have h2 := (h.2.2 hne).2.1 (by decide) (by decide)
  have hf := (mtu_not_ok_law floor_ws).2.1 (by decide)
  have hc := (mtu_not_ok_law climbing_ws).2.2 (by decide)
  refine ⟨⟨(h.2.2 hne).1, ?_, ?_, h.1⟩, ⟨hf.1, hf.2.1, hf.2.2.1⟩, ⟨hc.1, (hc.2.2 (by decide)).1⟩⟩
  · rw [h2.1]; decide
  · rw [h2.2]; decide

/-- C7, counterexample: with `conn_mtu = last_good_mtu = 2^31` (no IPv6) the call
returns 0 and leaves `conn_mtu = 257`, whereas `max(floor(2*conn_mtu/3), MIN_MTU)`
is 1431655765. -/
theorem mtu_not_ok_wraps :
    wrap_ws.last_good_mtu ≠ MIN_MTU wrap_ws ∧ wrap_ws.conn_mtu ≤ wrap_ws.last_good_mtu ∧
    (mtu_not_ok wrap_ws).1 = 0 ∧ (mtu_not_ok wrap_ws).2.conn_mtu = 257 ∧
    max (2 * wrap_ws.conn_mtu / 3) (MIN_MTU wrap_ws) = 1431655765 := by
  decide

/-- C8 (amended): for unsigned 32-bit values, `mtu_ok` changes nothing when
`last_bad_mtu` is `conn_mtu` or `conn_mtu + 1`; otherwise, provided neither
`conn_mtu + 1` nor `conn_mtu + last_bad_mtu` leaves the 32-bit range, it sets
`last_good_mtu` to the old `conn_mtu` and `conn_mtu` to
`floor((conn_mtu + last_bad_mtu) / 2)` and keeps `last_bad_mtu` and `udp_state`;
and for `last_bad_mtu > conn_mtu + 1` without wrap-around of the sum the new
`conn_mtu` lies strictly between the old one and `last_bad_mtu`. -/
theorem mtu_ok_law (ws : worker_st) (hb : ws.last_bad_mtu < U32) :
    ((ws.last_bad_mtu = ws.conn_mtu ∨ ws.last_bad_mtu = ws.conn_mtu + 1) → mtu_ok ws = ws) ∧
    (ws.conn_mtu + 1 < U32 → ws.conn_mtu + ws.last_bad_mtu < U32 →
      ¬ (ws.last_bad_mtu = ws.conn_mtu ∨ ws.last_bad_mtu = ws.conn_mtu + 1) →
      (mtu_ok ws).last_good_mtu = ws.conn_mtu ∧
      (mtu_ok ws).conn_mtu = (ws.conn_mtu + ws.last_bad_mtu) / 2 ∧
      (mtu_ok ws).last_bad_mtu = ws.last_bad_mtu ∧
      (mtu_ok ws).udp_state = ws.udp_state) ∧
    (ws.conn_mtu + ws.last_bad_mtu < U32 → ws.conn_mtu + 1 < ws.last_bad_mtu →
      ws.conn_mtu < (mtu_ok ws).conn_mtu ∧ (mtu_ok ws).conn_mtu < ws.last_bad_mtu) := by
  have probe : ws.conn_mtu + 1 < U32 → ws.conn_mtu + ws.last_bad_mtu < U32 →
      ¬ (ws.last_bad_mtu = ws.conn_mtu ∨ ws.last_bad_mtu = ws.conn_mtu + 1) →
      mtu_ok ws = mtu_set { ws with last_good_mtu := ws.conn_mtu }
        ((ws.conn_mtu + ws.last_bad_mtu) / 2) := by
    intro h1 hsum h
    rw [mtu_ok_probe ws (by rw [Nat.mod_eq_of_lt h1]; tauto), Nat.mod_eq_of_lt hsum]
  refine ⟨?_, ?_, ?_⟩
  · intro h
    apply mtu_ok_converged
    rcases h with h | h
    · exact Or.inr h
    · refine Or.inl ?_
      rw [Nat.mod_eq_of_lt (by omega)]
      exact h
  · intro h1 hsum h
    rw [probe h1 hsum h]
    exact ⟨(mtu_set_fields _ _).2.1, (mtu_set_fields _ _).1, (mtu_set_fields _ _).2.2.1,
      (mtu_set_fields _ _).2.2.2.1⟩
  · intro hsum hgt
    rw [probe (by omega) hsum (by omega), (mtu_set_fields _ _).1]
    omega

/-- C8, witness: `conn_mtu = 1000` with `last_bad_mtu = 1500` gives
`conn_mtu = 1250` and `last_good_mtu = 1000`, and `1000 < 1250 < 1500`; with
`last_bad_mtu = 1001` nothing changes. -/
theorem mtu_ok_law_witness :
    ((mtu_ok probe_ws).conn_mtu = 1250 ∧ (mtu_ok probe_ws).last_good_mtu = 1000 ∧
      (mtu_ok probe_ws).last_bad_mtu = 1500) ∧
    (probe_ws.conn_mtu < (mtu_ok probe_ws).conn_mtu ∧
      (mtu_ok probe_ws).conn_mtu < probe_ws.last_bad_mtu) ∧
    mtu_ok converged_ws = converged_ws := by
  have hp := mtu_ok_law probe_ws (by decide)
  have h := hp.2.1 (by decide) (by decide) (by decide)
  exact ⟨⟨h.2.1, h.1, h.2.2.1⟩, hp.2.2 (by decide) (by decide),
    (mtu_ok_law converged_ws (by decide)).1 (by decide)⟩

/-- C8, counterexample: with `conn_mtu = 2^31` and `last_bad_mtu = 2^31 + 2` the
sum wraps: `last_bad_mtu > conn_mtu + 1`, yet the new `conn_mtu` is 1, neither
`floor((conn_mtu + last_bad_mtu) / 2)` nor above the old `conn_mtu`.  With
`conn_mtu = 2^32 - 1` and `last_bad_mtu = 0` the value `conn_mtu + 1` wraps to
0: `last_bad_mtu` is neither `conn_mtu` nor `conn_mtu + 1`, yet nothing changes. -/
theorem mtu_ok_wraps :
    (wrap_sum_ws.conn_mtu + 1 < wrap_sum_ws.last_bad_mtu ∧
      (mtu_ok wrap_sum_ws).conn_mtu = 1 ∧
      (wrap_sum_ws.conn_mtu + wrap_sum_ws.last_bad_mtu) / 2 = 2147483649 ∧
      ¬ wrap_sum_ws.conn_mtu < (mtu_ok wrap_sum_ws).conn_mtu) ∧
    (¬ (wrap_one_ws.last_bad_mtu = wrap_one_ws.conn_mtu ∨
        wrap_one_ws.last_bad_mtu = wrap_one_ws.conn_mtu + 1) ∧
      mtu_ok wrap_one_ws = wrap_one_ws ∧
      (mtu_ok wrap_one_ws).conn_mtu ≠ (wrap_one_ws.conn_mtu + wrap_one_ws.last_bad_mtu) / 2) := by
  decide

theorem MIN_MTU_mtu_not_ok (ws : worker_st) : MIN_MTU (mtu_not_ok ws).2 = MIN_MTU ws := by
  by_cases h : ws.last_good_mtu = MIN_MTU ws
  · rw [mtu_not_ok_fail ws h]; rfl
  · by_cases hge : ws.conn_mtu ≤ ws.last_good_mtu
    · rw [mtu_not_ok_lower ws h hge, MIN_MTU_mtu_set]; rfl
    · rw [mtu_not_ok_keep ws h (by omega), MIN_MTU_mtu_set]; rfl

theorem MIN_MTU_mtu_ok (ws : worker_st) : MIN_MTU (mtu_ok ws) = MIN_MTU ws := by
  by_cases h : ws.last_bad_mtu = (ws.conn_mtu + 1) % U32 ∨ ws.last_bad_mtu = ws.conn_mtu
  · rw [mtu_ok_converged ws h]
  · rw [mtu_ok_probe ws h, MIN_MTU_mtu_set]; rfl

theorem mtu_not_ok_bracket (ws : worker_st) (h : mtu_bracket ws) :
    mtu_bracket (mtu_not_ok ws).2 := by
  obtain ⟨hmin, hgc, hcb⟩ := h
  unfold mtu_bracket
  rw [MIN_MTU_mtu_not_ok]
  by_cases hf : ws.last_good_mtu = MIN_MTU ws
  · rw [mtu_not_ok_fail ws hf]
    simp only
    omega
  · by_cases hge : ws.conn_mtu ≤ ws.last_good_mtu
    · rw [mtu_not_ok_lower ws hf hge]
      obtain ⟨a, b, c, -⟩ := mtu_set_fields
        { ws with last_bad_mtu := ws.conn_mtu,
                  last_good_mtu := max (((2 * ws.conn_mtu) % U32) / 3) (MIN_MTU ws) }
        (max (((2 * ws.conn_mtu) % U32) / 3) (MIN_MTU ws))
      simp only at a b c ⊢
      rw [a, b, c]
      have hm : (2 * ws.conn_mtu) % U32 ≤ 2 * ws.conn_mtu := Nat.mod_le _ _
      refine ⟨le_max_right _ _, le_refl _, max_le ?_ (by omega)⟩
      omega
    · rw [mtu_not_ok_keep ws hf (by omega)]
      obtain ⟨a, b, c, -⟩ := mtu_set_fields { ws with last_bad_mtu := ws.conn_mtu }
        ws.last_good_mtu
      simp only at a b c ⊢
      rw [a, b, c]
      omega

theorem mtu_ok_bracket (ws : worker_st) (h : mtu_bracket ws)
    (hsum : ws.conn_mtu + ws.last_bad_mtu < U32) : mtu_bracket (mtu_ok ws) := by
  obtain ⟨hmin, hgc, hcb⟩ := h
  by_cases hc : ws.last_bad_mtu = (ws.conn_mtu + 1) % U32 ∨ ws.last_bad_mtu = ws.conn_mtu
  · rw [mtu_ok_converged ws hc]
    exact ⟨hmin, hgc, hcb⟩
  · unfold mtu_bracket
    rw [MIN_MTU_mtu_ok, mtu_ok_probe ws hc, Nat.mod_eq_of_lt hsum]
    obtain ⟨a, b, c, -⟩ := mtu_set_fields { ws with last_good_mtu := ws.conn_mtu }
      ((ws.conn_mtu + ws.last_bad_mtu) / 2)
    simp only at a b c ⊢
    rw [a, b, c]
    omega

/-- C9 (amended): the bracketing relation `MIN_MTU <= last_good_mtu <= conn_mtu
<= last_bad_mtu` is kept by `mtu_not_ok` from every state (whatever it
returns), and by `mtu_ok` from every state in which `conn_mtu + last_bad_mtu`
fits in 32 bits. -/
theorem mtu_bracket_preserved (ws : worker_st) (h : mtu_bracket ws) :
    mtu_bracket (mtu_not_ok ws).2 ∧
    (ws.conn_mtu + ws.last_bad_mtu < U32 → mtu_bracket (mtu_ok ws)) :=
  ⟨mtu_not_ok_bracket ws h, mtu_ok_bracket ws h⟩

/-- C9, witness: the state `conn_mtu = last_good_mtu = 1000`, `last_bad_mtu = 1500`
is bracketed and stays so under both transitions. -/
theorem mtu_bracket_preserved_witness :
    mtu_bracket probe_ws ∧ mtu_bracket (mtu_not_ok probe_ws).2 ∧ mtu_bracket (mtu_ok probe_ws) :=
  have hb : mtu_bracket probe_ws := by decide
  ⟨hb, (mtu_bracket_preserved probe_ws hb).1, (mtu_bracket_preserved probe_ws hb).2 (by decide)⟩

/-- C9, counterexample: the bracketed state `last_good_mtu = 257`,
`conn_mtu = 2^31`, `last_bad_mtu = 2^31 + 2` is taken by `mtu_ok` to
`last_good_mtu = 2^31`, `conn_mtu = 1`, which is not bracketed. -/
theorem mtu_ok_breaks_bracket :
    mtu_bracket wrap_sum_ws ∧ ¬ mtu_bracket (mtu_ok wrap_sum_ws) := by
  decide

/-! ### Framing codec -/

theorem mtu_set_log (ws : worker_st) (mtu : Nat) :
    ws.io_log.length < (mtu_set ws mtu).io_log.length := by
  unfold mtu_set mtu_send worker_st.act
  by_cases h : ws.dtls_session_set <;> simp [h]

theorem mtu_not_ok_log (ws : worker_st) :
    ws.io_log.length ≤ (mtu_not_ok ws).2.io_log.length := by
  by_cases h : ws.last_good_mtu = MIN_MTU ws
  · rw [mtu_not_ok_fail ws h]
  · by_cases hge : ws.conn_mtu ≤ ws.last_good_mtu
    · rw [mtu_not_ok_lower ws h hge]
      have := mtu_set_log { ws with last_bad_mtu := ws.conn_mtu, last_good_mtu := max (((2 * ws.conn_mtu) % U32) / 3) (MIN_MTU ws) } (max (((2 * ws.conn_mtu) % U32) / 3) (MIN_MTU ws))
      exact Nat.le_of_lt this
    · rw [mtu_not_ok_keep ws h (by omega)]
      have := mtu_set_log { ws with last_bad_mtu := ws.conn_mtu } ws.last_good_mtu
      exact Nat.le_of_lt this

theorem act_log (ws : worker_st) (e : Event) : (ws.act e).io_log.length = ws.io_log.length + 1 := by
  simp [worker_st.act]

/-- Whenever `parse_data` returns, it either returns the frame type and has done
nothing, or it has performed at least one action. -/
theorem parse_data_ok (c : pkt_types) (w : world) (ws : worker_st) (ts : channel)
    (head : Nat) (buf : List Nat) (now : Int) (v : Int) (ws1 : worker_st)
    (h : parse_data c w ws ts head buf now = result.ok v ws1) :
    (v = head ∧ ws1 = ws) ∨ ws.io_log.length < ws1.io_log.length := by
  have hm := mtu_not_ok_log (ws.act (Event.record_send channel.dtls [c.AC_PKT_DPD_RESP]))
  rw [act_log] at hm
  cases ts <;> simp only [parse_data] at h <;> split_ifs at h <;>
    simp only [result.ok.injEq] at h <;> obtain ⟨rfl, rfl⟩ := h <;>
    first
      | exact Or.inl ⟨rfl, rfl⟩
      | exact Or.inr (by rw [act_log]; omega)

/-- The dispatch exits the worker only for a frame of type `DISCONN`, and it
never dereferences a null pointer. -/
theorem parse_data_exit (c : pkt_types) (w : world) (ws : worker_st) (ts : channel)
    (head : Nat) (buf : List Nat) (now : Int) :
    (∀ ws1, parse_data c w ws ts head buf now = result.exited ws1 →
      head = c.AC_PKT_DISCONN ∧ ws1 = ws) ∧
    (∀ ws1, parse_data c w ws ts head buf now ≠ result.null_deref ws1) := by
  refine ⟨?_, ?_⟩
  · intro ws1 h
    cases ts <;> simp only [parse_data] at h <;> split_ifs at h <;>
      simp only [result.exited.injEq] at h <;> exact ⟨by assumption, h.symm⟩
  · intro ws1 h
    cases ts <;> simp only [parse_data] at h <;> split_ifs at h

theorem then_set_ne_reject (r : result Int) (ws : worker_st) (f : worker_st → worker_st)
    (hf : ∀ x, (f x).io_log = x.io_log)
    (hr : ∀ v ws1, r = result.ok v ws1 → (0 ≤ v ∧ ws1 = ws) ∨ ws.io_log.length < ws1.io_log.length) :
    r.then_set f ≠ result.ok (-1) ws := by
  intro h
  cases r with
  | ok v ws1 =>
    simp only [result.then_set, result.ok.injEq] at h
    rcases hr v ws1 rfl with ⟨h0, -⟩ | hlt
    · omega
    · have := hf ws1
      rw [h.2] at this
      rw [this] at hlt
      exact Nat.lt_irrefl _ hlt
  | exited ws1 => simp [result.then_set] at h
  | null_deref ws1 => simp [result.then_set] at h

theorem parse_cstp_data_accept (c : pkt_types) (w : world) (ws : worker_st) (b : List Nat)
    (now : Int) (h : cstp_well_formed b) :
    parse_cstp_data c w ws b now =
      (parse_data c w ws channel.tls (b.getD 6 0) (b.drop 8) now).then_set
        (fun ws1 => { ws1 with last_msg_tcp := now }) := by
  obtain ⟨h0, h1, h2, h3, h7, hl⟩ := h
  have hlen : ¬ b.length < 8 := by omega
  have htake : (b.drop 8).take (b.getD 4 0 * 256 + b.getD 5 0) = b.drop 8 := by
    apply List.take_of_length_le
    rw [List.length_drop]
    omega
  simp only [parse_cstp_data, hlen, h0, h1, h2, h3, h7, ne_eq, not_true_eq_false, or_self,
    if_false]
  rw [if_neg (by simpa using hl), htake]

theorem parse_cstp_data_reject (c : pkt_types) (w : world) (ws : worker_st) (b : List Nat)
    (now : Int) (h : ¬ cstp_well_formed b) :
    parse_cstp_data c w ws b now = result.ok (-1) ws := by
  simp only [parse_cstp_data]
  split_ifs with h1 h2 h3
  · rfl
  · rfl
  · rfl
  · exfalso
    apply h
    simp only [not_or, ne_eq, not_not] at h2 h3
    exact ⟨h2.1, h2.2.1, h2.2.2.1, h2.2.2.2.1, h2.2.2.2.2, h3⟩

/-- C1 (amended): `parse_cstp_data` rejects a buffer (returns -1 with the
state and the action log untouched) if and only if the buffer is not
well-formed; a well-formed buffer is dispatched to `parse_data` with type `b[6]`
and the payload `b[8..8+len)`, and `last_msg_tcp` is set to `now` whenever that
dispatch returns, which it does for every type but `DISCONN` (for `DISCONN` the
worker exits inside the dispatch). -/
theorem parse_cstp_data_spec (c : pkt_types) (w : world) (ws : worker_st) (b : List Nat)
    (now : Int) :
    (parse_cstp_data c w ws b now = result.ok (-1) ws ↔ ¬ cstp_well_formed b) ∧
    (cstp_well_formed b →
      (b.drop 8).length = b.getD 4 0 * 256 + b.getD 5 0 ∧
      (∀ v ws1, parse_data c w ws channel.tls (b.getD 6 0) (b.drop 8) now = result.ok v ws1 →
        parse_cstp_data c w ws b now = result.ok v { ws1 with last_msg_tcp := now }) ∧
      (∀ ws1, parse_data c w ws channel.tls (b.getD 6 0) (b.drop 8) now = result.exited ws1 →
        b.getD 6 0 = c.AC_PKT_DISCONN ∧ parse_cstp_data c w ws b now = result.exited ws1) ∧
      (b.getD 6 0 ≠ c.AC_PKT_DISCONN →
        ∃ v ws1, parse_cstp_data c w ws b now = result.ok v ws1 ∧ ws1.last_msg_tcp = now)) := by
  refine ⟨⟨?_, parse_cstp_data_reject c w ws b now⟩, ?_⟩
  · intro h hwf
    rw [parse_cstp_data_accept c w ws b now hwf] at h
    refine absurd h (then_set_ne_reject _ ws _ (fun _ => rfl) ?_)
    intro v ws1 hv
    rcases parse_data_ok c w ws channel.tls _ _ now v ws1 hv with ⟨h1, h2⟩ | h3
    · exact Or.inl ⟨by omega, h2⟩
    · exact Or.inr h3
  · intro hwf
    have hacc := parse_cstp_data_accept c w ws b now hwf
    refine ⟨?_, ?_, ?_, ?_⟩
    · rw [List.length_drop]
      have := hwf.2.2.2.2.2
      omega
    · intro v ws1 hv
      rw [hacc, hv]
      rfl
    · intro ws1 hv
      refine ⟨((parse_data_exit c w ws channel.tls _ _ now).1 ws1 hv).1, ?_⟩
      rw [hacc, hv]
      rfl
    · intro hne
      rw [hacc]
      cases hr : parse_data c w ws channel.tls (b.getD 6 0) (b.drop 8) now with
      | ok v ws1 => exact ⟨v, _, rfl, rfl⟩
      | exited ws1 => exact absurd ((parse_data_exit c w ws channel.tls _ _ now).1 ws1 hr).1 hne
      | null_deref ws1 => exact absurd hr ((parse_data_exit c w ws channel.tls _ _ now).2 ws1)

/-- C1, witness: the DATA frame `S T F 1 0 2 0 0 | 69 0` is well-formed and its
two payload bytes are written to the tun device; `last_msg_tcp` becomes 100. -/
theorem parse_cstp_data_spec_witness :
    cstp_well_formed [83, 84, 70, 1, 0, 2, 0, 0, 69, 0] ∧
    parse_cstp_data AC_PKT sample_world sample_ws [83, 84, 70, 1, 0, 2, 0, 0, 69, 0] 100 =
      result.ok 0 { sample_ws.act (Event.tun_write [69, 0]) with last_msg_tcp := 100 } :=
  have hwf : cstp_well_formed [83, 84, 70, 1, 0, 2, 0, 0, 69, 0] := by decide
  ⟨hwf, ((parse_cstp_data_spec AC_PKT sample_world sample_ws
    [83, 84, 70, 1, 0, 2, 0, 0, 69, 0] 100).2 hwf).2.1 0 _ rfl⟩

/-- C1, counterexample: the well-formed frame `S T F 1 0 0 5 0` (type `DISCONN`)
is accepted, but the worker exits inside the dispatch and `last_msg_tcp` is
never set to `now = 100`. -/
theorem parse_cstp_data_disconn_exits :
    cstp_well_formed [83, 84, 70, 1, 0, 0, 5, 0] ∧
    parse_cstp_data AC_PKT sample_world sample_ws [83, 84, 70, 1, 0, 0, 5, 0] 100 =
      result.exited sample_ws ∧
    sample_ws.last_msg_tcp ≠ 100 :=
  ⟨by decide, rfl, by decide⟩

theorem parse_dtls_data_accept (c : pkt_types) (w : world) (ws : worker_st) (t : Nat)
    (p : List Nat) (now : Int) :
    parse_dtls_data c w ws (t :: p) now =
      (parse_data c w ws channel.dtls t p now).then_set
        (fun ws1 => { ws1 with last_msg_udp := now }) := by
  simp [parse_dtls_data]

theorem cstp_header_well_formed (t : Nat) (p : List Nat) (hlen : p.length < 65536) :
    cstp_well_formed (cstp_header p.length t ++ p) := by
  simp only [cstp_well_formed, cstp_header, List.cons_append, List.nil_append, List.length_cons]
  refine ⟨rfl, rfl, rfl, rfl, rfl, ?_⟩
  simp only [List.getD_cons_succ, List.getD_cons_zero]
  omega

/-- C2: for every type `t` and payload `p` shorter than 65536 bytes the reliable
frame `cstp_header |p| t ++ p` is not rejected by `parse_cstp_data` and is
dispatched as `(t, p)`; the datagram frame `t :: p` is not rejected by
`parse_dtls_data` and is dispatched as `(t, p)`; the empty datagram buffer is
rejected with -1. -/
theorem frame_roundtrip (c : pkt_types) (w : world) (ws : worker_st) (t : Nat) (p : List Nat)
    (now : Int) (hlen : p.length < 65536) :
    (parse_cstp_data c w ws (cstp_header p.length t ++ p) now ≠ result.ok (-1) ws ∧
      parse_cstp_data c w ws (cstp_header p.length t ++ p) now =
        (parse_data c w ws channel.tls t p now).then_set
          (fun ws1 => { ws1 with last_msg_tcp := now })) ∧
    (parse_dtls_data c w ws (t :: p) now ≠ result.ok (-1) ws ∧
      parse_dtls_data c w ws (t :: p) now =
        (parse_data c w ws channel.dtls t p now).then_set
          (fun ws1 => { ws1 with last_msg_udp := now })) ∧
    parse_dtls_data c w ws [] now = result.ok (-1) ws := by
  have hwf := cstp_header_well_formed t p hlen
  have hne : ∀ (ts : channel) (f : worker_st → worker_st), (∀ x, (f x).io_log = x.io_log) →
      (parse_data c w ws ts t p now).then_set f ≠ result.ok (-1) ws := by
    intro ts f hf
    refine then_set_ne_reject _ ws f hf ?_
    intro v ws1 hv
    rcases parse_data_ok c w ws ts _ _ now v ws1 hv with ⟨h1, h2⟩ | h3
    · exact Or.inl ⟨by omega, h2⟩
    · exact Or.inr h3
  have hc : parse_cstp_data c w ws (cstp_header p.length t ++ p) now =
      (parse_data c w ws channel.tls t p now).then_set
        (fun ws1 => { ws1 with last_msg_tcp := now }) := by
    rw [parse_cstp_data_accept c w ws _ now hwf]
    rfl
  refine ⟨⟨?_, hc⟩, ⟨?_, parse_dtls_data_accept c w ws t p now⟩, rfl⟩
  · rw [hc]
    exact hne _ _ (fun _ => rfl)
  · rw [parse_dtls_data_accept]
    exact hne _ _ (fun _ => rfl)

/-- C2, witness: the two-byte payload `69 0` of type DATA survives both framings. -/
theorem frame_roundtrip_witness :
    parse_cstp_data AC_PKT sample_world sample_ws [83, 84, 70, 1, 0, 2, 0, 0, 69, 0] 100 =
      (parse_data AC_PKT sample_world sample_ws channel.tls 0 [69, 0] 100).then_set
        (fun ws1 => { ws1 with last_msg_tcp := 100 }) ∧
    parse_dtls_data AC_PKT sample_world sample_ws [0, 69, 0] 100 =
      (parse_data AC_PKT sample_world sample_ws channel.dtls 0 [69, 0] 100).then_set
        (fun ws1 => { ws1 with last_msg_udp := 100 }) :=
  have h := frame_roundtrip AC_PKT sample_world sample_ws 0 [69, 0] 100 (by decide)
  ⟨h.1.2, h.2.1.2⟩

/-! ### Tunnel setup -/

theorem emitted_two {α : Type} (ws : worker_st) (r : result α) (a b : Event)
    (hr : r.state.io_log = ws.io_log ++ [a, b]) : r.emitted ws = [a, b] := by
  simp [result.emitted, hr]

/-- What `connect_handler` does before it looks at the URL. -/
theorem connect_handler_denied (w : world) (ws : worker_st)
    (h : ¬ (ws.auth_state = auth_state_t.S_AUTH_COMPLETE ∨
      (ws.req.cookie_set ≠ 0 ∧ 0 ≤ w.auth_cookie_ret))) :
    (connect_handler w ws).is_exited = true ∧
    ((connect_handler w ws).emitted ws =
        [Event.tls_puts "HTTP/1.1 503 Service Unavailable\r\n\r\n", Event.tls_close] ∨
      (connect_handler w ws).emitted ws =
        [Event.tls_puts "HTTP/1.1 503 Service Unavailable\r\n\r\n", Event.tls_fatal_close]) := by
  simp only [not_or, not_and, not_le] at h
  obtain ⟨hna, hc⟩ := h
  simp only [connect_handler]
  by_cases hm : w.malloc_ok = false
  · rw [if_pos hm]
    exact ⟨rfl, Or.inl (emitted_two ws _ _ _ (by simp [result.state, worker_st.act]))⟩
  · rw [if_neg hm]
    by_cases h0 : ws.req.cookie_set = 0
    · rw [if_pos ⟨hna, h0⟩]
      exact ⟨rfl, Or.inr (emitted_two ws _ _ _ (by simp [result.state, worker_st.act]))⟩
    · rw [if_neg (by simp [h0]), if_pos ⟨hna, hc h0⟩]
      exact ⟨rfl, Or.inr (emitted_two ws _ _ _ (by simp [result.state, worker_st.act]))⟩

/-- C3: the response `HTTP/1.1 200 CONNECTED` is emitted only if `auth_state` is
`S_AUTH_COMPLETE`, or the request carried a cookie and `auth_cookie` accepted
it; in every other case the worker answers `503 Service Unavailable`, closes the
TLS session and exits. -/
theorem connect_handler_auth (w : world) (ws : worker_st) :
    (Event.tls_puts "HTTP/1.1 200 CONNECTED\r\n" ∈ (connect_handler w ws).emitted ws →
      ws.auth_state = auth_state_t.S_AUTH_COMPLETE ∨
        (ws.req.cookie_set ≠ 0 ∧ 0 ≤ w.auth_cookie_ret)) ∧
    (¬ (ws.auth_state = auth_state_t.S_AUTH_COMPLETE ∨
        (ws.req.cookie_set ≠ 0 ∧ 0 ≤ w.auth_cookie_ret)) →
      (connect_handler w ws).is_exited = true ∧
      ((connect_handler w ws).emitted ws =
          [Event.tls_puts "HTTP/1.1 503 Service Unavailable\r\n\r\n", Event.tls_close] ∨
        (connect_handler w ws).emitted ws =
          [Event.tls_puts "HTTP/1.1 503 Service Unavailable\r\n\r\n",
            Event.tls_fatal_close])) := by
  refine ⟨?_, connect_handler_denied w ws⟩
  intro h200
  by_contra hn
  rcases (connect_handler_denied w ws hn).2 with he | he <;> rw [he] at h200 <;>
    exact absurd h200 (by decide)

/-- C3, witness: an unauthenticated peer without cookie gets 503 and the worker
exits; an authenticated peer gets the 200 response. -/
theorem connect_handler_auth_witness :
    (connect_handler sample_world unauth_ws).is_exited = true ∧
    (connect_handler sample_world unauth_ws).emitted unauth_ws =
      [Event.tls_puts "HTTP/1.1 503 Service Unavailable\r\n\r\n", Event.tls_fatal_close] ∧
    Event.tls_puts "HTTP/1.1 200 CONNECTED\r\n" ∈
      (connect_handler sample_world sample_ws).emitted sample_ws := by
  have h := (connect_handler_auth sample_world unauth_ws).2 (by decide)
  refine ⟨h.1, ?_, by decide⟩
  rcases h.2 with he | he
  · exact absurd he (by decide)
  · exact he

/-- C4 (amended): once the buffer is allocated and the peer is authenticated, a
request whose URL is not exactly `/CSCOSSLC/tunnel` is answered with `404` and
the worker exits; and the `200 CONNECTED` response is emitted only for that
exact URL. -/
theorem connect_handler_url (w : world) (ws : worker_st) :
    (w.malloc_ok = true →
      (ws.auth_state = auth_state_t.S_AUTH_COMPLETE ∨
        (ws.req.cookie_set ≠ 0 ∧ 0 ≤ w.auth_cookie_ret)) →
      ws.req.url ≠ "/CSCOSSLC/tunnel" →
      (connect_handler w ws).is_exited = true ∧
      (connect_handler w ws).emitted ws =
        [Event.tls_puts "HTTP/1.1 404 Nah, go away\r\n\r\n", Event.tls_fatal_close]) ∧
    (Event.tls_puts "HTTP/1.1 200 CONNECTED\r\n" ∈ (connect_handler w ws).emitted ws →
      ws.req.url = "/CSCOSSLC/tunnel") := by
  have h404 : w.malloc_ok = true →
      (ws.auth_state = auth_state_t.S_AUTH_COMPLETE ∨
        (ws.req.cookie_set ≠ 0 ∧ 0 ≤ w.auth_cookie_ret)) →
      ws.req.url ≠ "/CSCOSSLC/tunnel" →
      (connect_handler w ws).is_exited = true ∧
      (connect_handler w ws).emitted ws =
        [Event.tls_puts "HTTP/1.1 404 Nah, go away\r\n\r\n", Event.tls_fatal_close] := by
    intro hm ha hu
    simp only [connect_handler]
    rw [if_neg (by simp [hm])]
    have h1 : ¬ (ws.auth_state ≠ auth_state_t.S_AUTH_COMPLETE ∧ ws.req.cookie_set = 0) := by
      rintro ⟨h1, h2⟩
      rcases ha with ha | ha
      · exact h1 ha
      · exact ha.1 h2
    have h2 : ¬ (ws.auth_state ≠ auth_state_t.S_AUTH_COMPLETE ∧ w.auth_cookie_ret < 0) := by
      rintro ⟨h1, h2⟩
      rcases ha with ha | ha
      · exact h1 ha
      · omega
    rw [if_neg h1, if_neg h2, if_pos hu]
    exact ⟨rfl, emitted_two ws _ _ _ (by simp [result.state, worker_st.act])⟩
  refine ⟨h404, ?_⟩
  intro h200
  by_contra hu
  by_cases ha : ws.auth_state = auth_state_t.S_AUTH_COMPLETE ∨
      (ws.req.cookie_set ≠ 0 ∧ 0 ≤ w.auth_cookie_ret)
  · by_cases hm : w.malloc_ok = true
    · rw [(h404 hm ha hu).2] at h200
      exact absurd h200 (by decide)
    · have hm2 : w.malloc_ok = false := by simpa using hm
      have : (connect_handler w ws).emitted ws =
          [Event.tls_puts "HTTP/1.1 503 Service Unavailable\r\n\r\n", Event.tls_close] := by
        simp only [connect_handler]
        rw [if_pos hm2]
        exact emitted_two ws _ _ _ (by simp [result.state, worker_st.act])
      rw [this] at h200
      exact absurd h200 (by decide)
  · rcases (connect_handler_denied w ws ha).2 with he | he <;> rw [he] at h200 <;>
      exact absurd h200 (by decide)

/-- C4, witness: an authenticated request for `/` is answered with 404. -/
theorem connect_handler_url_witness :
    (connect_handler sample_world { sample_ws with req := { sample_req with url := "/" } }).emitted
        { sample_ws with req := { sample_req with url := "/" } } =
      [Event.tls_puts "HTTP/1.1 404 Nah, go away\r\n\r\n", Event.tls_fatal_close] :=
  ((connect_handler_url sample_world { sample_ws with req := { sample_req with url := "/" } }).1
    rfl (Or.inl rfl) (by decide)).2

/-- C4, counterexample: an unauthenticated request for `/` (not the tunnel URL)
is answered with 503, not with 404. -/
theorem connect_handler_unauth_bad_url :
    unauth_ws.req.url ≠ "/CSCOSSLC/tunnel" ∧
    (connect_handler sample_world unauth_ws).emitted unauth_ws =
      [Event.tls_puts "HTTP/1.1 503 Service Unavailable\r\n\r\n", Event.tls_fatal_close] ∧
    Event.tls_puts "HTTP/1.1 404 Nah, go away\r\n\r\n" ∉
      (connect_handler sample_world unauth_ws).emitted unauth_ws := by
  decide

/-- C5: for the authenticated tunnel request `udp_no_cs_ws` (datagram port
configured, master secret present, no ciphersuite selected) `connect_handler`
sends the `200 CONNECTED` response and then reads `oc_name` through the null
`selected_ciphersuite`; no `503` / `X-Reason` answer is produced. -/
theorem connect_handler_null_ciphersuite :
    udp_no_cs_ws.config.udp_port ≠ 0 ∧ udp_no_cs_ws.req.master_secret_set ≠ 0 ∧
    udp_no_cs_ws.req.selected_ciphersuite = none ∧
    (connect_handler sample_world udp_no_cs_ws).is_null_deref = true ∧
    Event.tls_puts "HTTP/1.1 200 CONNECTED\r\n" ∈
      (connect_handler sample_world udp_no_cs_ws).emitted udp_no_cs_ws ∧
    Event.tls_puts "X-Reason: Server configuration error\r\n\r\n" ∉
      (connect_handler sample_world udp_no_cs_ws).emitted udp_no_cs_ws := by
  decide

/-! ### Ciphersuite selection -/

theorem select_entry_eq (t : List Char) (sel : Option dtls_ciphersuite_st)
    (e : dtls_ciphersuite_st) :
    select_entry t sel e = if t = e.oc_name.data then pick_entry sel e else sel := rfl

theorem foldl_select_entry (t : List Char) (tbl : List dtls_ciphersuite_st)
    (acc : Option dtls_ciphersuite_st) :
    tbl.foldl (select_entry t) acc =
      (tbl.filter (fun e => decide (t = e.oc_name.data))).foldl pick_entry acc := by
  induction tbl generalizing acc with
  | nil => rfl
  | cons e es ih =>
    rw [List.foldl_cons, ih, select_entry_eq, List.filter_cons]
    by_cases h : t = e.oc_name.data
    · simp [h]
    · simp [h]

theorem select_ciphersuite_eq (tbl : List dtls_ciphersuite_st) (tokens : List (List Char))
    (acc : Option dtls_ciphersuite_st) :
    select_ciphersuite tbl tokens acc =
      (tokens.flatMap
        (fun t => tbl.filter (fun e => decide (t = e.oc_name.data)))).foldl pick_entry acc := by
  unfold select_ciphersuite
  induction tokens generalizing acc with
  | nil => rfl
  | cons t ts ih =>
    rw [List.foldl_cons, ih, List.flatMap_cons, List.foldl_append, foldl_select_entry]

theorem foldl_pick_entry (m : List dtls_ciphersuite_st) (acc : Option dtls_ciphersuite_st) :
    (m.foldl pick_entry acc = none ↔ acc = none ∧ m = []) ∧
    (∀ s, m.foldl pick_entry acc = some s →
      (s ∈ m ∨ acc = some s) ∧ (∀ e ∈ m, e.server_prio ≤ s.server_prio) ∧
      (∀ a, acc = some a → a.server_prio ≤ s.server_prio)) := by
  induction m generalizing acc with
  | nil =>
    refine ⟨by simp, ?_⟩
    intro s hs
    simp only [List.foldl_nil] at hs
    refine ⟨Or.inr hs, by simp, ?_⟩
    intro a ha
    rw [hs] at ha
    cases ha
    exact le_refl _
  | cons e es ih =>
    rw [List.foldl_cons]
    obtain ⟨ih1, ih2⟩ := ih (pick_entry acc e)
    have hp : pick_entry acc e ≠ none := by
      unfold pick_entry
      cases acc with
      | none => simp
      | some cur => by_cases h : cur.server_prio < e.server_prio <;> simp [h]
    refine ⟨?_, ?_⟩
    · constructor
      · intro h
        exact absurd (ih1.mp h).1 hp
      · rintro ⟨-, h⟩
        cases h
    · intro s hs
      obtain ⟨h1, h2, h3⟩ := ih2 s hs
      have hpe : ∃ p, pick_entry acc e = some p ∧ e.server_prio ≤ p.server_prio ∧
          (p = e ∨ acc = some p) ∧ (∀ a, acc = some a → a.server_prio ≤ p.server_prio) := by
        unfold pick_entry
        cases acc with
        | none => exact ⟨e, rfl, le_refl _, Or.inl rfl, by simp⟩
        | some cur =>
          by_cases h : cur.server_prio < e.server_prio
          · refine ⟨e, by simp [h], le_refl _, Or.inl rfl, ?_⟩
            intro a ha
            cases ha
            exact Nat.le_of_lt h
          · refine ⟨cur, by simp [h], by omega, Or.inr rfl, ?_⟩
            intro a ha
            cases ha
            exact le_refl _
      obtain ⟨p, hp1, hp2, hp3, hp4⟩ := hpe
      have hps := h3 p hp1
      refine ⟨?_, ?_, ?_⟩
      · rcases h1 with h1 | h1
        · exact Or.inl (List.mem_cons_of_mem _ h1)
        · rw [hp1] at h1
          cases h1
          rcases hp3 with hp3 | hp3
          · exact Or.inl (by rw [hp3]; exact List.mem_cons_self _ _)
          · exact Or.inr hp3
      · intro x hx
        rcases List.mem_cons.mp hx with hx | hx
        · rw [hx]; omega
        · exact h2 x hx
      · intro a ha
        have := hp4 a ha
        omega

theorem mem_candidates (tbl : List dtls_ciphersuite_st) (tokens : List (List Char))
    (e : dtls_ciphersuite_st) :
    e ∈ tokens.flatMap (fun t => tbl.filter (fun e => decide (t = e.oc_name.data))) ↔
      e ∈ tbl ∧ e.oc_name.data ∈ tokens := by
  simp only [List.mem_flatMap, List.mem_filter, decide_eq_true_eq]
  constructor
  · rintro ⟨t, ht, he, rfl⟩
    exact ⟨he, ht⟩
  · rintro ⟨he, ht⟩
    exact ⟨_, ht, he, rfl⟩

/-- The selection loop started from "nothing selected" returns nothing exactly
when no token names a table entry, and otherwise a table entry named by a token
whose priority is maximal among the table entries named by a token. -/
theorem select_ciphersuite_best (tbl : List dtls_ciphersuite_st) (names : List (List Char)) :
    (select_ciphersuite tbl names none = none ↔
      ∀ n ∈ names, ∀ e ∈ tbl, e.oc_name.data ≠ n) ∧
    (∀ s, select_ciphersuite tbl names none = some s →
      s ∈ tbl ∧ s.oc_name.data ∈ names ∧
      ∀ e ∈ tbl, e.oc_name.data ∈ names → e.server_prio ≤ s.server_prio) := by
  rw [select_ciphersuite_eq]
  obtain ⟨h1, h2⟩ := foldl_pick_entry
    (names.flatMap (fun t => tbl.filter (fun e => decide (t = e.oc_name.data)))) none
  refine ⟨?_, ?_⟩
  · rw [h1]
    constructor
    · rintro ⟨-, hnil⟩ n hn e he hne
      have : e ∈ names.flatMap (fun t => tbl.filter (fun e => decide (t = e.oc_name.data))) :=
        (mem_candidates tbl names e).mpr ⟨he, by rw [hne]; exact hn⟩
      rw [hnil] at this
      cases this
    · intro h
      refine ⟨rfl, List.eq_nil_iff_forall_not_mem.mpr ?_⟩
      intro e he
      obtain ⟨he1, he2⟩ := (mem_candidates tbl names e).mp he
      exact h _ he2 e he1 rfl
  · intro s hs
    obtain ⟨hmem, hmax, -⟩ := h2 s hs
    rcases hmem with hmem | hmem
    · obtain ⟨hs1, hs2⟩ := (mem_candidates tbl names s).mp hmem
      refine ⟨hs1, hs2, ?_⟩
      intro e he hn
      exact hmax e ((mem_candidates tbl names e).mpr ⟨he, hn⟩)
    · cases hmem

/-- C6 (amended): for a non-empty `X-DTLS-CipherSuite` value whose working copy
is allocated, `value_check` leaves `selected_ciphersuite` null if and only if no
name of the colon-separated list equals the `oc_name` of a table entry;
otherwise the selected entry is a table entry whose `oc_name` occurs in the list
and whose `server_prio` is at least that of every table entry whose `oc_name`
occurs in the list.  For an empty value (or a failed allocation) `value_check`
returns at once and the state, `selected_ciphersuite` included, stays as it was. -/
theorem value_check_ciphersuite (env : http_env) (tbl : List dtls_ciphersuite_st)
    (ws : worker_st) (hh : ws.req.next_header = header_t.HEADER_DTLS_CIPHERSUITE) :
    (0 < ws.req.value.length → env.value_malloc_ok = true →
      ((value_check env tbl ws).req.selected_ciphersuite = none ↔
        ∀ n ∈ strtok_all ':' (c_str ws.req.value), ∀ e ∈ tbl, e.oc_name.data ≠ n) ∧
      (∀ s, (value_check env tbl ws).req.selected_ciphersuite = some s →
        s ∈ tbl ∧ s.oc_name.data ∈ strtok_all ':' (c_str ws.req.value) ∧
        ∀ e ∈ tbl, e.oc_name.data ∈ strtok_all ':' (c_str ws.req.value) →
          e.server_prio ≤ s.server_prio)) ∧
    (ws.req.value.length = 0 ∨ env.value_malloc_ok = false → value_check env tbl ws = ws) := by
  refine ⟨?_, ?_⟩
  · intro hv hm
    have : (value_check env tbl ws).req.selected_ciphersuite =
        select_ciphersuite tbl (strtok_all ':' (c_str ws.req.value)) none := by
      have h1 : ¬ ws.req.value.length ≤ 0 := by omega
      simp [value_check, h1, hm, hh]
    rw [this]
    exact select_ciphersuite_best tbl _
  · intro h
    rcases h with h | h
    · simp [value_check, h]
    · simp [value_check, h]

/-- C6, witness: from the list `AES128-SHA:OC-DTLS1_2-AES256-GCM:foo` the entry
`OC-DTLS1_2-AES256-GCM` (priority 80) is selected, and no table entry named in
the list has a higher priority. -/
theorem value_check_ciphersuite_witness :
    ∃ s, (value_check sample_env ciphersuites
        (cs_ws "AES128-SHA:OC-DTLS1_2-AES256-GCM:foo" none)).req.selected_ciphersuite = some s ∧
      s.oc_name = "OC-DTLS1_2-AES256-GCM" ∧
      ∀ e ∈ ciphersuites,
        e.oc_name.data ∈ strtok_all ':' (c_str "AES128-SHA:OC-DTLS1_2-AES256-GCM:foo".data) →
          e.server_prio ≤ s.server_prio := by
  have h := (value_check_ciphersuite sample_env ciphersuites
    (cs_ws "AES128-SHA:OC-DTLS1_2-AES256-GCM:foo" none) rfl).1 (by decide) rfl
  have hs : (value_check sample_env ciphersuites
      (cs_ws "AES128-SHA:OC-DTLS1_2-AES256-GCM:foo" none)).req.selected_ciphersuite =
      ciphersuites.get? 3 := by decide
  exact ⟨_, hs, by decide, (h.2 _ hs).2.2⟩

/-- C6, counterexample: with `OC-DTLS1_2-ESALSA20-SHA` selected by an earlier
header, an empty `X-DTLS-CipherSuite` value names no table entry, yet
`value_check` leaves `selected_ciphersuite` non-null. -/
theorem value_check_empty_keeps_selection :
    (∀ n ∈ strtok_all ':' (c_str (cs_ws "" ciphersuites.head?).req.value),
      ∀ e ∈ ciphersuites, e.oc_name.data ≠ n) ∧
    (value_check sample_env ciphersuites (cs_ws "" ciphersuites.head?)).req.selected_ciphersuite
      ≠ none := by
  have hnil : strtok_all ':' (c_str (cs_ws "" ciphersuites.head?).req.value) = [] := by decide
  refine ⟨?_, by decide⟩
  intro n hn
  rw [hnil] at hn
  cases hn

/-! ### Bounds on `conn_mtu` -/

theorem sat_send_line {α : Type} (w : world) (ws : worker_st) (e : Event)
    (k : worker_st → result α) (Q : α → worker_st → Prop)
    (h : ∀ l, (k { ws with io_log := l }).sat Q) : (send_line w ws e k).sat Q := by
  unfold send_line
  split_ifs
  · intro v ws1 hv
    cases hv
  · exact h _

theorem sat_send_opt {α : Type} (w : world) (ws : worker_st) (o : Option String) (fmt : String)
    (k : worker_st → result α) (Q : α → worker_st → Prop)
    (h : ∀ l, (k { ws with io_log := l }).sat Q) : (send_opt w ws o fmt k).sat Q := by
  cases o with
  | none => exact h ws.io_log
  | some v => exact sat_send_line w ws _ k Q h

theorem sat_send_addr {α : Type} (w : world) (ws : worker_st)
    (addr netmask dns nbns : Option String) (no_ip : Nat)
    (k : worker_st → result α) (Q : α → worker_st → Prop)
    (h : ∀ l, (k { ws with io_log := l }).sat Q) :
    (send_addr w ws addr netmask dns nbns no_ip k).sat Q := by
  cases addr with
  | none => exact h ws.io_log
  | some a =>
    simp only [send_addr]
    split_ifs
    · apply sat_send_line
      intro l1
      apply sat_send_opt
      intro l2
      apply sat_send_opt
      intro l3
      apply sat_send_opt
      intro l4
      exact h l4
    · exact h ws.io_log

theorem sat_send_routes {α : Type} (w : world) (n4 n6 : Nat) (rs : List String)
    (ws : worker_st) (k : worker_st → result α) (Q : α → worker_st → Prop)
    (h : ∀ l, (k { ws with io_log := l }).sat Q) :
    (send_routes w n4 n6 rs ws k).sat Q := by
  induction rs generalizing ws with
  | nil => exact h ws.io_log
  | cons r rs ih =>
    simp only [send_routes]
    split_ifs
    · exact ih ws h
    · exact ih ws h
    · apply sat_send_line
      intro l
      exact ih _ (fun l2 => h l2)


theorem sat_mono {α : Type} (r : result α) (P Q : α → worker_st → Prop) (h : r.sat P)
    (hpq : ∀ v ws1, P v ws1 → Q v ws1) : r.sat Q :=
  fun v ws1 hv => hpq v ws1 (h v ws1 hv)

theorem sat_replace {α β : Type} (r : result α) (v : β) (Q : β → worker_st → Prop)
    (h : r.sat (fun _ ws1 => Q v ws1)) : (r.replace v).sat Q := by
  intro v1 ws1 hv
  cases r with
  | ok a ws2 =>
    simp only [result.replace, result.ok.injEq] at hv
    obtain ⟨rfl, rfl⟩ := hv
    exact h a _ rfl
  | exited ws2 => simp [result.replace] at hv
  | null_deref ws2 => simp [result.replace] at hv

theorem session_info_send_sat (ws : worker_st) :
    (session_info_send ws).sat (fun _ ws1 => ∃ l, ws1 = { ws with io_log := l }) := by
  intro v ws1 hv
  simp only [session_info_send] at hv
  by_cases hu : ws.udp_state ≠ udp_state_t.UP_DISABLED
  · rw [if_pos hu] at hv
    cases hcs : ws.req.selected_ciphersuite with
    | none => rw [hcs] at hv; cases hv
    | some cs =>
      rw [hcs] at hv
      simp only [result.ok.injEq] at hv
      obtain ⟨-, rfl⟩ := hv
      exact ⟨_, rfl⟩
  · rw [if_neg hu] at hv
    simp only [result.ok.injEq] at hv
    obtain ⟨-, rfl⟩ := hv
    exact ⟨_, rfl⟩

theorem connect_handler_finish_sat (w : world) (ws : worker_st) (o d : Nat) :
    (connect_handler_finish w ws o d).sat
      (fun out ws1 => out = conn_out.tunnel o d ∧ ws1.conn_mtu = ws.conn_mtu ∧
        ws1.vinfo = ws.vinfo) := by
  simp only [connect_handler_finish, mtu_send, worker_st.act]
  split_ifs with h1 h2
  · intro v ws1 hv
    simp [exit_label] at hv
  all_goals
    apply sat_send_line
    intro l1
    apply sat_send_opt
    intro l2
    apply sat_send_line
    intro l3
    apply sat_send_line
    intro l4
    apply sat_replace
    intro v ws1 hv
    obtain ⟨l, rfl⟩ := session_info_send_sat _ v ws1 hv
    exact ⟨rfl, rfl, rfl⟩

theorem connect_handler_udp_sat (w : world) (ws : worker_st) :
    (connect_handler_udp w ws).sat
      (fun _ ws1 => ws1.conn_mtu ≤ ws.conn_mtu ∧ ws1.vinfo = ws.vinfo) := by
  unfold connect_handler_udp
  apply sat_send_line
  intro l1
  apply sat_send_line
  intro l2
  apply sat_send_line
  intro l3
  apply sat_send_line
  intro l4
  apply sat_send_line
  intro l5
  simp only
  cases hcs : ws.req.selected_ciphersuite with
  | none =>
    intro v ws1 hv
    cases hv
  | some cs =>
    simp only
    apply sat_send_line
    intro l6
    refine sat_mono _ _ _ (connect_handler_finish_sat w _ _ _) ?_
    intro v ws1 hv
    obtain ⟨-, h2, h3⟩ := hv
    rw [h2, h3]
    simp only [worker_st.act]
    refine ⟨?_, ?_⟩
    · split_ifs <;> simp only [] <;>
        first
          | exact min_le_left _ _
          | exact le_trans (min_le_right _ _) (min_le_left _ _)
    · split_ifs <;> rfl

theorem tcp_conn_mtu_le (mtu : Nat) (maxseg : Option Int) :
    tcp_conn_mtu mtu maxseg ≤ u32 ((mtu : Int) - 8) := by
  unfold tcp_conn_mtu
  cases maxseg with
  | none => exact le_refl _
  | some m => exact min_le_left _ _

theorem connect_handler_mtu_sat (w : world) (ws : worker_st) :
    (connect_handler_mtu w ws).sat
      (fun _ ws1 => ws1.conn_mtu ≤
        u32 (((if ws.config.default_mtu > 0 then ws.config.default_mtu else ws.vinfo.mtu : Nat) :
          Int) - 8)) := by
  unfold connect_handler_mtu
  by_cases hd : ws.config.default_mtu > 0
  · simp only [hd, if_true]
    split_ifs
    · refine sat_mono _ _ _ (connect_handler_udp_sat w _) ?_
      intro v ws1 hv
      exact le_trans hv.1 (tcp_conn_mtu_le _ _)
    · refine sat_mono _ _ _ (connect_handler_finish_sat w _ _ _) ?_
      intro v ws1 hv
      rw [hv.2.1]
      exact tcp_conn_mtu_le _ _
  · simp only [hd, if_false]
    split_ifs
    · refine sat_mono _ _ _ (connect_handler_udp_sat w _) ?_
      intro v ws1 hv
      exact le_trans hv.1 (tcp_conn_mtu_le _ _)
    · refine sat_mono _ _ _ (connect_handler_finish_sat w _ _ _) ?_
      intro v ws1 hv
      rw [hv.2.1]
      exact tcp_conn_mtu_le _ _

theorem connect_handler_reply_chain (w : world) (ws : worker_st) (Q : conn_out → worker_st → Prop)
    (h : ∀ (l : List Event) (r : http_req_st) (u : udp_state_t) (ms : List Nat),
      (connect_handler_mtu w
        { ws with io_log := l, req := r, udp_state := u, master_secret := ms }).sat Q) :
    (connect_handler_reply w ws).sat Q := by
  unfold connect_handler_reply
  dsimp only
  apply sat_send_line
  intro l1
  apply sat_send_line
  intro l2
  apply sat_send_line
  intro l3
  apply sat_send_opt
  intro l4
  dsimp only
  apply sat_send_addr
  intro l5
  apply sat_send_addr
  intro l6
  apply sat_send_routes
  intro l7
  apply sat_send_routes
  intro l8
  apply sat_send_line
  intro l9
  apply sat_send_line
  intro l10
  apply sat_send_line
  intro l11
  apply sat_send_line
  intro l12
  apply sat_send_line
  intro l13
  split_ifs
  · exact h _ _ _ _
  · exact h _ _ _ _
  · exact h _ _ _ _
  · exact h _ _ _ _

theorem connect_handler_reply_sat (w : world) (ws : worker_st) :
    (connect_handler_reply w ws).sat
      (fun _ ws1 => ws1.conn_mtu ≤
        u32 (((if ws.config.default_mtu > 0 then ws.config.default_mtu else ws.vinfo.mtu : Nat) :
          Int) - 8)) := by
  apply connect_handler_reply_chain
  intro l r u ms
  exact connect_handler_mtu_sat w _

theorem connect_handler_sat (w : world) (ws : worker_st) :
    (connect_handler w ws).sat
      (fun out ws1 => ∀ o d, out = conn_out.tunnel o d →
        ws1.conn_mtu ≤ u32 ((setup_mtu w ws : Int) - 8)) := by
  unfold connect_handler
  dsimp only
  split_ifs
  · intro v ws1 hv; cases hv
  · intro v ws1 hv; cases hv
  · intro v ws1 hv; cases hv
  · intro v ws1 hv; cases hv
  · intro v ws1 hv o d ho
    cases hv
    cases ho
  · intro v ws1 hv o d ho
    cases hv
    cases ho
  · refine sat_mono _ _ _ (connect_handler_reply_sat w _) ?_
    intro v ws1 hv o d _
    exact hv
theorem periodic_check_mss_conn_mtu (w : world) (ws : worker_st) (o : Nat) (now : Int) :
    (periodic_check_mss w ws o now).2.conn_mtu ≤ ws.conn_mtu ∧
    (∀ m, w.tcp_maxseg ws.io_log.length = some m → 0 < m - 13 →
      u32 (m - 13 - o) < ws.conn_mtu →
      (periodic_check_mss w ws o now).2.conn_mtu = u32 (m - 13 - o)) := by
  unfold periodic_check_mss
  cases hm : w.tcp_maxseg ws.io_log.length with
  | none =>
    refine ⟨le_refl _, ?_⟩
    intro m h
    cases h
  | some m0 =>
    dsimp only
    by_cases hc : m0 - 13 > 0 ∧ u32 (m0 - 13 - ↑o) < ws.conn_mtu
    · rw [if_pos hc]
      refine ⟨?_, ?_⟩
      · show (mtu_set ws _).conn_mtu ≤ ws.conn_mtu
        rw [(mtu_set_fields ws _).1]
        exact min_le_left _ _
      · intro m h h1 h2
        cases h
        show (mtu_set ws _).conn_mtu = _
        rw [(mtu_set_fields ws _).1]
        exact min_eq_right (Nat.le_of_lt h2)
    · rw [if_neg hc]
      refine ⟨le_refl _, ?_⟩
      intro m h h1 h2
      cases h
      exact absurd ⟨h1, h2⟩ hc

theorem periodic_check_udp_conn_mtu (c : pkt_types) (ws : worker_st) (now : Int) :
    (periodic_check_udp c ws now).conn_mtu = ws.conn_mtu := by
  simp only [periodic_check_udp]
  split_ifs <;> rfl

theorem periodic_check_conn_mtu (c : pkt_types) (w : world) (ws : worker_st) (o : Nat)
    (now : Int) : (periodic_check c w ws o now).2.conn_mtu ≤ ws.conn_mtu := by
  unfold periodic_check
  dsimp only
  split_ifs
  · exact le_refl _
  · exact le_of_eq (periodic_check_udp_conn_mtu c ws now)
  · exact le_trans (periodic_check_mss_conn_mtu w _ o now).1
      (le_of_eq (periodic_check_udp_conn_mtu c ws now))
  · exact le_trans (periodic_check_mss_conn_mtu w _ o now).1
      (le_of_eq (periodic_check_udp_conn_mtu c ws now))

theorem udp_arm_handshake_done (w : world) (ws : worker_st) (d : Nat)
    (h : w.handshake_ret ws.io_log.length = 0) :
    (udp_arm_handshake w ws d).conn_mtu = min (w.dtls_data_mtu (ws.io_log.length + 1)) d ∧
    (udp_arm_handshake w ws d).udp_state = udp_state_t.UP_ACTIVE := by
  unfold udp_arm_handshake
  have h1 : ¬ ((0 : Int) < 0 ∧ w.error_is_fatal 0 = true) := by omega
  have h2 : ¬ ((0 : Int) = GNUTLS_E_LARGE_PACKET) := by decide
  simp only [h, h1, h2, if_false, if_true, act_log]
  refine ⟨?_, ?_⟩
  · rw [(mtu_set_fields _ _).1]
    split_ifs with hgt
    · exact (min_eq_right (Nat.le_of_lt hgt)).symm
    · exact (min_eq_left (by omega)).symm
  · rw [(mtu_set_fields _ _).2.2.2.1]
    rfl

/-- C10 (amended): `MIN_MTU <= conn_mtu` is kept by `mtu_not_ok`, and by `mtu_ok`
when `conn_mtu + last_bad_mtu` fits in 32 bits, from every state that satisfies
the bracketing relation.  The other computations apply no lower bound: when
`connect_handler` reaches the tunnel loop `conn_mtu` is at most the device MTU
minus 8 (modulo `2^32`), a completed datagram handshake sets `conn_mtu` to the
minimum of the negotiated data MTU and `dtls_mtu`, and `periodic_check` never
raises `conn_mtu` and, when the MSS poll reduces it, sets it to
`MSS - 13 - mtu_overhead`. -/
theorem conn_mtu_bounds (c : pkt_types) (w : world) (ws : worker_st) :
    (mtu_bracket ws →
      MIN_MTU (mtu_not_ok ws).2 ≤ (mtu_not_ok ws).2.conn_mtu ∧
      (ws.conn_mtu + ws.last_bad_mtu < U32 → MIN_MTU (mtu_ok ws) ≤ (mtu_ok ws).conn_mtu)) ∧
    (∀ o d ws1, connect_handler w ws = result.ok (conn_out.tunnel o d) ws1 →
      ws1.conn_mtu ≤ u32 ((setup_mtu w ws : Int) - 8)) ∧
    (∀ d, w.handshake_ret ws.io_log.length = 0 →
      (udp_arm_handshake w ws d).conn_mtu = min (w.dtls_data_mtu (ws.io_log.length + 1)) d) ∧
    (∀ o now, (periodic_check c w ws o now).2.conn_mtu ≤ ws.conn_mtu) ∧
    (∀ (o : Nat) now m, w.tcp_maxseg ws.io_log.length = some m → 0 < m - 13 →
      u32 (m - 13 - o) < ws.conn_mtu →
      (periodic_check_mss w ws o now).2.conn_mtu = u32 (m - 13 - o)) := by
  refine ⟨?_, ?_, ?_, ?_, ?_⟩
  · intro hb
    refine ⟨?_, ?_⟩
    · obtain ⟨h1, h2, -⟩ := mtu_not_ok_bracket ws hb
      exact le_trans h1 h2
    · intro hsum
      obtain ⟨h1, h2, -⟩ := mtu_ok_bracket ws hb hsum
      exact le_trans h1 h2
  · intro o d ws1 h
    exact connect_handler_sat w ws _ ws1 h o d rfl
  · intro d h
    exact (udp_arm_handshake_done w ws d h).1
  · intro o now
    exact periodic_check_conn_mtu c w ws o now
  · intro o now
    exact (periodic_check_mss_conn_mtu w ws o now).2

/-- C10, witness: with a device MTU of 1500 the tunnel loop is entered with
`conn_mtu <= 1492`; `mtu_not_ok` and `mtu_ok` keep `MIN_MTU <= conn_mtu` from the
bracketed state `1000 <= 1000 <= 1500`; a handshake that negotiates a data MTU
of 1400 under `dtls_mtu = 1300` gives `conn_mtu = 1300`; `periodic_check` with
an MSS of 1460 lowers `conn_mtu = 1500` to 1439. -/
theorem conn_mtu_bounds_witness :
    (connect_handler sample_world sample_ws).state.conn_mtu ≤ 1492 ∧
    MIN_MTU (mtu_not_ok probe_ws).2 ≤ (mtu_not_ok probe_ws).2.conn_mtu ∧
    MIN_MTU (mtu_ok probe_ws) ≤ (mtu_ok probe_ws).conn_mtu ∧
    (udp_arm_handshake sample_world handshake_ws 1300).conn_mtu = 1300 ∧
    (periodic_check AC_PKT sample_world sample_ws 8 30).2.conn_mtu ≤ 1500 ∧
    (periodic_check_mss sample_world sample_ws 8 30).2.conn_mtu = 1439 :=
  have hb := (conn_mtu_bounds AC_PKT sample_world probe_ws).1 (by decide)
  ⟨(conn_mtu_bounds AC_PKT sample_world sample_ws).2.1 8 0
      (connect_handler sample_world sample_ws).state rfl,
    hb.1, hb.2 (by decide),
    (conn_mtu_bounds AC_PKT sample_world handshake_ws).2.2.1 1300 rfl,
    (conn_mtu_bounds AC_PKT sample_world sample_ws).2.2.2.1 8 30,
    (conn_mtu_bounds AC_PKT sample_world sample_ws).2.2.2.2 8 30 1460 rfl (by decide)
      (by decide)⟩

/-- C10, counterexample: with a device MTU of 200 the tunnel loop is entered
with `conn_mtu = 192`; with a TCP MSS of 121 `periodic_check` lowers
`conn_mtu` from 1500 to 100; a handshake that negotiates a data MTU of 100
sets `conn_mtu = 100`.  `MIN_MTU` is 257 in each of these states. -/
theorem conn_mtu_below_min :
    ((connect_handler small_mtu_world sample_ws).value = some (conn_out.tunnel 8 0) ∧
      (connect_handler small_mtu_world sample_ws).state.conn_mtu = 192 ∧
      MIN_MTU (connect_handler small_mtu_world sample_ws).state = 257) ∧
    ((periodic_check AC_PKT small_mss_world sample_ws 8 30).1 = 0 ∧
      (periodic_check AC_PKT small_mss_world sample_ws 8 30).2.conn_mtu = 100 ∧
      MIN_MTU (periodic_check AC_PKT small_mss_world sample_ws 8 30).2 = 257) ∧
    ((udp_arm_handshake small_dtls_world handshake_ws 1400).udp_state = udp_state_t.UP_ACTIVE ∧
      (udp_arm_handshake small_dtls_world handshake_ws 1400).conn_mtu = 100 ∧
      MIN_MTU (udp_arm_handshake small_dtls_world handshake_ws 1400) = 257) := by
  decide

theorem sent_on_append (ch : channel) (a b : List Event) :
    sent_on ch (a ++ b) = sent_on ch a ++ sent_on ch b := by
  simp [sent_on, List.filterMap_append]

theorem new_events_append (ws ws1 : worker_st) (l : List Event)
    (h : ws1.io_log = ws.io_log ++ l) : new_events ws ws1 = l := by
  simp [new_events, h]

/-- The actions of `mtu_set` are appended to the log; none of them is a send or
a write to the tun device. -/
theorem mtu_set_events (ws : worker_st) (m : Nat) :
    ∃ l, (mtu_set ws m).io_log = ws.io_log ++ l ∧ (∀ ch, sent_on ch l = []) ∧
      ∀ d, Event.tun_write d ∉ l := by
  unfold mtu_set mtu_send worker_st.act
  by_cases h : ws.dtls_session_set
  · exact ⟨[Event.dtls_set_data_mtu m, Event.tun_mtu_msg (u32 ((m : Int) - 1))],
      by simp [h], fun ch => rfl, by simp⟩
  · exact ⟨[Event.tun_mtu_msg (u32 ((m : Int) - 1))], by simp [h], fun ch => rfl, by simp⟩

theorem mtu_not_ok_events (ws : worker_st) :
    ∃ l, (mtu_not_ok ws).2.io_log = ws.io_log ++ l ∧ (∀ ch, sent_on ch l = []) ∧
      ∀ d, Event.tun_write d ∉ l := by
  simp only [mtu_not_ok]
  split_ifs
  · exact ⟨[], by simp, fun ch => rfl, by simp⟩
  · exact mtu_set_events _ _
  · exact mtu_set_events _ _

theorem periodic_check_mss_events (w : world) (ws : worker_st) (o : Nat) (now : Int) :
    (periodic_check_mss w ws o now).1 = 0 ∧
    ∃ l, (periodic_check_mss w ws o now).2.io_log = ws.io_log ++ l ∧ (∀ ch, sent_on ch l = []) ∧
      ∀ d, Event.tun_write d ∉ l := by
  refine ⟨rfl, ?_⟩
  simp only [periodic_check_mss]
  split
  · exact ⟨[], by simp, fun ch => rfl, by simp⟩
  · split_ifs
    · exact mtu_set_events _ _
    · exact ⟨[], by simp, fun ch => rfl, by simp⟩

theorem periodic_check_mss_udp_state (w : world) (ws : worker_st) (o : Nat) (now : Int) :
    (periodic_check_mss w ws o now).2.udp_state = ws.udp_state := by
  simp only [periodic_check_mss]
  split
  · rfl
  · split_ifs
    · exact (mtu_set_fields _ _).2.2.2.1
    · rfl

theorem periodic_check_udp_fields (c : pkt_types) (ws : worker_st) (now : Int) :
    (periodic_check_udp c ws now).last_msg_tcp = ws.last_msg_tcp ∧
    (periodic_check_udp c ws now).config = ws.config ∧
    (periodic_check_udp c ws now).io_log = ws.io_log ++
      (if ws.udp_state = udp_state_t.UP_ACTIVE ∧
          now - ws.last_msg_udp > (((2 * ws.config.dpd) % U32 : Nat) : Int) then
        [Event.record_send channel.dtls [c.AC_PKT_DPD_OUT]] else []) := by
  simp only [periodic_check_udp]
  split_ifs <;> simp [worker_st.act]

theorem act_fields (ws : worker_st) (e : Event) :
    (ws.act e).last_msg_tcp = ws.last_msg_tcp ∧ (ws.act e).last_msg_udp = ws.last_msg_udp ∧
    (ws.act e).config = ws.config ∧ (ws.act e).udp_state = ws.udp_state ∧
    (ws.act e).io_log = ws.io_log ++ [e] :=
  ⟨rfl, rfl, rfl, rfl, rfl⟩

theorem periodic_check_events (c : pkt_types) (w : world) (ws : worker_st) (o : Nat) (now : Int)
    (h : ¬ now - ws.last_periodic_check < 30) :
    ∃ l, (periodic_check c w ws o now).2.io_log =
      ws.io_log ++
        ((if ws.udp_state = udp_state_t.UP_ACTIVE ∧
            now - ws.last_msg_udp > (((2 * ws.config.dpd) % U32 : Nat) : Int) then
          [Event.record_send channel.dtls [c.AC_PKT_DPD_OUT]] else []) ++
        ((if now - ws.last_msg_tcp > (((2 * ws.config.dpd) % U32 : Nat) : Int) then
          [Event.record_send channel.tls [83, 84, 70, 1, 0, 0, c.AC_PKT_DPD_OUT, 0]] else []) ++
          l)) ∧
      ∀ ch, sent_on ch l = [] := by
  obtain ⟨h1, h2, h3⟩ := periodic_check_udp_fields c ws now
  simp only [periodic_check, if_neg h, (act_fields _ _).1, (act_fields _ _).2.2.1, h1, h2]
  by_cases ha : now - ws.last_msg_tcp > (((2 * ws.config.dpd) % U32 : Nat) : Int)
  · simp only [if_pos ha]
    by_cases hb : now - ws.last_msg_tcp > (((3 * ws.config.dpd) % U32 : Nat) : Int)
    · simp only [if_pos hb]
      exact ⟨[], by simp [worker_st.act, h3], fun _ => rfl⟩
    · simp only [if_neg hb]
      obtain ⟨l, hl, hq, -⟩ := (periodic_check_mss_events w
        ((periodic_check_udp c ws now).act
          (Event.record_send channel.tls [83, 84, 70, 1, 0, 0, c.AC_PKT_DPD_OUT, 0])) o now).2
      exact ⟨l, by rw [hl]; simp [worker_st.act, h3], hq⟩
  · simp only [if_neg ha]
    obtain ⟨l, hl, hq, -⟩ := (periodic_check_mss_events w (periodic_check_udp c ws now) o now).2
    exact ⟨l, by rw [hl, h3]; simp, hq⟩

theorem periodic_check_ret (c : pkt_types) (w : world) (ws : worker_st) (o : Nat) (now : Int) :
    (periodic_check c w ws o now).1 =
      if ¬ now - ws.last_periodic_check < 30 ∧
          now - ws.last_msg_tcp > (((2 * ws.config.dpd) % U32 : Nat) : Int) ∧
          now - ws.last_msg_tcp > (((3 * ws.config.dpd) % U32 : Nat) : Int) then -1 else 0 := by
  obtain ⟨h1, h2, -⟩ := periodic_check_udp_fields c ws now
  simp only [periodic_check]
  by_cases h : now - ws.last_periodic_check < 30
  · simp [h]
  · simp only [if_neg h, h1, h2, worker_st.act]
    split_ifs with ha hb hc hd he <;>
      first
        | rfl
        | exact (periodic_check_mss_events _ _ _ _).1
        | (exfalso; tauto)

theorem periodic_check_udp_state (c : pkt_types) (w : world) (ws : worker_st) (o : Nat)
    (now : Int) :
    (periodic_check c w ws o now).2.udp_state =
      if ¬ now - ws.last_periodic_check < 30 ∧ ws.udp_state = udp_state_t.UP_ACTIVE ∧
          now - ws.last_msg_udp > (((2 * ws.config.dpd) % U32 : Nat) : Int) ∧
          now - ws.last_msg_udp > (((3 * ws.config.dpd) % U32 : Nat) : Int) then
        udp_state_t.UP_INACTIVE
      else ws.udp_state := by
  have hu : (periodic_check_udp c ws now).udp_state =
      if ws.udp_state = udp_state_t.UP_ACTIVE ∧
          now - ws.last_msg_udp > (((2 * ws.config.dpd) % U32 : Nat) : Int) ∧
          now - ws.last_msg_udp > (((3 * ws.config.dpd) % U32 : Nat) : Int) then
        udp_state_t.UP_INACTIVE
      else ws.udp_state := by
    simp only [periodic_check_udp, worker_st.act]
    split_ifs <;> first | rfl | (exfalso; tauto)
  simp only [periodic_check]
  by_cases h : now - ws.last_periodic_check < 30
  · simp [h]
  · simp only [if_neg h, not_false_eq_true, true_and]
    split_ifs <;> simp only [periodic_check_mss_udp_state, worker_st.act, hu] <;>
      first | rfl | simp_all

/-- C14 (amended): `periodic_check` on the reliable channel.  If
`now - last_periodic_check < 30` the call returns 0 and leaves the state, log
included, as it was.  Otherwise, provided `3 * dpd` fits in 32 bits, the
reliable frame `S,T,F,1,0,0,DPD_OUT,0` is sent (once) if and only if
`now - last_msg_tcp > 2 * dpd`, nothing else is sent on the reliable channel,
and the call returns -1 if and only if `now - last_msg_tcp > 3 * dpd`; it
returns 0 in the other case. -/
theorem periodic_check_tcp_dpd (c : pkt_types) (w : world) (ws : worker_st) (o : Nat)
    (now : Int) (hd : 3 * ws.config.dpd < U32) :
    (now - ws.last_periodic_check < 30 → periodic_check c w ws o now = (0, ws)) ∧
    (¬ now - ws.last_periodic_check < 30 →
      sent_on channel.tls (new_events ws (periodic_check c w ws o now).2) =
        (if now - ws.last_msg_tcp > 2 * (ws.config.dpd : Int) then
          [[83, 84, 70, 1, 0, 0, c.AC_PKT_DPD_OUT, 0]] else []) ∧
      ((periodic_check c w ws o now).1 = -1 ↔
        now - ws.last_msg_tcp > 3 * (ws.config.dpd : Int)) ∧
      ((periodic_check c w ws o now).1 = -1 ∨ (periodic_check c w ws o now).1 = 0)) := by
  have h2 : (((2 * ws.config.dpd) % U32 : Nat) : Int) = 2 * (ws.config.dpd : Int) := by
    rw [Nat.mod_eq_of_lt (by omega)]; push_cast; ring
  have h3 : (((3 * ws.config.dpd) % U32 : Nat) : Int) = 3 * (ws.config.dpd : Int) := by
    rw [Nat.mod_eq_of_lt (by omega)]; push_cast; ring
  refine ⟨fun h => by simp [periodic_check, h], fun h => ?_⟩
  obtain ⟨l, hl, hq⟩ := periodic_check_events c w ws o now h
  rw [new_events_append _ _ _ hl, periodic_check_ret, h2, h3]
  refine ⟨?_, ?_, ?_⟩
  · simp only [sent_on_append, hq, List.append_nil]
    split_ifs <;> simp [sent_on]
  · split_ifs with hc
    · simp only [true_iff]; exact hc.2.2
    · constructor
      · intro h0; cases h0
      · intro hgt
        exact absurd ⟨h, by omega, hgt⟩ hc
  · split_ifs <;> simp

/-- C14, witness: a check at time 1000 in the sample state, whose `dpd` is 60. -/
theorem periodic_check_tcp_dpd_witness :
    3 * sample_ws.config.dpd < U32 ∧
    ((periodic_check AC_PKT sample_world sample_ws 8 1000).1 = -1 ↔
      (1000 : Int) - sample_ws.last_msg_tcp > 3 * (sample_ws.config.dpd : Int)) :=
  ⟨by decide, ((periodic_check_tcp_dpd AC_PKT sample_world sample_ws 8 1000 (by decide)).2
    (by decide)).2.1⟩

/-- C14, counterexample: with `dpd = 2^31` the product `2 * dpd` wraps to 0, so
a check 100 seconds after the last reliable message sends a `DPD_OUT` frame
although `100 > 2 * dpd` is false. -/
theorem tcp_dpd_product_wraps :
    ¬ (100 : Int) - dpd_wrap_ws.last_periodic_check < 30 ∧
    ¬ (100 : Int) - dpd_wrap_ws.last_msg_tcp > 2 * (dpd_wrap_ws.config.dpd : Int) ∧
    sent_on channel.tls (new_events dpd_wrap_ws
      (periodic_check AC_PKT sample_world dpd_wrap_ws 8 100).2) = [[83, 84, 70, 1, 0, 0, 3, 0]] := by
  decide

/-- C15 (amended): `periodic_check` on the datagram channel, provided `3 * dpd`
fits in 32 bits.  In a check that runs with `udp_state = ACTIVE`, the datagram
`DPD_OUT` is sent (once) if and only if `now - last_msg_udp > 2 * dpd`, and
`udp_state` becomes `INACTIVE` if and only if `now - last_msg_udp > 3 * dpd`
(it stays `ACTIVE` otherwise).  With any other `udp_state` nothing is sent on
the datagram channel and `udp_state` is unchanged.  Whenever
`now - last_msg_tcp <= 3 * dpd` the call returns 0. -/
theorem periodic_check_udp_dpd (c : pkt_types) (w : world) (ws : worker_st) (o : Nat)
    (now : Int) (hd : 3 * ws.config.dpd < U32) :
    (¬ now - ws.last_periodic_check < 30 → ws.udp_state = udp_state_t.UP_ACTIVE →
      sent_on channel.dtls (new_events ws (periodic_check c w ws o now).2) =
        (if now - ws.last_msg_udp > 2 * (ws.config.dpd : Int) then [[c.AC_PKT_DPD_OUT]]
         else []) ∧
      ((periodic_check c w ws o now).2.udp_state = udp_state_t.UP_INACTIVE ↔
        now - ws.last_msg_udp > 3 * (ws.config.dpd : Int)) ∧
      ((periodic_check c w ws o now).2.udp_state = udp_state_t.UP_INACTIVE ∨
        (periodic_check c w ws o now).2.udp_state = udp_state_t.UP_ACTIVE)) ∧
    (ws.udp_state ≠ udp_state_t.UP_ACTIVE →
      sent_on channel.dtls (new_events ws (periodic_check c w ws o now).2) = [] ∧
      (periodic_check c w ws o now).2.udp_state = ws.udp_state) ∧
    (now - ws.last_msg_tcp ≤ 3 * (ws.config.dpd : Int) →
      (periodic_check c w ws o now).1 = 0) := by
  have h2 : (((2 * ws.config.dpd) % U32 : Nat) : Int) = 2 * (ws.config.dpd : Int) := by
    rw [Nat.mod_eq_of_lt (by omega)]; push_cast; ring
  have h3 : (((3 * ws.config.dpd) % U32 : Nat) : Int) = 3 * (ws.config.dpd : Int) := by
    rw [Nat.mod_eq_of_lt (by omega)]; push_cast; ring
  refine ⟨fun h ha => ?_, fun hna => ?_, fun hle => ?_⟩
  · obtain ⟨l, hl, hq⟩ := periodic_check_events c w ws o now h
    rw [new_events_append _ _ _ hl, periodic_check_udp_state, h2, h3]
    refine ⟨?_, ?_, ?_⟩
    · simp only [sent_on_append, hq, List.append_nil, ha, true_and]
      split_ifs <;> simp [sent_on]
    · split_ifs with hc
      · simp only [true_iff]; exact hc.2.2.2
      · rw [ha]
        constructor
        · intro h0; cases h0
        · intro hgt
          exact absurd ⟨h, ha, by omega, hgt⟩ hc
    · split_ifs
      · exact Or.inl rfl
      · exact Or.inr ha
  · constructor
    · by_cases h : now - ws.last_periodic_check < 30
      · simp [periodic_check, h, new_events, sent_on]
      · obtain ⟨l, hl, hq⟩ := periodic_check_events c w ws o now h
        rw [new_events_append _ _ _ hl]
        simp only [sent_on_append, hq, List.append_nil, hna, false_and, if_false]
        split_ifs <;> simp [sent_on]
    · rw [periodic_check_udp_state]
      simp [hna]
  · rw [periodic_check_ret, h3]
    rw [if_neg]
    intro hc
    omega

/-- C15, witness: checks at time 1000 with `dpd = 60`.  With an active
datagram channel that has been silent for 200 seconds a datagram `DPD_OUT` is
sent, `udp_state` becomes `INACTIVE` and the call returns 0; silent for 150
seconds, the `DPD_OUT` is sent and `udp_state` stays `ACTIVE`; silent for 10
seconds, nothing is sent and `udp_state` stays `ACTIVE`; and in the sample
state, whose datagram channel is disabled, nothing is sent and `udp_state` is
unchanged. -/
theorem periodic_check_udp_dpd_witness :
    3 * sample_ws.config.dpd < U32 ∧
    (sent_on channel.dtls (new_events (udp_silent_ws 800)
        (periodic_check AC_PKT sample_world (udp_silent_ws 800) 8 1000).2) = [[3]] ∧
      (periodic_check AC_PKT sample_world (udp_silent_ws 800) 8 1000).2.udp_state =
        udp_state_t.UP_INACTIVE ∧
      (periodic_check AC_PKT sample_world (udp_silent_ws 800) 8 1000).1 = 0) ∧
    (sent_on channel.dtls (new_events (udp_silent_ws 850)
        (periodic_check AC_PKT sample_world (udp_silent_ws 850) 8 1000).2) = [[3]] ∧
      (periodic_check AC_PKT sample_world (udp_silent_ws 850) 8 1000).2.udp_state =
        udp_state_t.UP_ACTIVE) ∧
    (sent_on channel.dtls (new_events (udp_silent_ws 990)
        (periodic_check AC_PKT sample_world (udp_silent_ws 990) 8 1000).2) = [] ∧
      (periodic_check AC_PKT sample_world (udp_silent_ws 990) 8 1000).2.udp_state =
        udp_state_t.UP_ACTIVE) ∧
    (sample_ws.udp_state ≠ udp_state_t.UP_ACTIVE ∧
      sent_on channel.dtls
        (new_events sample_ws (periodic_check AC_PKT sample_world sample_ws 8 1000).2) = [] ∧
      (periodic_check AC_PKT sample_world sample_ws 8 1000).2.udp_state =
        sample_ws.udp_state) :=
  ⟨by decide,
    ⟨(((periodic_check_udp_dpd AC_PKT sample_world (udp_silent_ws 800) 8 1000 (by decide)).1
        (by decide) rfl).1).trans (by decide),
      ((periodic_check_udp_dpd AC_PKT sample_world (udp_silent_ws 800) 8 1000 (by decide)).1
        (by decide) rfl).2.1.2 (by decide),
      (periodic_check_udp_dpd AC_PKT sample_world (udp_silent_ws 800) 8 1000 (by decide)).2.2
        (by decide)⟩,
    ⟨(((periodic_check_udp_dpd AC_PKT sample_world (udp_silent_ws 850) 8 1000 (by decide)).1
        (by decide) rfl).1).trans (by decide),
      ((periodic_check_udp_dpd AC_PKT sample_world (udp_silent_ws 850) 8 1000 (by decide)).1
        (by decide) rfl).2.2.resolve_left
        (fun hc => absurd
          (((periodic_check_udp_dpd AC_PKT sample_world (udp_silent_ws 850) 8 1000
            (by decide)).1 (by decide) rfl).2.1.1 hc) (by decide))⟩,
    ⟨(((periodic_check_udp_dpd AC_PKT sample_world (udp_silent_ws 990) 8 1000 (by decide)).1
        (by decide) rfl).1).trans (by decide),
      ((periodic_check_udp_dpd AC_PKT sample_world (udp_silent_ws 990) 8 1000 (by decide)).1
        (by decide) rfl).2.2.resolve_left
        (fun hc => absurd
          (((periodic_check_udp_dpd AC_PKT sample_world (udp_silent_ws 990) 8 1000
            (by decide)).1 (by decide) rfl).2.1.1 hc) (by decide))⟩,
    ⟨by decide,
      (periodic_check_udp_dpd AC_PKT sample_world sample_ws 8 1000 (by decide)).2.1
        (by decide)⟩⟩

/-- C15, counterexample: with `dpd = 2^31` and an active datagram channel, a
check 100 seconds after the last datagram sends a datagram `DPD_OUT` although
`100 > 2 * dpd` is false. -/
theorem udp_dpd_product_wraps :
    ¬ (100 : Int) - dpd_wrap_ws.last_periodic_check < 30 ∧
    dpd_wrap_ws.udp_state = udp_state_t.UP_ACTIVE ∧
    ¬ (100 : Int) - dpd_wrap_ws.last_msg_udp > 2 * (dpd_wrap_ws.config.dpd : Int) ∧
    sent_on channel.dtls (new_events dpd_wrap_ws
      (periodic_check AC_PKT sample_world dpd_wrap_ws 8 100).2) = [[3]] := by
  decide

/-- C17: a header value of 96 characters none of which is a hexadecimal digit
sets `master_secret_set` to 1, whatever `gnutls_hex2bin` makes of it: the
result of the decoder is not consulted. -/
theorem value_check_master_secret_unchecked (env : http_env) (tbl : List dtls_ciphersuite_st) :
    (value_check { env with value_malloc_ok := true } tbl
      (master_ws (List.replicate 96 'z'))).req.master_secret_set = 1 := by
  simp [value_check, master_ws, sample_req, TLS_MASTER_SIZE]

theorem act_io_log (ws : worker_st) (e : Event) : (ws.act e).io_log = ws.io_log ++ [e] := rfl

theorem then_set_state_log (r : result Int) (f : worker_st → worker_st)
    (hf : ∀ x, (f x).io_log = x.io_log) : (r.then_set f).state.io_log = r.state.io_log := by
  cases r <;> simp [result.then_set, result.state, hf]

theorem emitted_ok_self {α : Type} (v : α) (ws : worker_st) :
    (result.ok v ws).emitted ws = [] := by
  simp [result.emitted, result.state]

theorem emitted_of_log {α : Type} (r : result α) (ws : worker_st) (l : List Event)
    (h : r.state.io_log = ws.io_log ++ l) : r.emitted ws = l := by
  simp [result.emitted, h]

/-- The actions of `parse_data` on a `DPD_OUT` frame that arrived on the
datagram channel. -/
theorem parse_data_dpd_dtls_events (c : pkt_types) (ws : worker_st) :
    ∃ l, (∀ ch, sent_on ch l = []) ∧ (∀ d, Event.tun_write d ∉ l) ∧
      (mtu_not_ok (ws.act (Event.record_send channel.dtls [c.AC_PKT_DPD_RESP]))).2.io_log =
        ws.io_log ++ (Event.record_send channel.dtls [c.AC_PKT_DPD_RESP] :: l) := by
  obtain ⟨l, hl, hq, hw⟩ :=
    mtu_not_ok_events (ws.act (Event.record_send channel.dtls [c.AC_PKT_DPD_RESP]))
  exact ⟨l, hq, hw, by rw [hl]; simp [worker_st.act]⟩

/-- C18: given that the case labels are pairwise different, `parse_data`
writes to the tun device if and only if the type is `DATA`, and then its only
action is the write of exactly the payload it was handed; through
`parse_cstp_data` that payload is the frame without its 8-byte header, through
`parse_dtls_data` the datagram without its type byte.  For `DPD_RESP`,
`KEEPALIVE` and every type that is no case label it returns the type and leaves
the state, log included, as it was. -/
theorem parse_data_tun_write (c : pkt_types) (w : world) (ws : worker_st) (ts : channel)
    (head : Nat) (buf : List Nat) (now : Int) (hc : c.distinct) :
    ((∃ d, Event.tun_write d ∈ (parse_data c w ws ts head buf now).emitted ws) ↔
      head = c.AC_PKT_DATA) ∧
    (head = c.AC_PKT_DATA →
      (parse_data c w ws ts head buf now).emitted ws = [Event.tun_write buf] ∧
      (cstp_well_formed (cstp_header buf.length head ++ buf) →
        (parse_cstp_data c w ws (cstp_header buf.length head ++ buf) now).emitted ws =
          [Event.tun_write buf]) ∧
      (parse_dtls_data c w ws (head :: buf) now).emitted ws = [Event.tun_write buf]) ∧
    ((head = c.AC_PKT_DPD_RESP ∨ head = c.AC_PKT_KEEPALIVE ∨
        (head ≠ c.AC_PKT_DPD_RESP ∧ head ≠ c.AC_PKT_KEEPALIVE ∧ head ≠ c.AC_PKT_DPD_OUT ∧
          head ≠ c.AC_PKT_DISCONN ∧ head ≠ c.AC_PKT_DATA)) →
      parse_data c w ws ts head buf now = result.ok (head : Int) ws) := by
  simp only [pkt_types.distinct, List.nodup_cons, List.mem_cons, List.mem_singleton,
    not_or, List.not_mem_nil, not_false_eq_true, List.nodup_nil, and_true] at hc
  obtain ⟨⟨h1, h2, h3, h4⟩, ⟨h5, h6, h7⟩, ⟨h8, h9⟩, h10⟩ := hc
  have hdata : ∀ ts, head = c.AC_PKT_DATA →
      (parse_data c w ws ts head buf now).state.io_log = ws.io_log ++ [Event.tun_write buf] := by
    intro ts h
    subst h
    simp only [parse_data, if_neg (Ne.symm h4), if_neg (Ne.symm h7), if_neg (Ne.symm h9),
      if_neg (Ne.symm h10), if_true]
    split_ifs <;> rfl
  refine ⟨⟨?_, ?_⟩, ?_, ?_⟩
  · rintro ⟨d, hd⟩
    by_contra hne
    obtain ⟨l, hq, hw, hl⟩ := parse_data_dpd_dtls_events c ws
    cases ts <;> simp only [parse_data, if_neg hne] at hd <;> split_ifs at hd <;>
      first
        | (simp [result.emitted, result.state, worker_st.act] at hd; done)
        | (rw [emitted_of_log _ ws
            (Event.record_send channel.dtls [c.AC_PKT_DPD_RESP] :: l ++
              [Event.record_send channel.dtls [c.AC_PKT_DPD_RESP]])
            (by simp only [result.state, act_io_log, hl]; simp)] at hd
           simp at hd
           exact hw d hd)
  · intro h
    exact ⟨buf, by rw [emitted_of_log _ ws _ (hdata ts h)]; simp⟩
  · intro h
    refine ⟨emitted_of_log _ ws _ (hdata ts h), fun hwf => ?_, ?_⟩
    · rw [parse_cstp_data_accept c w ws _ now hwf]
      have h6' : (cstp_header buf.length head ++ buf).getD 6 0 = head := by simp [cstp_header]
      have hdrop : (cstp_header buf.length head ++ buf).drop 8 = buf := by simp [cstp_header]
      rw [h6', hdrop]
      refine emitted_of_log _ ws _ ?_
      exact (then_set_state_log _ _ (by intro x; rfl)).trans (hdata channel.tls h)
    · rw [parse_dtls_data_accept]
      refine emitted_of_log _ ws _ ?_
      exact (then_set_state_log _ _ (by intro x; rfl)).trans (hdata channel.dtls h)
  · rintro (h | h | ⟨ha, hb, hcc, hd, he⟩)
    · simp [parse_data, h]
    · subst h
      simp [parse_data]
    · simp [parse_data, ha, hb, hcc, hd, he]

/-- C18, witness: a `DATA` frame with payload 1, 2, 3 on the reliable channel. -/
theorem parse_data_tun_write_witness :
    AC_PKT.distinct ∧
    (parse_data AC_PKT sample_world sample_ws channel.tls 0 [1, 2, 3] 0).emitted sample_ws =
      [Event.tun_write [1, 2, 3]] :=
  ⟨by decide,
    ((parse_data_tun_write AC_PKT sample_world sample_ws channel.tls 0 [1, 2, 3] 0
      (by decide)).2.1 rfl).1⟩

/-- C19 (amended): given that the case labels are pairwise different,
`parse_data` answers a `DPD_OUT` frame on the channel it arrived on.  On the
reliable channel it sends the 8 bytes `S,T,F,1,0,0,4,0` once and returns -1 if
that send fails, the type otherwise; when `DPD_RESP` has the code 4 the
reliable decoder accepts these 8 bytes as a frame of type `DPD_RESP` with empty
payload.  On the datagram channel it sends the single byte `DPD_RESP`; if that
send does not report `GNUTLS_E_LARGE_PACKET` this is the only action and the
call returns -1 if the send fails, the type otherwise; if it does, `mtu_not_ok`
runs, the byte is sent a second time, and the call returns -1 exactly when the
second send fails.  Nothing is sent on the other channel. -/
theorem parse_data_dpd_out (c : pkt_types) (w : world) (ws : worker_st) (buf : List Nat)
    (now : Int) (hc : c.distinct) :
    parse_data c w ws channel.tls c.AC_PKT_DPD_OUT buf now =
      result.ok (if w.send_ret ws.io_log.length < 0 then -1 else (c.AC_PKT_DPD_OUT : Int))
        (ws.act (Event.record_send channel.tls [83, 84, 70, 1, 0, 0, 4, 0])) ∧
    (c.AC_PKT_DPD_RESP = 4 → ∀ (ws1 : worker_st) (now1 : Int),
      parse_cstp_data c w ws1 [83, 84, 70, 1, 0, 0, 4, 0] now1 =
        result.ok (c.AC_PKT_DPD_RESP : Int) { ws1 with last_msg_tcp := now1 }) ∧
    (w.send_ret ws.io_log.length ≠ GNUTLS_E_LARGE_PACKET →
      parse_data c w ws channel.dtls c.AC_PKT_DPD_OUT buf now =
        result.ok (if w.send_ret ws.io_log.length < 0 then -1 else (c.AC_PKT_DPD_OUT : Int))
          (ws.act (Event.record_send channel.dtls [c.AC_PKT_DPD_RESP]))) ∧
    (w.send_ret ws.io_log.length = GNUTLS_E_LARGE_PACKET →
      ∃ ws1, parse_data c w ws channel.dtls c.AC_PKT_DPD_OUT buf now =
          result.ok
            (if w.send_ret (mtu_not_ok
                (ws.act (Event.record_send channel.dtls [c.AC_PKT_DPD_RESP]))).2.io_log.length < 0
              then -1 else (c.AC_PKT_DPD_OUT : Int)) ws1 ∧
        sent_on channel.dtls (new_events ws ws1) =
          [[c.AC_PKT_DPD_RESP], [c.AC_PKT_DPD_RESP]] ∧
        sent_on channel.tls (new_events ws ws1) = []) := by
  simp only [pkt_types.distinct, List.nodup_cons, List.mem_cons, List.mem_singleton,
    not_or, List.not_mem_nil, not_false_eq_true, List.nodup_nil, and_true] at hc
  obtain ⟨⟨-, h2, -, -⟩, ⟨h5, -, -⟩, -, -⟩ := hc
  refine ⟨?_, ?_, ?_, ?_⟩
  · simp only [parse_data, if_neg (Ne.symm h2), if_neg (Ne.symm h5), if_true]
    split_ifs <;> rfl
  · intro h4 ws1 now1
    rw [parse_cstp_data_accept c w ws1 _ now1 (by decide)]
    simp [parse_data, h4, result.then_set]
  · intro hne
    simp only [parse_data, if_neg (Ne.symm h2), if_neg (Ne.symm h5), if_true, if_neg hne]
    split_ifs <;> rfl
  · intro he
    obtain ⟨l, hq, -, hl⟩ := parse_data_dpd_dtls_events c ws
    refine ⟨(mtu_not_ok (ws.act (Event.record_send channel.dtls [c.AC_PKT_DPD_RESP]))).2.act
      (Event.record_send channel.dtls [c.AC_PKT_DPD_RESP]), ?_, ?_, ?_⟩
    · simp only [parse_data, if_neg (Ne.symm h2), if_neg (Ne.symm h5), if_true, if_pos he]
      split_ifs <;> rfl
    · rw [new_events_append ws _
        (Event.record_send channel.dtls [c.AC_PKT_DPD_RESP] :: l ++
          [Event.record_send channel.dtls [c.AC_PKT_DPD_RESP]])
        (by simp only [act_io_log, hl]; simp)]
      have := hq channel.dtls
      simp only [sent_on] at this
      simp [sent_on, this]
    · rw [new_events_append ws _
        (Event.record_send channel.dtls [c.AC_PKT_DPD_RESP] :: l ++
          [Event.record_send channel.dtls [c.AC_PKT_DPD_RESP]])
        (by simp only [act_io_log, hl]; simp)]
      have := hq channel.tls
      simp only [sent_on] at this
      simp [sent_on, this]

/-- C19, witness: a `DPD_OUT` frame on the reliable channel of the sample
session is answered with the 8 bytes; on the datagram channel of a session
whose datagram channel is active it is answered with the byte `DPD_RESP`, once
when the send succeeds, and twice when the first send reports
`GNUTLS_E_LARGE_PACKET`. -/
theorem parse_data_dpd_out_witness :
    AC_PKT.distinct ∧
    parse_data AC_PKT sample_world sample_ws channel.tls 3 [] 0 =
      result.ok 3 (sample_ws.act (Event.record_send channel.tls [83, 84, 70, 1, 0, 0, 4, 0])) ∧
    sample_world.send_ret active_ws.io_log.length ≠ GNUTLS_E_LARGE_PACKET ∧
    parse_data AC_PKT sample_world active_ws channel.dtls 3 [] 0 =
      result.ok 3 (active_ws.act (Event.record_send channel.dtls [4])) ∧
    large_packet_world.send_ret active_ws.io_log.length = GNUTLS_E_LARGE_PACKET ∧
    (∃ ws1, parse_data AC_PKT large_packet_world active_ws channel.dtls 3 [] 0 =
        result.ok 3 ws1 ∧
      sent_on channel.dtls (new_events active_ws ws1) = [[4], [4]] ∧
      sent_on channel.tls (new_events active_ws ws1) = []) :=
  ⟨by decide, (parse_data_dpd_out AC_PKT sample_world sample_ws [] 0 (by decide)).1,
    by decide,
    (parse_data_dpd_out AC_PKT sample_world active_ws [] 0 (by decide)).2.2.1 (by decide),
    by decide,
    (parse_data_dpd_out AC_PKT large_packet_world active_ws [] 0 (by decide)).2.2.2
      (by decide)⟩

/-- C19, counterexample: on the datagram channel the send of the `DPD_RESP`
byte fails with `GNUTLS_E_LARGE_PACKET` (-7), yet `parse_data` does not fail:
after `mtu_not_ok` it sends the byte a second time and returns the type. -/
theorem dpd_resp_sent_twice :
    GNUTLS_E_LARGE_PACKET = -7 ∧
    large_packet_world.send_ret active_ws.io_log.length = GNUTLS_E_LARGE_PACKET ∧
    large_packet_world.send_ret active_ws.io_log.length < 0 ∧
    (parse_data AC_PKT large_packet_world active_ws channel.dtls AC_PKT.AC_PKT_DPD_OUT [] 0).value
      = some 3 ∧
    sent_on channel.dtls
      ((parse_data AC_PKT large_packet_world active_ws channel.dtls AC_PKT.AC_PKT_DPD_OUT
        [] 0).emitted active_ws) = [[4], [4]] := by
  decide

/-- The rehandshake loop ends at the first call whose result is not a
non-fatal error: if that is call number `k` (counting from 0) and the fuel is
at least `k`, the loop returns that result after `k + 1` calls. -/
theorem handshake_loop_done (w : world) (k : Nat) :
    ∀ (fuel : Nat) (ws : worker_st), k ≤ fuel →
      (∀ i, i < k → w.handshake_ret (ws.io_log.length + i) < 0 ∧
        w.error_is_fatal (w.handshake_ret (ws.io_log.length + i)) = false) →
      ¬ (w.handshake_ret (ws.io_log.length + k) < 0 ∧
        w.error_is_fatal (w.handshake_ret (ws.io_log.length + k)) = false) →
      handshake_loop w fuel ws =
        some (w.handshake_ret (ws.io_log.length + k),
          { ws with io_log := ws.io_log ++ List.replicate (k + 1) Event.tls_handshake }) := by
  induction k with
  | zero =>
    intro fuel ws _ _ hend
    unfold handshake_loop
    simp only [Nat.add_zero] at hend
    simp only [if_neg hend, Nat.add_zero]
    rfl
  | succ k ih =>
    intro fuel ws hk hretry hend
    obtain ⟨n, rfl⟩ : ∃ n, fuel = n + 1 := ⟨fuel - 1, by omega⟩
    have h0 := hretry 0 (by omega)
    simp only [Nat.add_zero] at h0
    unfold handshake_loop
    simp only [if_pos h0]
    rw [ih n (ws.act Event.tls_handshake) (by omega)]
    · simp only [act_io_log, List.length_append, List.length_singleton]
      rw [show ws.io_log.length + 1 + k = ws.io_log.length + (k + 1) by omega]
      simp [worker_st.act, List.replicate_succ]
    · intro i hi
      have := hretry (i + 1) (by omega)
      simp only [act_io_log, List.length_append, List.length_singleton]
      rw [show ws.io_log.length + 1 + i = ws.io_log.length + (i + 1) by omega]
      exact this
    · simp only [act_io_log, List.length_append, List.length_singleton]
      rw [show ws.io_log.length + 1 + k = ws.io_log.length + (k + 1) by omega]
      exact hend

/-! ### Properties kept by the loop body -/

theorem closed_act {d : Nat} {P : worker_st → Prop} (hP : loop_closed d P) (ws : worker_st)
    (e : Event) (h : P ws) : P (ws.act e) :=
  hP.log ws _ h

theorem closed_periodic_check {d : Nat} {P : worker_st → Prop} (hP : loop_closed d P)
    (c : pkt_types) (w : world) (ws : worker_st) (o : Nat) (now : Int) (h : P ws) :
    P (periodic_check c w ws o now).2 := by
  have hu : P (periodic_check_udp c ws now) := by
    simp only [periodic_check_udp]
    split_ifs with h1 h2
    · exact hP.inactive _ (closed_act hP _ _ h) h1.1
    · exact closed_act hP _ _ h
    · exact h
  have hm : ∀ ws1, P ws1 → P (periodic_check_mss w ws1 o now).2 := by
    intro ws1 h1
    have hx : P (match w.tcp_maxseg ws1.io_log.length with
        | none => ws1
        | some m =>
          if m - 13 > 0 ∧ u32 (m - 13 - o) < ws1.conn_mtu then
            mtu_set ws1 (min ws1.conn_mtu (u32 (m - 13 - o)))
          else ws1) := by
      split
      · exact h1
      · split_ifs
        · exact hP.lower _ _ h1 (min_le_left _ _)
        · exact h1
    exact hP.stamps _ _ _ now hx
  simp only [periodic_check]
  split_ifs
  · exact h
  · exact closed_act hP _ _ hu
  · exact hm _ (closed_act hP _ _ hu)
  · exact hm _ hu

theorem closed_parse_data {d : Nat} {P : worker_st → Prop} (hP : loop_closed d P)
    (c : pkt_types) (w : world) (ws : worker_st) (ts : channel) (head : Nat) (buf : List Nat)
    (now : Int) (h : P ws) (hts : ts = channel.dtls → ws.udp_state = udp_state_t.UP_ACTIVE) :
    (parse_data c w ws ts head buf now).sat (fun _ ws1 => P ws1) := by
  intro v ws1 hv
  cases ts <;> simp only [parse_data] at hv <;> split_ifs at hv <;>
    simp only [result.ok.injEq] at hv <;> obtain ⟨-, rfl⟩ := hv <;>
    first
      | exact h
      | exact closed_act hP _ _ h
      | exact closed_act hP _ _ (hP.not_ok _ (closed_act hP _ _ h) (Or.inr (hts rfl)))

theorem closed_then_set {P : worker_st → Prop} (r : result Int) (f : worker_st → worker_st)
    (hr : r.sat (fun _ ws1 => P ws1)) (hf : ∀ ws1, P ws1 → P (f ws1)) :
    (r.then_set f).sat (fun _ ws1 => P ws1) := by
  intro v ws1 hv
  cases r with
  | ok a ws2 =>
    simp only [result.then_set, result.ok.injEq] at hv
    obtain ⟨-, rfl⟩ := hv
    exact hf _ (hr a ws2 rfl)
  | exited ws2 => simp [result.then_set] at hv
  | null_deref ws2 => simp [result.then_set] at hv

theorem closed_parse_cstp_data {d : Nat} {P : worker_st → Prop} (hP : loop_closed d P)
    (c : pkt_types) (w : world) (ws : worker_st) (buf : List Nat) (now : Int) (h : P ws) :
    (parse_cstp_data c w ws buf now).sat (fun _ ws1 => P ws1) := by
  simp only [parse_cstp_data]
  split_ifs
  · intro v ws1 hv; cases hv; exact h
  · intro v ws1 hv; cases hv; exact h
  · intro v ws1 hv; cases hv; exact h
  · exact closed_then_set _ _
      (closed_parse_data hP c w ws _ _ _ now h (fun hc => by cases hc))
      (fun ws1 h1 => hP.stamps ws1 now _ _ h1)

theorem closed_parse_dtls_data {d : Nat} {P : worker_st → Prop} (hP : loop_closed d P)
    (c : pkt_types) (w : world) (ws : worker_st) (buf : List Nat) (now : Int) (h : P ws)
    (hs : ws.udp_state = udp_state_t.UP_ACTIVE) :
    (parse_dtls_data c w ws buf now).sat (fun _ ws1 => P ws1) := by
  simp only [parse_dtls_data]
  split_ifs
  · intro v ws1 hv; cases hv; exact h
  · exact closed_then_set _ _ (closed_parse_data hP c w ws _ _ _ now h (fun _ => hs))
      (fun ws1 h1 => hP.stamps ws1 _ now _ h1)

theorem closed_tun_send_tls {d : Nat} {P : worker_st → Prop} (hP : loop_closed d P)
    (c : pkt_types) (w : world) (ws : worker_st) (p : List Nat) (h : P ws) :
    (tun_send_tls c w ws p).sat (fun _ ws1 => P ws1) := by
  intro v ws1 hv
  simp only [tun_send_tls] at hv
  split_ifs at hv
  cases hv
  exact closed_act hP _ _ h

theorem closed_tun_arm {d : Nat} {P : worker_st → Prop} (hP : loop_closed d P)
    (c : pkt_types) (w : world) (ws : worker_st) (rd : tun_read) (tx : Bool) (h : P ws) :
    (tun_arm c w ws rd tx).sat (fun _ ws1 => P ws1) := by
  cases rd with
  | error t =>
    intro v ws1 hv
    simp only [tun_arm] at hv
    split_ifs at hv
    · cases hv; exact h
    · simp [exit_label] at hv
  | data p =>
    simp only [tun_arm]
    have h1 : P (ws.act (Event.record_send channel.dtls (c.AC_PKT_DATA :: p))) :=
      closed_act hP _ _ h
    split_ifs with ha hb hc hd he hf hg hi
    all_goals
      first
        | exact closed_tun_send_tls hP c w _ p h
        | exact closed_tun_send_tls hP c w _ p (hP.not_ok _ h1 (Or.inr hc))
        | exact closed_tun_send_tls hP c w _ p (hP.ok _ h1 hc)
        | exact closed_tun_send_tls hP c w _ p h1
        | (intro v ws1 hv
           cases hv <;> first | exact h | exact h1 | exact hP.ok _ h1 hc)

theorem closed_handshake_loop {d : Nat} {P : worker_st → Prop} (hP : loop_closed d P)
    (w : world) (fuel : Nat) :
    ∀ (ws : worker_st) (ret : Int) (ws1 : worker_st), P ws →
      handshake_loop w fuel ws = some (ret, ws1) → P ws1 := by
  induction fuel with
  | zero =>
    intro ws ret ws1 h hv
    unfold handshake_loop at hv
    dsimp only at hv
    split_ifs at hv
    cases hv
    exact closed_act hP _ _ h
  | succ n ih =>
    intro ws ret ws1 h hv
    unfold handshake_loop at hv
    dsimp only at hv
    split_ifs at hv
    · exact ih _ ret ws1 (closed_act hP _ _ h) hv
    · cases hv
      exact closed_act hP _ _ h

theorem closed_tls_rekey {d : Nat} {P : worker_st → Prop} (hP : loop_closed d P)
    (w : world) (fuel : Nat) (ws : worker_st) (now : Int) (h : P ws) (r : result Unit)
    (hr : tls_rekey w fuel ws now = some r)
    (hk : ∀ ws2 : worker_st, P ws2 → P { ws2 with last_tls_rehandshake := now }) :
    r.sat (fun _ ws1 => P ws1) := by
  intro v ws1 hv
  subst hv
  simp only [tls_rekey] at hr
  split_ifs at hr
  · simp [exit_label] at hr
  · cases hl : handshake_loop w fuel ws with
    | none => rw [hl] at hr; cases hr
    | some pr =>
      obtain ⟨ret, ws2⟩ := pr
      rw [hl] at hr
      simp only at hr
      split_ifs at hr
      · cases hr
      · simp only [Option.some.injEq, result.ok.injEq, true_and] at hr
        rw [← hr]
        exact hk _ (closed_handshake_loop hP w fuel ws ret ws2 h hl)

theorem closed_tls_arm_data {d : Nat} {P : worker_st → Prop} (hP : loop_closed d P)
    (c : pkt_types) (w : world) (ws : worker_st) (b : List Nat) (rx : Bool)
    (now t : Int) (h : P ws) :
    (tls_arm_data c w ws b rx now t).sat (fun _ ws1 => P ws1) := by
  intro v ws1 hv
  simp only [tls_arm_data] at hv
  split_ifs at hv
  · cases hv; exact h
  · cases hp : parse_cstp_data c w ws b now with
    | ok r ws2 =>
      rw [hp] at hv
      have h2 : P ws2 := closed_parse_cstp_data hP c w ws b now h r ws2 hp
      simp only at hv
      split_ifs at hv with h1 h3
      · simp [exit_label] at hv
      · cases hv
        exact hP.inactive _ h2 h3.2.1
      · cases hv
        exact h2
    | exited ws2 => rw [hp] at hv; cases hv
    | null_deref ws2 => rw [hp] at hv; cases hv

theorem tls_arm_data_nonneg (c : pkt_types) (w : world) (ws : worker_st) (b : List Nat)
    (rx : Bool) (now t : Int) (v : Int) (ws1 : worker_st)
    (hv : tls_arm_data c w ws b rx now t = result.ok v ws1) : 0 ≤ v := by
  unfold tls_arm_data at hv
  by_cases h1 : rx = false
  · rw [if_pos h1] at hv
    simp only [result.ok.injEq] at hv
    omega
  · rw [if_neg h1] at hv
    revert hv
    generalize parse_cstp_data c w ws b now = x
    intro hv
    cases x with
    | ok r ws2 =>
      simp only at hv
      by_cases h2 : r < 0
      · rw [if_pos h2] at hv
        simp [exit_label] at hv
      · rw [if_neg h2] at hv
        split_ifs at hv <;> simp only [result.ok.injEq] at hv <;> omega
    | exited ws2 => cases hv
    | null_deref ws2 => cases hv

theorem closed_tls_arm {d : Nat} {P : worker_st → Prop} (hP : loop_closed d P)
    (c : pkt_types) (w : world) (fuel : Nat) (ws : worker_st) (rcv : net_read) (rx : Bool)
    (now t : Int) (h : P ws) (r : result Unit)
    (hr : tls_arm c w fuel ws rcv rx now t = some r)
    (hk : rcv.ret = GNUTLS_E_REHANDSHAKE →
      ∀ ws2 : worker_st, P ws2 → P { ws2 with last_tls_rehandshake := now }) :
    r.sat (fun _ ws1 => P ws1) := by
  simp only [tls_arm] at hr
  by_cases h1 : GNUTLS_FATAL_ERR w rcv.ret = true
  · rw [if_pos h1] at hr
    cases hr
    intro v ws1 hv
    cases hv
  · rw [if_neg h1] at hr
    by_cases h2 : rcv.ret = 0
    · rw [if_pos h2] at hr
      cases hr
      intro v ws1 hv
      cases hv
    · rw [if_neg h2] at hr
      have hx : (if rcv.ret > 0 then tls_arm_data c w ws rcv.bytes rx now t
          else result.ok rcv.ret ws).sat
          (fun v ws1 => P ws1 ∧ (v = GNUTLS_E_REHANDSHAKE → rcv.ret = GNUTLS_E_REHANDSHAKE)) := by
        split_ifs
        · intro v ws1 hv
          refine ⟨closed_tls_arm_data hP c w ws _ rx now t h v ws1 hv, ?_⟩
          intro hre
          have := tls_arm_data_nonneg c w ws _ rx now t v ws1 hv
          rw [hre] at this
          exact absurd this (by decide)
        · intro v ws1 hv
          cases hv
          exact ⟨h, fun hre => hre⟩
      revert hr hx
      generalize (if rcv.ret > 0 then tls_arm_data c w ws rcv.bytes rx now t
          else result.ok rcv.ret ws) = x
      intro hr hx
      cases x with
      | ok ret ws2 =>
        have h2 : P ws2 := (hx ret ws2 rfl).1
        simp only at hr
        split_ifs at hr with hre
        · exact closed_tls_rekey hP w fuel ws2 now h2 r hr (hk ((hx ret ws2 rfl).2 hre))
        · cases hr
          intro v ws1 hv
          cases hv
          exact h2
      | exited ws2 =>
        cases hr
        intro v ws1 hv
        cases hv
      | null_deref ws2 =>
        cases hr
        intro v ws1 hv
        cases hv

theorem closed_udp_arm_parse {d : Nat} {P : worker_st → Prop} (hP : loop_closed d P)
    (c : pkt_types) (w : world) (ws : worker_st) (rcv : net_read) (rx : Bool) (now : Int)
    (h : P ws)
    (hs : ws.udp_state = udp_state_t.UP_ACTIVE ∨ ws.udp_state = udp_state_t.UP_INACTIVE) :
    (udp_arm_parse c w ws rcv rx now).sat (fun _ ws1 => P ws1) := by
  have ha : P { ws with udp_state := udp_state_t.UP_ACTIVE } := hP.active ws h hs
  have hp := closed_parse_dtls_data hP c w _ rcv.bytes now ha rfl
  intro v ws1 hv
  unfold udp_arm_parse at hv
  by_cases h1 : rcv.ret > 0
  · rw [if_pos h1] at hv
    by_cases h2 : rx = false
    · rw [if_pos h2] at hv
      cases hv
      exact ha
    · rw [if_neg h2] at hv
      revert hv hp
      generalize parse_dtls_data c w { ws with udp_state := udp_state_t.UP_ACTIVE } rcv.bytes
        now = x
      intro hp hv
      cases x with
      | ok r ws2 =>
        simp only at hv
        by_cases h3 : r < 0
        · rw [if_pos h3] at hv
          simp [exit_label] at hv
        · rw [if_neg h3] at hv
          cases hv
          exact hp _ _ rfl
      | exited ws2 => cases hv
      | null_deref ws2 => cases hv
  · rw [if_neg h1] at hv
    cases hv
    exact h

theorem closed_udp_arm_recv {d : Nat} {P : worker_st → Prop} (hP : loop_closed d P)
    (c : pkt_types) (w : world) (ws : worker_st) (rcv : net_read) (rx : Bool) (now : Int)
    (h : P ws)
    (hs : ws.udp_state = udp_state_t.UP_ACTIVE ∨ ws.udp_state = udp_state_t.UP_INACTIVE) :
    (udp_arm_recv c w ws rcv rx now).sat (fun _ ws1 => P ws1) := by
  have hx := closed_udp_arm_parse hP c w ws rcv rx now h hs
  intro v ws1 hv
  unfold udp_arm_recv at hv
  by_cases h1 : GNUTLS_FATAL_ERR w rcv.ret = true
  · rw [if_pos h1] at hv
    cases hv
  · rw [if_neg h1] at hv
    revert hv hx
    generalize udp_arm_parse c w ws rcv rx now = x
    intro hx hv
    cases x with
    | ok ret ws3 =>
      have h3 : P ws3 := hx ret ws3 rfl
      simp only at hv
      split_ifs at hv
      · cases hv
        exact closed_act hP _ _ h3
      · cases hv
        exact h3
    | exited ws3 => cases hv
    | null_deref ws3 => cases hv

theorem closed_udp_arm_handshake {d : Nat} {P : worker_st → Prop} (hP : loop_closed d P)
    (w : world) (ws : worker_st) (h : P ws) (hs : ws.udp_state = udp_state_t.UP_HANDSHAKE) :
    P (udp_arm_handshake w ws d) := by
  have h0 : P (ws.act Event.dtls_handshake) := closed_act hP _ _ h
  simp only [udp_arm_handshake]
  by_cases h1 : w.handshake_ret ws.io_log.length < 0 ∧
      w.error_is_fatal (w.handshake_ret ws.io_log.length) = true
  · rw [if_pos h1]
    exact hP.hs_fail _ h0 hs
  · rw [if_neg h1]
    by_cases h2 : w.handshake_ret ws.io_log.length = 0
    · have hne : ¬ w.handshake_ret ws.io_log.length = GNUTLS_E_LARGE_PACKET := by
        rw [h2]; decide
      simp only [if_pos h2, if_neg hne]
      split_ifs
      · exact hP.hs_done _ _ h0 hs (le_refl _)
      · exact hP.hs_done _ _ h0 hs (by omega)
    · simp only [if_neg h2]
      split_ifs
      · exact hP.not_ok _ h0 (Or.inl hs)
      · exact h0

theorem setup_dtls_connection_cases (w : world) (ws : worker_st) :
    setup_dtls_connection w ws = (-1, ws) ∨
    setup_dtls_connection w ws =
      (0, { ws with udp_state := udp_state_t.UP_HANDSHAKE, dtls_session_set := true }) := by
  unfold setup_dtls_connection
  cases ws.req.selected_ciphersuite with
  | none => exact Or.inl rfl
  | some cs =>
    dsimp only
    split_ifs
    · exact Or.inl rfl
    · exact Or.inr rfl

theorem closed_udp_arm {d : Nat} {P : worker_st → Prop} (hP : loop_closed d P)
    (c : pkt_types) (w : world) (ws : worker_st) (rcv : net_read) (rx : Bool) (now t : Int)
    (h : P ws) : (udp_arm c w ws rcv rx now d t).sat (fun _ ws1 => P ws1) := by
  intro v ws1 hv
  unfold udp_arm at hv
  split at hv
  · rename_i hs
    exact closed_udp_arm_recv hP c w ws rcv rx now h (Or.inl hs) v ws1 hv
  · rename_i hs
    exact closed_udp_arm_recv hP c w ws rcv rx now h (Or.inr hs) v ws1 hv
  · rename_i hs
    rcases setup_dtls_connection_cases w ws with he | he
    · rw [he] at hv
      simp [exit_label] at hv
    · rw [he] at hv
      rw [if_neg (show ¬ (0 : Int) < 0 by decide)] at hv
      cases hv
      exact hP.log _ _ (hP.setup ws h hs)
  · rename_i hs
    cases hv
    exact closed_udp_arm_handshake hP w ws h hs
  · cases hv
    exact h

theorem closed_loop_cmd {d : Nat} {P : worker_st → Prop} (hP : loop_closed d P)
    (inp : loop_input) (cmd_ready : Bool) (loc : loop_locals) (ws : worker_st) (h : P ws) :
    (loop_cmd inp cmd_ready loc ws).sat (fun loc1 ws1 => P ws1 ∧ loc1 = loc) := by
  have hc : P (handle_worker_commands ws inp.udp_fd_handover inp.cmd_ret).2 := by
    unfold handle_worker_commands
    split_ifs with h1
    · exact hP.handover ws h h1.2
    · exact h
  intro v ws1 hv
  unfold loop_cmd at hv
  split_ifs at hv
  · simp [exit_label] at hv
  · cases hv
    exact ⟨hc, rfl⟩
  · cases hv
    exact ⟨h, rfl⟩

theorem closed_loop_udp {P : worker_st → Prop} (c : pkt_types) (w : world) (inp : loop_input)
    (udp_ready cmd_ready : Bool) (loc : loop_locals) (ws : worker_st)
    (hP : loop_closed loc.dtls_mtu P) (h : P ws) :
    (loop_udp c w inp udp_ready cmd_ready loc ws).sat
      (fun loc1 ws1 => P ws1 ∧ loc1.mtu_overhead = loc.mtu_overhead ∧
        loc1.dtls_mtu = loc.dtls_mtu) := by
  intro v ws1 hv
  unfold loop_udp at hv
  split_ifs at hv
  · have hu := closed_udp_arm hP c w ws inp.dtls_recv inp.dtls_rx_allowed inp.now
      loc.udp_recv_time h
    revert hv hu
    generalize udp_arm c w ws inp.dtls_recv inp.dtls_rx_allowed inp.now loc.dtls_mtu
      loc.udp_recv_time = x
    intro hv hu
    cases x with
    | ok t ws2 =>
      obtain ⟨h1, h2⟩ := closed_loop_cmd hP inp cmd_ready _ ws2 (hu t ws2 rfl) v ws1 hv
      rw [h2]
      exact ⟨h1, rfl, rfl⟩
    | exited ws2 => cases hv
    | null_deref ws2 => cases hv
  · obtain ⟨h1, h2⟩ := closed_loop_cmd hP inp cmd_ready loc ws h v ws1 hv
    rw [h2]
    exact ⟨h1, rfl, rfl⟩

theorem closed_loop_tls {P : worker_st → Prop} (c : pkt_types) (w : world) (inp : loop_input)
    (conn_ready udp_ready cmd_ready : Bool) (loc : loop_locals) (ws : worker_st)
    (hP : loop_closed loc.dtls_mtu P) (h : P ws) (r : result loop_locals)
    (hr : loop_tls c w inp conn_ready udp_ready cmd_ready loc ws = some r)
    (hk : inp.tls_recv.ret = GNUTLS_E_REHANDSHAKE →
      ∀ ws2 : worker_st, P ws2 → P { ws2 with last_tls_rehandshake := inp.now }) :
    r.sat (fun loc1 ws1 => P ws1 ∧ loc1.mtu_overhead = loc.mtu_overhead ∧
      loc1.dtls_mtu = loc.dtls_mtu) := by
  unfold loop_tls at hr
  split_ifs at hr
  · have ht := closed_tls_arm hP c w inp.fuel ws inp.tls_recv inp.tls_rx_allowed inp.now
      loc.udp_recv_time h
    revert hr ht
    generalize tls_arm c w inp.fuel ws inp.tls_recv inp.tls_rx_allowed inp.now
      loc.udp_recv_time = x
    intro hr ht
    cases x with
    | none => cases hr
    | some y =>
      cases y with
      | ok u ws2 =>
        simp only [Option.some.injEq] at hr
        rw [← hr]
        exact closed_loop_udp c w inp udp_ready cmd_ready loc ws2 hP (ht _ rfl hk u ws2 rfl)
      | exited ws2 =>
        cases hr
        intro v ws1 hv
        cases hv
      | null_deref ws2 =>
        cases hr
        intro v ws1 hv
        cases hv
  · simp only [Option.some.injEq] at hr
    rw [← hr]
    exact closed_loop_udp c w inp udp_ready cmd_ready loc ws hP h

theorem closed_loop_tun {P : worker_st → Prop} (c : pkt_types) (w : world) (inp : loop_input)
    (tun_ready conn_ready udp_ready cmd_ready : Bool) (loc : loop_locals) (ws : worker_st)
    (r : result loop_locals)
    (hr : loop_tun c w inp tun_ready conn_ready udp_ready cmd_ready loc ws = some r)
    (hP : loop_closed loc.dtls_mtu P) (h : P ws)
    (hk : inp.tls_recv.ret = GNUTLS_E_REHANDSHAKE →
      ∀ ws2 : worker_st, P ws2 → P { ws2 with last_tls_rehandshake := inp.now }) :
    r.sat (fun loc1 ws1 => P ws1 ∧ loc1.mtu_overhead = loc.mtu_overhead ∧
      loc1.dtls_mtu = loc.dtls_mtu) := by
  unfold loop_tun at hr
  split_ifs at hr
  · have ht := closed_tun_arm hP c w ws inp.tun inp.tx_allowed h
    revert hr ht
    generalize tun_arm c w ws inp.tun inp.tx_allowed = x
    intro hr ht
    cases x with
    | ok f ws2 =>
      have h2 : P ws2 := ht f ws2 rfl
      cases f with
      | next =>
        exact closed_loop_tls c w inp conn_ready udp_ready cmd_ready loc ws2 hP h2 r hr hk
      | continue_loop =>
        cases hr
        intro v ws1 hv
        cases hv
        exact ⟨h2, rfl, rfl⟩
    | exited ws2 =>
      cases hr
      intro v ws1 hv
      cases hv
    | null_deref ws2 =>
      cases hr
      intro v ws1 hv
      cases hv
  · exact closed_loop_tls c w inp conn_ready udp_ready cmd_ready loc ws hP h r hr hk

/-- One iteration of the loop keeps every property that is closed under the
state changes of the loop body, and it keeps the locals `mtu_overhead` and
`dtls_mtu`. -/
theorem closed_loop_step {P : worker_st → Prop} (c : pkt_types) (w : world) (inp : loop_input)
    (loc : loop_locals) (ws : worker_st) (hP : loop_closed loc.dtls_mtu P) (h : P ws)
    (r : result loop_locals) (hr : loop_step c w inp loc ws = some r)
    (hk : inp.tls_recv.ret = GNUTLS_E_REHANDSHAKE →
      ∀ ws2 : worker_st, P ws2 → P { ws2 with last_tls_rehandshake := inp.now }) :
    r.sat (fun loc1 ws1 => P ws1 ∧ loc1.mtu_overhead = loc.mtu_overhead ∧
      loc1.dtls_mtu = loc.dtls_mtu) := by
  unfold loop_step at hr
  dsimp only at hr
  by_cases h1 : inp.terminate = true
  · rw [if_pos h1] at hr
    split_ifs at hr
    · cases hr
      intro v ws1 hv
      cases hv
    · cases hr
      intro v ws1 hv
      simp [exit_label] at hv
  · rw [if_neg h1] at hr
    split_ifs at hr
    all_goals
      first
        | (have key := closed_loop_tun c w inp _ _ _ _ _ _ r hr hP
             (closed_periodic_check hP c w ws _ inp.now h) hk
           exact key)
        | (cases hr
           intro v ws1 hv
           cases hv
           exact ⟨h, rfl, rfl⟩)
        | (cases hr
           intro v ws1 hv
           simp [exit_label] at hv)

theorem MIN_MTU_le (ws : worker_st) : MIN_MTU ws ≤ 1281 := by
  unfold MIN_MTU
  split_ifs <;> omega

theorem mtu_set_handle (ws : worker_st) (m : Nat) :
    (mtu_set ws m).dtls_session_set = ws.dtls_session_set := by
  unfold mtu_set mtu_send worker_st.act
  by_cases h : ws.dtls_session_set <;> simp [h]

/-- What `mtu_not_ok` does to the fields the loop invariants speak of. -/
theorem mtu_not_ok_fields (ws : worker_st) :
    (mtu_not_ok ws).2.buffer_size = ws.buffer_size ∧
    (mtu_not_ok ws).2.dtls_session_set = ws.dtls_session_set ∧
    ((mtu_not_ok ws).2.udp_state = ws.udp_state ∨
      (mtu_not_ok ws).2.udp_state = udp_state_t.UP_DISABLED) ∧
    (mtu_not_ok ws).2.last_bad_mtu = ws.conn_mtu ∧
    (mtu_not_ok ws).2.conn_mtu ≤ max ws.conn_mtu 1281 := by
  have hmin := MIN_MTU_le ws
  by_cases h : ws.last_good_mtu = MIN_MTU ws
  · rw [mtu_not_ok_fail ws h]
    exact ⟨rfl, rfl, Or.inr rfl, rfl, le_max_left _ _⟩
  · by_cases hge : ws.conn_mtu ≤ ws.last_good_mtu
    · rw [mtu_not_ok_lower ws h hge]
      obtain ⟨h1, -, h3, h4, -, h6⟩ := mtu_set_fields
        { ws with last_bad_mtu := ws.conn_mtu,
                  last_good_mtu := max (((2 * ws.conn_mtu) % U32) / 3) (MIN_MTU ws) }
        (max (((2 * ws.conn_mtu) % U32) / 3) (MIN_MTU ws))
      refine ⟨h6, mtu_set_handle _ _, Or.inl h4, h3, ?_⟩
      rw [h1]
      have : ((2 * ws.conn_mtu) % U32) / 3 ≤ ws.conn_mtu := by
        unfold U32
        omega
      exact max_le (le_trans this (le_max_left _ _)) (le_trans hmin (le_max_right _ _))
    · rw [mtu_not_ok_keep ws h (by omega)]
      obtain ⟨h1, -, h3, h4, -, h6⟩ := mtu_set_fields
        { ws with last_bad_mtu := ws.conn_mtu } ws.last_good_mtu
      refine ⟨h6, mtu_set_handle _ _, Or.inl h4, h3, ?_⟩
      rw [h1]
      exact le_trans (by omega) (le_max_left _ _)

/-- What `mtu_ok` does to the fields the loop invariants speak of. -/
theorem mtu_ok_fields (ws : worker_st) :
    (mtu_ok ws).buffer_size = ws.buffer_size ∧
    (mtu_ok ws).dtls_session_set = ws.dtls_session_set ∧
    (mtu_ok ws).udp_state = ws.udp_state ∧
    (mtu_ok ws).last_bad_mtu = ws.last_bad_mtu ∧
    (mtu_ok ws).conn_mtu ≤ max ws.conn_mtu ws.last_bad_mtu := by
  by_cases h : ws.last_bad_mtu = (ws.conn_mtu + 1) % U32 ∨ ws.last_bad_mtu = ws.conn_mtu
  · rw [mtu_ok_converged ws h]
    exact ⟨rfl, rfl, rfl, rfl, le_max_left _ _⟩
  · rw [mtu_ok_probe ws h]
    obtain ⟨h1, -, h3, h4, -, h6⟩ := mtu_set_fields
      { ws with last_good_mtu := ws.conn_mtu } (((ws.conn_mtu + ws.last_bad_mtu) % U32) / 2)
    refine ⟨h6, mtu_set_handle _ _, h4, h3, ?_⟩
    rw [h1]
    have : ((ws.conn_mtu + ws.last_bad_mtu) % U32) / 2 ≤ max ws.conn_mtu ws.last_bad_mtu := by
      have hm : ((ws.conn_mtu + ws.last_bad_mtu) % U32) ≤ ws.conn_mtu + ws.last_bad_mtu :=
        Nat.mod_le _ _
      rcases le_total ws.conn_mtu ws.last_bad_mtu with hle | hle
      · rw [max_eq_right hle]; omega
      · rw [max_eq_left hle]; omega
    exact this

/-- The buffer invariant is kept by every state change of the loop body. -/
theorem buf_inv_closed (o d : Nat) : loop_closed d (buf_inv o d) where
  log := fun ws l h => h
  stamps := fun ws a b e h => h
  not_ok := by
    intro ws h _
    obtain ⟨h1, h2, h3, h4, h5, h6⟩ := h
    obtain ⟨f1, -, f3, f4, f5⟩ := mtu_not_ok_fields ws
    unfold buf_inv
    rw [f1, f4]
    refine ⟨h1, h2, h3, ?_, h5, fun _ => h4⟩
    rcases le_total ws.conn_mtu 1281 with hle | hle
    · rw [max_eq_right hle] at f5; omega
    · rw [max_eq_left hle] at f5; omega
  ok := by
    intro ws h hs
    obtain ⟨h1, h2, h3, h4, h5, h6⟩ := h
    obtain ⟨f1, -, f3, f4, f5⟩ := mtu_ok_fields ws
    have hb := h6 (Or.inr (Or.inl hs))
    unfold buf_inv
    rw [f1, f4]
    refine ⟨h1, h2, h3, ?_, h5, fun _ => hb⟩
    rcases le_total ws.conn_mtu ws.last_bad_mtu with hle | hle
    · rw [max_eq_right hle] at f5; omega
    · rw [max_eq_left hle] at f5; omega
  lower := by
    intro ws m h hm
    obtain ⟨h1, h2, h3, h4, h5, h6⟩ := h
    obtain ⟨f1, -, f3, f4, -, f6⟩ := mtu_set_fields ws m
    unfold buf_inv
    rw [f1, f3, f4, f6]
    exact ⟨h1, h2, h3, by omega, h5, h6⟩
  inactive := by
    intro ws h hs
    obtain ⟨h1, h2, h3, h4, h5, h6⟩ := h
    exact ⟨h1, h2, h3, h4, h5, fun _ => h6 (Or.inr (Or.inl hs))⟩
  active := by
    intro ws h hs
    obtain ⟨h1, h2, h3, h4, h5, h6⟩ := h
    refine ⟨h1, h2, h3, h4, h5, fun _ => h6 ?_⟩
    rcases hs with hs | hs
    · exact Or.inr (Or.inl hs)
    · exact Or.inr (Or.inr hs)
  setup := by
    intro ws h hs
    obtain ⟨h1, h2, h3, h4, h5, h6⟩ := h
    exact ⟨h1, h2, h3, h4, h5, fun _ => h4⟩
  hs_fail := by
    intro ws h hs
    obtain ⟨h1, h2, h3, h4, h5, h6⟩ := h
    refine ⟨h1, h2, h3, h4, h5, ?_⟩
    intro hc
    rcases hc with hc | hc | hc <;> cases hc
  hs_done := by
    intro ws m h hs hm
    obtain ⟨h1, h2, h3, h4, h5, h6⟩ := h
    obtain ⟨f1, -, f3, f4, -, f6⟩ := mtu_set_fields
      (mtu_discovery_init { ws with udp_state := udp_state_t.UP_ACTIVE } m) m
    unfold buf_inv
    rw [f1, f3, f6]
    have hm2 : m + o ≤ ws.buffer_size := by omega
    exact ⟨h1, h2, h3, hm2, h5, fun _ => hm2⟩
  handover := by
    intro ws h hs
    obtain ⟨h1, h2, h3, h4, h5, h6⟩ := h
    refine ⟨h1, h2, h3, h4, h5, ?_⟩
    intro hc
    rcases hc with hc | hc | hc <;> cases hc

/-- The relation between `udp_state` and the DTLS handle is kept by every state
change of the loop body. -/
theorem dtls_handle_inv_closed (d : Nat) : loop_closed d dtls_handle_inv where
  log := fun ws l h => h
  stamps := fun ws a b e h => h
  not_ok := by
    intro ws h _
    obtain ⟨-, f2, f3, -, -⟩ := mtu_not_ok_fields ws
    unfold dtls_handle_inv
    rw [f2]
    rcases f3 with f3 | f3
    · rw [f3]; exact h
    · rw [f3]
      refine ⟨?_, ?_⟩
      · intro hc
        rcases hc with hc | hc | hc <;> cases hc
      · intro hc
        rcases hc with hc | hc <;> cases hc
  ok := by
    intro ws h _
    obtain ⟨-, f2, f3, -, -⟩ := mtu_ok_fields ws
    unfold dtls_handle_inv
    rw [f2, f3]
    exact h
  lower := by
    intro ws m h _
    unfold dtls_handle_inv
    rw [mtu_set_handle, (mtu_set_fields ws m).2.2.2.1]
    exact h
  inactive := by
    intro ws h hs
    refine ⟨fun _ => h.1 (Or.inr (Or.inl hs)), ?_⟩
    intro hc
    rcases hc with hc | hc <;> cases hc
  active := by
    intro ws h hs
    refine ⟨fun _ => h.1 ?_, ?_⟩
    · rcases hs with hs | hs
      · exact Or.inr (Or.inl hs)
      · exact Or.inr (Or.inr hs)
    · intro hc
      rcases hc with hc | hc <;> cases hc
  setup := by
    intro ws h hs
    refine ⟨fun _ => rfl, ?_⟩
    intro hc
    rcases hc with hc | hc <;> cases hc
  hs_fail := by
    intro ws h hs
    refine ⟨?_, ?_⟩
    · intro hc
      rcases hc with hc | hc | hc <;> cases hc
    · intro hc
      rcases hc with hc | hc <;> cases hc
  hs_done := by
    intro ws m h hs _
    unfold dtls_handle_inv
    rw [mtu_set_handle, (mtu_set_fields _ m).2.2.2.1]
    refine ⟨fun _ => h.1 (Or.inl hs), ?_⟩
    intro hc
    rcases hc with hc | hc <;> cases hc
  handover := by
    intro ws h hs
    refine ⟨?_, fun _ => h.2 (Or.inl hs)⟩
    intro hc
    rcases hc with hc | hc | hc <;> cases hc

/-- The property `udp_state = DISABLED` is kept by every state change of the
loop body. -/
theorem disabled_closed (d : Nat) :
    loop_closed d (fun ws => ws.udp_state = udp_state_t.UP_DISABLED) where
  log := fun ws l h => h
  stamps := fun ws a b e h => h
  not_ok := by
    intro ws h _
    rcases (mtu_not_ok_fields ws).2.2.1 with f | f
    · exact f.trans h
    · exact f
  ok := fun ws h _ => (mtu_ok_fields ws).2.2.1.trans h
  lower := fun ws m h _ => (mtu_set_fields ws m).2.2.2.1.trans h
  inactive := by
    intro ws h hs
    rw [h] at hs
    cases hs
  active := by
    intro ws h hs
    rw [h] at hs
    rcases hs with hs | hs <;> cases hs
  setup := by
    intro ws h hs
    rw [h] at hs
    cases hs
  hs_fail := fun ws h _ => rfl
  hs_done := by
    intro ws m h hs _
    rw [h] at hs
    cases hs
  handover := by
    intro ws h hs
    rw [h] at hs
    cases hs

/-- No state change of the loop body resets the DTLS handle: once
`dtls_session` is set it stays set. -/
theorem handle_set_closed (d : Nat) :
    loop_closed d (fun ws => ws.dtls_session_set = true) where
  log := fun ws l h => h
  stamps := fun ws a b e h => h
  not_ok := fun ws h _ => (mtu_not_ok_fields ws).2.1.trans h
  ok := fun ws h _ => (mtu_ok_fields ws).2.1.trans h
  lower := fun ws m h _ => (mtu_set_handle ws m).trans h
  inactive := fun ws h _ => h
  active := fun ws h _ => h
  setup := fun ws h _ => rfl
  hs_fail := fun ws h _ => h
  hs_done := fun ws m h _ _ => (mtu_set_handle _ m).trans h
  handover := fun ws h _ => h

/-- A session whose datagram channel is disabled and has no DTLS handle stays
so: the property is kept by every state change of the loop body. -/
theorem never_set_up_closed (d : Nat) :
    loop_closed d
      (fun ws => ws.udp_state = udp_state_t.UP_DISABLED ∧ ws.dtls_session_set = false) where
  log := fun ws l h => h
  stamps := fun ws a b e h => h
  not_ok := by
    intro ws h hs
    rw [h.1] at hs
    rcases hs with hs | hs <;> cases hs
  ok := by
    intro ws h hs
    rw [h.1] at hs
    cases hs
  lower := fun ws m h _ =>
    ⟨(mtu_set_fields ws m).2.2.2.1.trans h.1, (mtu_set_handle ws m).trans h.2⟩
  inactive := by
    intro ws h hs
    rw [h.1] at hs
    cases hs
  active := by
    intro ws h hs
    rw [h.1] at hs
    rcases hs with hs | hs <;> cases hs
  setup := by
    intro ws h hs
    rw [h.1] at hs
    cases hs
  hs_fail := by
    intro ws h hs
    rw [h.1] at hs
    cases hs
  hs_done := by
    intro ws m h hs _
    rw [h.1] at hs
    cases hs
  handover := by
    intro ws h hs
    rw [h.1] at hs
    cases hs

/-- The relation `dtls_handle_inv` together with "the handle is set in
`DISABLED`" is kept by every state change of the loop body: `DISABLED` is
assigned only from `HANDSHAKE` and `ACTIVE`, where the handle is set. -/
theorem handle_disabled_closed (d : Nat) :
    loop_closed d (fun ws => dtls_handle_inv ws ∧
      (ws.udp_state = udp_state_t.UP_DISABLED → ws.dtls_session_set = true)) where
  log := fun ws l h => h
  stamps := fun ws a b e h => h
  not_ok := by
    intro ws h hs
    refine ⟨(dtls_handle_inv_closed d).not_ok ws h.1 hs, fun _ => ?_⟩
    rw [(mtu_not_ok_fields ws).2.1]
    rcases hs with hs | hs
    · exact h.1.1 (Or.inl hs)
    · exact h.1.1 (Or.inr (Or.inl hs))
  ok := by
    intro ws h hs
    refine ⟨(dtls_handle_inv_closed d).ok ws h.1 hs, fun _ => ?_⟩
    rw [(mtu_ok_fields ws).2.1]
    exact h.1.1 (Or.inr (Or.inl hs))
  lower := by
    intro ws m h hm
    refine ⟨(dtls_handle_inv_closed d).lower ws m h.1 hm, ?_⟩
    rw [mtu_set_handle, (mtu_set_fields ws m).2.2.2.1]
    exact h.2
  inactive := by
    intro ws h hs
    refine ⟨(dtls_handle_inv_closed d).inactive ws h.1 hs, ?_⟩
    intro hc
    cases hc
  active := by
    intro ws h hs
    refine ⟨(dtls_handle_inv_closed d).active ws h.1 hs, ?_⟩
    intro hc
    cases hc
  setup := by
    intro ws h hs
    exact ⟨(dtls_handle_inv_closed d).setup ws h.1 hs, fun _ => rfl⟩
  hs_fail := by
    intro ws h hs
    exact ⟨(dtls_handle_inv_closed d).hs_fail ws h.1 hs, fun _ => h.1.1 (Or.inl hs)⟩
  hs_done := by
    intro ws m h hs hm
    refine ⟨(dtls_handle_inv_closed d).hs_done ws m h.1 hs hm, ?_⟩
    rw [mtu_set_handle, (mtu_set_fields _ m).2.2.2.1]
    intro hc
    cases hc
  handover := by
    intro ws h hs
    refine ⟨(dtls_handle_inv_closed d).handover ws h.1 hs, ?_⟩
    intro hc
    cases hc

/-! ### The state at the entry of the loop -/

theorem connect_handler_finish_entry (w : world) (ws : worker_st) (o d : Nat) :
    (connect_handler_finish w ws o d).sat
      (fun out ws1 => out = conn_out.tunnel o d ∧ ws1.conn_mtu = ws.conn_mtu ∧
        ws1.udp_state = ws.udp_state ∧ ws1.dtls_session_set = ws.dtls_session_set ∧
        ws.buffer_size ≤ ws1.buffer_size ∧ (ws.conn_mtu + o) % U32 ≤ ws1.buffer_size) := by
  simp only [connect_handler_finish, mtu_send, worker_st.act]
  split_ifs with h1 h2
  · intro v ws1 hv
    simp [exit_label] at hv
  all_goals
    apply sat_send_line
    intro l1
    apply sat_send_opt
    intro l2
    apply sat_send_line
    intro l3
    apply sat_send_line
    intro l4
    apply sat_replace
    intro v ws1 hv
    obtain ⟨l, rfl⟩ := session_info_send_sat _ v ws1 hv
    refine ⟨rfl, rfl, rfl, rfl, ?_, ?_⟩ <;> dsimp only <;> omega

theorem connect_handler_udp_entry (w : world) (ws : worker_st) :
    (connect_handler_udp w ws).sat
      (fun out ws1 => ∃ o d, out = conn_out.tunnel o d ∧ (o = 29 ∨ o = 49) ∧
        ws1.udp_state = ws.udp_state ∧ ws1.dtls_session_set = ws.dtls_session_set ∧
        ws.buffer_size ≤ ws1.buffer_size ∧ (ws1.conn_mtu + o) % U32 ≤ ws1.buffer_size) := by
  unfold connect_handler_udp
  apply sat_send_line
  intro l1
  apply sat_send_line
  intro l2
  apply sat_send_line
  intro l3
  apply sat_send_line
  intro l4
  apply sat_send_line
  intro l5
  simp only
  cases hcs : ws.req.selected_ciphersuite with
  | none =>
    intro v ws1 hv
    cases hv
  | some cs =>
    simp only
    apply sat_send_line
    intro l6
    refine sat_mono _ _ _ (connect_handler_finish_entry w _ _ _) ?_
    intro v ws1 hv
    obtain ⟨h1, h2, h3, h4, h5, h6⟩ := hv
    refine ⟨_, _, h1, ?_, ?_, ?_, ?_, ?_⟩
    · by_cases hp : ws.proto_inet = true <;> simp [hp]
    · rw [h3]
      simp only [worker_st.act]
      split_ifs <;> rfl
    · rw [h4]
      simp only [worker_st.act]
      split_ifs <;> rfl
    · refine le_trans (le_of_eq ?_) h5
      simp only [worker_st.act]
      split_ifs <;> rfl
    · rw [h2]
      exact h6

theorem connect_handler_mtu_entry (w : world) (ws : worker_st) :
    (connect_handler_mtu w ws).sat
      (fun out ws1 => ∃ o d, out = conn_out.tunnel o d ∧ (o = 8 ∨ o = 29 ∨ o = 49) ∧
        ws1.udp_state = ws.udp_state ∧ ws1.dtls_session_set = ws.dtls_session_set ∧
        ws.buffer_size ≤ ws1.buffer_size ∧ (ws1.conn_mtu + o) % U32 ≤ ws1.buffer_size) := by
  unfold connect_handler_mtu
  dsimp only
  split_ifs
  all_goals
    first
      | (refine sat_mono _ _ _ (connect_handler_udp_entry w _) ?_
         rintro v ws1 ⟨o, d, h1, h2, h3, h4, h5, h6⟩
         exact ⟨o, d, h1, Or.inr h2, h3, h4, h5, h6⟩)
      | (refine sat_mono _ _ _ (connect_handler_finish_entry w _ _ _) ?_
         rintro v ws1 ⟨h1, h2, h3, h4, h5, h6⟩
         exact ⟨8, 0, h1, Or.inl rfl, h3, h4, h5, by rw [h2]; exact h6⟩)

theorem connect_handler_reply_states (w : world) (ws : worker_st)
    (Q : conn_out → worker_st → Prop)
    (h : ∀ (l : List Event) (r : http_req_st) (u : udp_state_t) (ms : List Nat),
      u = udp_state_t.UP_DISABLED ∨ u = udp_state_t.UP_WAIT_FD →
      (connect_handler_mtu w
        { ws with io_log := l, req := r, udp_state := u, master_secret := ms }).sat Q) :
    (connect_handler_reply w ws).sat Q := by
  unfold connect_handler_reply
  dsimp only
  apply sat_send_line
  intro l1
  apply sat_send_line
  intro l2
  apply sat_send_line
  intro l3
  apply sat_send_opt
  intro l4
  dsimp only
  apply sat_send_addr
  intro l5
  apply sat_send_addr
  intro l6
  apply sat_send_routes
  intro l7
  apply sat_send_routes
  intro l8
  apply sat_send_line
  intro l9
  apply sat_send_line
  intro l10
  apply sat_send_line
  intro l11
  apply sat_send_line
  intro l12
  apply sat_send_line
  intro l13
  split_ifs
  all_goals first | exact h _ _ _ _ (Or.inl rfl) | exact h _ _ _ _ (Or.inr rfl)

/-- The state in which `connect_handler` enters the loop: the buffer has at
least 16384 bytes and at least `(conn_mtu + mtu_overhead) mod 2^32`, the
overhead is 8, 29 or 49, the datagram channel is disabled or waits for its
socket, and the DTLS handle is what it was at the call. -/
theorem connect_handler_entry (w : world) (ws : worker_st) :
    (connect_handler w ws).sat
      (fun out ws1 => ∀ o d, out = conn_out.tunnel o d → (o = 8 ∨ o = 29 ∨ o = 49) ∧
        (ws1.udp_state = udp_state_t.UP_DISABLED ∨ ws1.udp_state = udp_state_t.UP_WAIT_FD) ∧
        ws1.dtls_session_set = ws.dtls_session_set ∧
        16384 ≤ ws1.buffer_size ∧ (ws1.conn_mtu + o) % U32 ≤ ws1.buffer_size) := by
  unfold connect_handler
  dsimp only
  split_ifs
  all_goals
    first
      | (intro v ws1 hv; cases hv; done)
      | (intro v ws1 hv o d ho
         cases hv
         cases ho)
      | (apply connect_handler_reply_states
         intro l r u ms hu
         refine sat_mono _ _ _ (connect_handler_mtu_entry w _) ?_
         rintro v ws1 ⟨o, d, h1, h2, h3, h4, h5, h6⟩ o1 d1 ho
         rw [h1] at ho
         cases ho
         exact ⟨h2, by rw [h3]; exact hu, h4, h5, h6⟩)

/-- Every property that is closed under the state changes of the loop body and
holds when `connect_handler` enters the loop holds in every state of the loop. -/
theorem tunnel_reach_closed (P : Nat → Nat → worker_st → Prop) (c : pkt_types) (w : world)
    (ws0 : worker_st) (hP : ∀ o d, loop_closed d (P o d))
    (hk : ∀ o d (now : Int) (ws2 : worker_st), P o d ws2 →
      P o d { ws2 with last_tls_rehandshake := now })
    (hentry : ∀ o d ws1, connect_handler w ws0 = result.ok (conn_out.tunnel o d) ws1 →
      P o d ws1)
    (loc : loop_locals) (ws : worker_st) (hr : tunnel_reach c w ws0 loc ws) :
    P loc.mtu_overhead loc.dtls_mtu ws := by
  induction hr with
  | entry o d ws1 h => exact hentry o d ws1 h
  | step inp loc loc1 ws ws1 _ h ih =>
    obtain ⟨h1, h2, h3⟩ := closed_loop_step c w inp loc ws (hP _ _) ih _ h
      (fun _ => hk _ _ _) loc1 ws1 rfl
    rw [h2, h3]
    exact h1

/-- A run of iterations from a state of the loop ends in a state of the loop. -/
theorem tunnel_reach_run (c : pkt_types) (w : world) (ws0 : worker_st)
    (inps : List loop_input) :
    ∀ (loc : loop_locals) (ws : worker_st) (loc1 : loop_locals) (ws1 : worker_st),
      tunnel_reach c w ws0 loc ws → loop_run c w inps loc ws = some (loc1, ws1) →
      tunnel_reach c w ws0 loc1 ws1 := by
  induction inps with
  | nil =>
    intro loc ws loc1 ws1 hr h
    simp only [loop_run, Option.some.injEq, Prod.mk.injEq] at h
    obtain ⟨rfl, rfl⟩ := h
    exact hr
  | cons inp rest ih =>
    intro loc ws loc1 ws1 hr h
    simp only [loop_run] at h
    cases hs : loop_step c w inp loc ws with
    | none => rw [hs] at h; cases h
    | some r =>
      cases r with
      | ok loc2 ws2 =>
        rw [hs] at h
        exact ih loc2 ws2 loc1 ws1 (tunnel_reach.step inp loc loc2 ws ws2 hr hs) h
      | exited ws2 => rw [hs] at h; cases h
      | null_deref ws2 => rw [hs] at h; cases h

/-- The buffer invariant away from the wrap-around of the entry guard.  When at
the entry of the loop `conn_mtu + mtu_overhead` does not exceed 32 bits and the
proposed `dtls_mtu` is at most `conn_mtu`, in every state reached inside the
tunnel loop `buffer_size >= conn_mtu + mtu_overhead`, and when `conn_mtu >= 1`
the tun read of `conn_mtu - 1` bytes at offset 8 ends inside the buffer.  The
invariant behind it is kept by every state change of the loop body, among them
`mtu_ok`, `mtu_not_ok`, the end of the DTLS handshake and the MSS reduction. -/
theorem buffer_holds_mtu (c : pkt_types) (w : world) (ws0 : worker_st) (loc : loop_locals)
    (ws : worker_st) (hr : tunnel_reach c w ws0 loc ws)
    (hentry : ∀ o d ws1, connect_handler w ws0 = result.ok (conn_out.tunnel o d) ws1 →
      ws1.conn_mtu + o < U32 ∧ d ≤ ws1.conn_mtu) :
    ws.conn_mtu + loc.mtu_overhead ≤ ws.buffer_size ∧
    (1 ≤ ws.conn_mtu → 8 + u32 ((ws.conn_mtu : Int) - 1) ≤ ws.buffer_size) ∧
    loop_closed loc.dtls_mtu (buf_inv loc.mtu_overhead loc.dtls_mtu) := by
  have hinv : buf_inv loc.mtu_overhead loc.dtls_mtu ws := by
    refine tunnel_reach_closed buf_inv c w ws0 buf_inv_closed (fun _ _ _ _ h => h) ?_ loc ws hr
    intro o d ws1 h
    obtain ⟨h1, h2⟩ := hentry o d ws1 h
    obtain ⟨e1, e2, e3, e4, e5⟩ := connect_handler_entry w ws0 _ ws1 h o d rfl
    rw [Nat.mod_eq_of_lt h1] at e5
    refine ⟨e4, ?_, ?_, e5, by omega, ?_⟩
    · rcases e1 with e | e | e <;> omega
    · rcases e1 with e | e | e <;> omega
    · intro hc
      rcases e2 with e | e <;> rw [e] at hc <;> rcases hc with hc | hc | hc <;> cases hc
  obtain ⟨h1, h2, h3, h4, h5, h6⟩ := hinv
  refine ⟨h4, ?_, buf_inv_closed _ _⟩
  intro hpos
  have : u32 ((ws.conn_mtu : Int) - 1) ≤ ws.conn_mtu - 1 := by
    unfold u32
    omega
  omega

/-- The buffer invariant in the state in which the sample session enters the
loop. -/
theorem buffer_holds_mtu_witness :
    tunnel_reach AC_PKT sample_world sample_ws sample_locals sample_entry ∧
    sample_entry.conn_mtu + 8 < U32 ∧
    sample_entry.conn_mtu + sample_locals.mtu_overhead ≤ sample_entry.buffer_size :=
  ⟨tunnel_reach.entry 8 0 sample_entry rfl, by decide,
    (buffer_holds_mtu AC_PKT sample_world sample_ws sample_locals sample_entry
      (tunnel_reach.entry 8 0 sample_entry rfl)
      (by
        intro o d ws1 h
        have h0 : connect_handler sample_world sample_ws =
            result.ok (conn_out.tunnel 8 0) sample_entry := rfl
        rw [h0] at h
        simp only [result.ok.injEq, conn_out.tunnel.injEq] at h
        obtain ⟨⟨rfl, rfl⟩, rfl⟩ := h
        decide)).1⟩

/-- C11: the guard of lines 1354-1362 is defeated by unsigned wrap-around.  With
a device MTU of 4 and no TCP MSS, `conn_mtu = vinfo.mtu - mtu_overhead` is
`2^32 - 4`; the sum `conn_mtu + mtu_overhead` that the guard compares with
`buffer_size` wraps to 4, so the buffer is not enlarged and the session enters
the tunnel loop with a buffer of 16384 bytes, which is smaller than
`conn_mtu + mtu_overhead`; the tun read at offset 8 is then issued with a count
of `conn_mtu - 1 = 2^32 - 5` bytes, which ends outside the buffer. -/
theorem buffer_smaller_than_mtu :
    tiny_mtu_world.rt_vpn_info.2.mtu = 4 ∧ tiny_mtu_world.tcp_maxseg 0 = none ∧
    tunnel_reach AC_PKT tiny_mtu_world sample_ws sample_locals tiny_entry ∧
    tiny_entry.conn_mtu = 4294967292 ∧
    (tiny_entry.conn_mtu + sample_locals.mtu_overhead) % U32 = 4 ∧
    tiny_entry.buffer_size = 16384 ∧
    ¬ tiny_entry.buffer_size ≥ tiny_entry.conn_mtu + sample_locals.mtu_overhead ∧
    u32 ((tiny_entry.conn_mtu : Int) - 1) = 4294967291 ∧
    8 + u32 ((tiny_entry.conn_mtu : Int) - 1) > tiny_entry.buffer_size :=
  ⟨rfl, rfl, tunnel_reach.entry 8 0 tiny_entry rfl, by decide, by decide, by decide, by decide,
    by decide, by decide⟩

/-- C12: `DISABLED` is absorbing.  From a state with `udp_state = DISABLED`,
`periodic_check`, `mtu_not_ok`, the tun arm, the reliable-receive arm, the UDP
arm and a whole iteration of the loop that returns all end in a state with
`udp_state = DISABLED`. -/
theorem disabled_absorbing (c : pkt_types) (w : world) (inp : loop_input)
    (loc loc1 : loop_locals) (ws ws1 : worker_st)
    (h : ws.udp_state = udp_state_t.UP_DISABLED) :
    (∀ o now, (periodic_check c w ws o now).2.udp_state = udp_state_t.UP_DISABLED) ∧
    (mtu_not_ok ws).2.udp_state = udp_state_t.UP_DISABLED ∧
    (∀ rd tx,
      (tun_arm c w ws rd tx).sat (fun _ ws2 => ws2.udp_state = udp_state_t.UP_DISABLED)) ∧
    (∀ fuel rcv rx now t r, tls_arm c w fuel ws rcv rx now t = some r →
      r.sat (fun _ ws2 => ws2.udp_state = udp_state_t.UP_DISABLED)) ∧
    (∀ rcv rx now d t,
      (udp_arm c w ws rcv rx now d t).sat
        (fun _ ws2 => ws2.udp_state = udp_state_t.UP_DISABLED)) ∧
    (loop_step c w inp loc ws = some (result.ok loc1 ws1) →
      ws1.udp_state = udp_state_t.UP_DISABLED) := by
  refine ⟨?_, ?_, ?_, ?_, ?_, ?_⟩
  · intro o now
    exact closed_periodic_check (disabled_closed 0) c w ws o now h
  · rcases (mtu_not_ok_fields ws).2.2.1 with f | f
    · exact f.trans h
    · exact f
  · intro rd tx
    exact closed_tun_arm (disabled_closed 0) c w ws rd tx h
  · intro fuel rcv rx now t r hr
    exact closed_tls_arm (disabled_closed 0) c w fuel ws rcv rx now t h r hr
      (fun _ _ h2 => h2)
  · intro rcv rx now d t
    exact closed_udp_arm (disabled_closed d) c w ws rcv rx now t h
  · intro hs
    exact (closed_loop_step c w inp loc ws (disabled_closed _) h _ hs (fun _ _ h2 => h2)
      loc1 ws1 rfl).1

/-- C12, witness: the first iteration of the sample session, whose datagram
channel is disabled; it forwards a tun packet. -/
theorem disabled_absorbing_witness :
    sample_entry.udp_state = udp_state_t.UP_DISABLED ∧
    loop_step AC_PKT sample_world tun_input sample_locals sample_entry =
      some (result.ok after_tun.1 after_tun.2) ∧
    after_tun.2.udp_state = udp_state_t.UP_DISABLED :=
  ⟨rfl, rfl,
    (disabled_absorbing AC_PKT sample_world tun_input sample_locals after_tun.1 sample_entry
      after_tun.2 rfl).2.2.2.2.2 rfl⟩

/-- C13 (amended): the DTLS handle in the states of the tunnel loop.  In every
state reached by a session that started without a DTLS handle: the handle is
set whenever `udp_state` is `HANDSHAKE`, `ACTIVE` or `INACTIVE`; it is null
whenever `udp_state` is `WAIT_FD` or `SETUP`; no iteration of the loop resets a
handle that is set; the session entered the loop in `DISABLED` or in `WAIT_FD`,
without a handle; if it entered the loop in `DISABLED` (the datagram channel
was never set up) the state is `DISABLED` with a null handle; and if it entered
the loop in `WAIT_FD`, the handle is set whenever `udp_state` is `DISABLED`. -/
theorem dtls_handle_states (c : pkt_types) (w : world) (ws0 : worker_st) (loc : loop_locals)
    (ws : worker_st) (h0 : ws0.dtls_session_set = false)
    (hr : tunnel_reach c w ws0 loc ws) :
    (ws.udp_state = udp_state_t.UP_HANDSHAKE ∨ ws.udp_state = udp_state_t.UP_ACTIVE ∨
        ws.udp_state = udp_state_t.UP_INACTIVE → ws.dtls_session_set = true) ∧
    (ws.udp_state = udp_state_t.UP_WAIT_FD ∨ ws.udp_state = udp_state_t.UP_SETUP →
      ws.dtls_session_set = false) ∧
    (∀ (inp : loop_input) (loc1 : loop_locals) (ws1 : worker_st),
      loop_step c w inp loc ws = some (result.ok loc1 ws1) →
      ws.dtls_session_set = true → ws1.dtls_session_set = true) ∧
    (∀ (o d : Nat) (we : worker_st),
      connect_handler w ws0 = result.ok (conn_out.tunnel o d) we →
      (we.udp_state = udp_state_t.UP_DISABLED ∨ we.udp_state = udp_state_t.UP_WAIT_FD) ∧
      we.dtls_session_set = false ∧
      (we.udp_state = udp_state_t.UP_DISABLED →
        ws.udp_state = udp_state_t.UP_DISABLED ∧ ws.dtls_session_set = false) ∧
      (we.udp_state = udp_state_t.UP_WAIT_FD →
        ws.udp_state = udp_state_t.UP_DISABLED → ws.dtls_session_set = true)) := by
  have hinv : dtls_handle_inv ws := by
    refine tunnel_reach_closed (fun _ _ => dtls_handle_inv) c w ws0
      (fun _ d => dtls_handle_inv_closed d) (fun _ _ _ _ h => h) ?_ loc ws hr
    intro o d ws1 h
    obtain ⟨-, e2, e3, -, -⟩ := connect_handler_entry w ws0 _ ws1 h o d rfl
    refine ⟨?_, fun _ => e3.trans h0⟩
    intro hc
    rcases e2 with e | e <;> rw [e] at hc <;> rcases hc with hc | hc | hc <;> cases hc
  refine ⟨hinv.1, hinv.2, ?_, ?_⟩
  · intro inp loc1 ws1 hs hset
    exact (closed_loop_step c w inp loc ws (handle_set_closed _) hset _ hs
      (fun _ _ h2 => h2) loc1 ws1 rfl).1
  · intro o d we he
    obtain ⟨-, e2, e3, -, -⟩ := connect_handler_entry w ws0 _ we he o d rfl
    refine ⟨e2, e3.trans h0, ?_, ?_⟩
    · intro hd
      refine tunnel_reach_closed
        (fun _ _ x => x.udp_state = udp_state_t.UP_DISABLED ∧ x.dtls_session_set = false)
        c w ws0 (fun _ d1 => never_set_up_closed d1) (fun _ _ _ _ h => h) ?_ loc ws hr
      intro o1 d1 ws1 h
      rw [he] at h
      simp only [result.ok.injEq] at h
      obtain ⟨-, rfl⟩ := h
      exact ⟨hd, e3.trans h0⟩
    · intro hw
      have key := tunnel_reach_closed
        (fun _ _ x => dtls_handle_inv x ∧
          (x.udp_state = udp_state_t.UP_DISABLED → x.dtls_session_set = true))
        c w ws0 (fun _ d1 => handle_disabled_closed d1) (fun _ _ _ _ h => h) ?_ loc ws hr
      · exact key.2
      · intro o1 d1 ws1 h
        rw [he] at h
        simp only [result.ok.injEq] at h
        obtain ⟨-, rfl⟩ := h
        refine ⟨⟨?_, fun _ => e3.trans h0⟩, ?_⟩
        · intro hc
          rw [hw] at hc
          rcases hc with hc | hc | hc <;> cases hc
        · intro hc
          rw [hw] at hc
          cases hc

/-- C13, witness: the session `udp_ws` enters the loop in `WAIT_FD` without a
handle; after the hand-over of the UDP socket and the setup of the DTLS session
it is in `HANDSHAKE` with the handle set, and an idle iteration keeps the
handle. -/
theorem dtls_handle_states_witness :
    udp_ws.dtls_session_set = false ∧
    tunnel_reach AC_PKT sample_world udp_ws dtls_up.1 dtls_up.2 ∧
    dtls_up.2.udp_state = udp_state_t.UP_HANDSHAKE ∧ dtls_up.2.dtls_session_set = true ∧
    (connect_handler sample_world udp_ws).state.udp_state = udp_state_t.UP_WAIT_FD ∧
    (∀ (loc1 : loop_locals) (ws1 : worker_st),
      loop_step AC_PKT sample_world idle_input dtls_up.1 dtls_up.2 =
        some (result.ok loc1 ws1) →
      dtls_up.2.dtls_session_set = true → ws1.dtls_session_set = true) :=
  ⟨rfl,
    tunnel_reach_run AC_PKT sample_world udp_ws [handover_input, udp_input] udp_locals
      (connect_handler sample_world udp_ws).state dtls_up.1 dtls_up.2
      (tunnel_reach.entry 29 1401 _ rfl) rfl,
    rfl,
    (dtls_handle_states AC_PKT sample_world udp_ws dtls_up.1 dtls_up.2 rfl
      (tunnel_reach_run AC_PKT sample_world udp_ws [handover_input, udp_input] udp_locals
        (connect_handler sample_world udp_ws).state dtls_up.1 dtls_up.2
        (tunnel_reach.entry 29 1401 _ rfl) rfl)).1 (Or.inl rfl),
    rfl,
    (dtls_handle_states AC_PKT sample_world udp_ws dtls_up.1 dtls_up.2 rfl
      (tunnel_reach_run AC_PKT sample_world udp_ws [handover_input, udp_input] udp_locals
        (connect_handler sample_world udp_ws).state dtls_up.1 dtls_up.2
        (tunnel_reach.entry 29 1401 _ rfl) rfl)).2.2.1 idle_input⟩

/-- C13, counterexample: after a DTLS handshake that ends with a fatal error
the session is in `DISABLED` and the handle is still set. -/
theorem dtls_handle_kept_when_disabled :
    tunnel_reach AC_PKT fatal_handshake_world udp_ws dead_dtls.1 dead_dtls.2 ∧
    dead_dtls.2.udp_state = udp_state_t.UP_DISABLED ∧ dead_dtls.2.dtls_session_set = true :=
  ⟨tunnel_reach_run AC_PKT fatal_handshake_world udp_ws
      [handover_input, udp_input, udp_input] udp_locals
      (connect_handler fatal_handshake_world udp_ws).state dead_dtls.1 dead_dtls.2
      (tunnel_reach.entry 29 1401 _ rfl) rfl,
    rfl, rfl⟩

/-! ### Rekey throttling -/

theorem mtu_set_rekey (ws : worker_st) (m : Nat) :
    (mtu_set ws m).last_tls_rehandshake = ws.last_tls_rehandshake ∧
    (mtu_set ws m).config = ws.config := by
  unfold mtu_set mtu_send worker_st.act
  by_cases h : ws.dtls_session_set <;> simp [h]

theorem mtu_not_ok_rekey (ws : worker_st) :
    (mtu_not_ok ws).2.last_tls_rehandshake = ws.last_tls_rehandshake ∧
    (mtu_not_ok ws).2.config = ws.config := by
  by_cases h : ws.last_good_mtu = MIN_MTU ws
  · rw [mtu_not_ok_fail ws h]
    exact ⟨rfl, rfl⟩
  · by_cases hge : ws.conn_mtu ≤ ws.last_good_mtu
    · rw [mtu_not_ok_lower ws h hge]
      exact ⟨(mtu_set_rekey _ _).1, (mtu_set_rekey _ _).2⟩
    · rw [mtu_not_ok_keep ws h (by omega)]
      exact ⟨(mtu_set_rekey _ _).1, (mtu_set_rekey _ _).2⟩

theorem mtu_ok_rekey (ws : worker_st) :
    (mtu_ok ws).last_tls_rehandshake = ws.last_tls_rehandshake ∧
    (mtu_ok ws).config = ws.config := by
  by_cases h : ws.last_bad_mtu = (ws.conn_mtu + 1) % U32 ∨ ws.last_bad_mtu = ws.conn_mtu
  · rw [mtu_ok_converged ws h]
    exact ⟨rfl, rfl⟩
  · rw [mtu_ok_probe ws h]
    exact ⟨(mtu_set_rekey _ _).1, (mtu_set_rekey _ _).2⟩

/-- The configuration is kept by every state change of the loop body. -/
theorem config_closed (d : Nat) (cfg : cfg_st) :
    loop_closed d (fun ws => ws.config = cfg) where
  log := fun ws l h => h
  stamps := fun ws a b e h => h
  not_ok := fun ws h _ => (mtu_not_ok_rekey ws).2.trans h
  ok := fun ws h _ => (mtu_ok_rekey ws).2.trans h
  lower := fun ws m h _ => (mtu_set_rekey ws m).2.trans h
  inactive := fun ws h _ => h
  active := fun ws h _ => h
  setup := fun ws h _ => h
  hs_fail := fun ws h _ => h
  hs_done := fun ws m h _ _ => (mtu_set_rekey _ m).2.trans h
  handover := fun ws h _ => h

/-- The time of the last rekey and the configuration are kept by every state
change of the loop body other than the assignment `last_tls_rehandshake = now`
that follows an accepted rekey. -/
theorem rekey_stamp_closed (d : Nat) (t : Int) (cfg : cfg_st) :
    loop_closed d (fun ws => ws.last_tls_rehandshake = t ∧ ws.config = cfg) where
  log := fun ws l h => h
  stamps := fun ws a b e h => h
  not_ok := fun ws h _ =>
    ⟨(mtu_not_ok_rekey ws).1.trans h.1, (mtu_not_ok_rekey ws).2.trans h.2⟩
  ok := fun ws h _ => ⟨(mtu_ok_rekey ws).1.trans h.1, (mtu_ok_rekey ws).2.trans h.2⟩
  lower := fun ws m h _ => ⟨(mtu_set_rekey ws m).1.trans h.1, (mtu_set_rekey ws m).2.trans h.2⟩
  inactive := fun ws h _ => h
  active := fun ws h _ => h
  setup := fun ws h _ => h
  hs_fail := fun ws h _ => h
  hs_done := fun ws m h _ _ =>
    ⟨(mtu_set_rekey _ m).1.trans h.1, (mtu_set_rekey _ m).2.trans h.2⟩
  handover := fun ws h _ => h

/-- A property kept by the loop body is kept by a run of iterations, when it is
also kept by the recording of a rekey in the iterations that report a
rehandshake request. -/
theorem closed_loop_run {P : worker_st → Prop} (c : pkt_types) (w : world)
    (hP : ∀ d, loop_closed d P) (inps : List loop_input) :
    (∀ inp, inp ∈ inps → inp.tls_recv.ret = GNUTLS_E_REHANDSHAKE →
      ∀ ws2 : worker_st, P ws2 → P { ws2 with last_tls_rehandshake := inp.now }) →
    ∀ (loc : loop_locals) (ws : worker_st) (loc1 : loop_locals) (ws1 : worker_st),
      P ws → loop_run c w inps loc ws = some (loc1, ws1) → P ws1 := by
  induction inps with
  | nil =>
    intro _ loc ws loc1 ws1 h hv
    simp only [loop_run, Option.some.injEq, Prod.mk.injEq] at hv
    obtain ⟨-, rfl⟩ := hv
    exact h
  | cons inp rest ih =>
    intro hk loc ws loc1 ws1 h hv
    simp only [loop_run] at hv
    cases hs : loop_step c w inp loc ws with
    | none => rw [hs] at hv; cases hv
    | some r =>
      cases r with
      | ok loc2 ws2 =>
        rw [hs] at hv
        have h2 := (closed_loop_step c w inp loc ws (hP _) h _ hs
          (hk inp (List.mem_cons_self _ _)) loc2 ws2 rfl).1
        exact ih (fun i hi => hk i (List.mem_cons_of_mem _ hi)) loc2 ws2 loc1 ws1 h2 hv
      | exited ws2 => rw [hs] at hv; cases hv
      | null_deref ws2 => rw [hs] at hv; cases hv

/-- When the receive on the reliable channel returns `GNUTLS_E_REHANDSHAKE`, the
reliable-receive arm is the rekey of lines 1567-1582, unless the macro
`GNUTLS_FATAL_ERR` ends the worker for that code. -/
theorem tls_arm_rehandshake (c : pkt_types) (w : world) (fuel : Nat) (ws : worker_st)
    (rx : Bool) (now t : Int) :
    tls_arm c w fuel ws (net_read.code GNUTLS_E_REHANDSHAKE) rx now t =
      if GNUTLS_FATAL_ERR w GNUTLS_E_REHANDSHAKE = true then some (result.exited ws)
      else tls_rekey w fuel ws now := by
  unfold tls_arm
  simp only [net_read.ret]
  by_cases hf : GNUTLS_FATAL_ERR w GNUTLS_E_REHANDSHAKE = true
  · rw [if_pos hf, if_pos hf]
  · rw [if_neg hf, if_neg hf, if_neg (by decide : ¬ GNUTLS_E_REHANDSHAKE = 0),
      if_neg (by decide : ¬ GNUTLS_E_REHANDSHAKE > 0)]
    simp

/-- An accepted rekey records its time and keeps the configuration. -/
theorem tls_rekey_records (w : world) (fuel : Nat) (ws ws1 : worker_st) (now : Int)
    (hacc : tls_rekey w fuel ws now = some (result.ok () ws1)) :
    ws1.last_tls_rehandshake = now ∧ ws1.config = ws.config := by
  simp only [tls_rekey] at hacc
  split_ifs at hacc
  · simp [exit_label] at hacc
  · cases hl : handshake_loop w fuel ws with
    | none => rw [hl] at hacc; cases hacc
    | some v =>
      obtain ⟨ret, ws2⟩ := v
      rw [hl] at hacc
      have hc : ws2.config = ws.config :=
        closed_handshake_loop (config_closed 0 ws.config) w fuel ws ret ws2 rfl hl
      simp only at hacc
      split_ifs at hacc
      · cases hacc
      · simp only [Option.some.injEq, result.ok.injEq, true_and] at hacc
        rw [← hacc]
        exact ⟨rfl, hc⟩

/-- C16 (amended): rekey throttling on the reliable channel.  When the receive
on the reliable channel reports a rehandshake request at time `now`, the arm is
the rekey (unless `GNUTLS_FATAL_ERR` ends the worker for that code).  The rekey
makes the session exit when `last_tls_rehandshake > 0` and
`now - last_tls_rehandshake < cookie_validity / 3` (integer division).
Otherwise the handshake is run: if its first result that is not a non-fatal
error comes at call `k` and is not negative, then with fuel at least `k` the
arm returns with `k + 1` handshake calls logged and `last_tls_rehandshake = now`;
if that result is negative the worker exits and nothing is recorded.
Consequently, after a request accepted at a time `now > 0`: through the rest
of that iteration, through any later iterations in which no rehandshake request
is reported, and through the periodic check and the tun arm of a further
iteration at a time `t2` with `t2 - now < cookie_validity / 3`, the recorded
time is kept, and a rehandshake request that the receive of that iteration
reports makes the session exit. -/
theorem tls_rekey_throttle (w : world) (ws : worker_st) (now : Int) :
    (ws.last_tls_rehandshake > 0 ∧
        now - ws.last_tls_rehandshake < ((ws.config.cookie_validity / 3 : Nat) : Int) →
      ∀ fuel, tls_rekey w fuel ws now = some (exit_label ws)) ∧
    (¬ (ws.last_tls_rehandshake > 0 ∧
        now - ws.last_tls_rehandshake < ((ws.config.cookie_validity / 3 : Nat) : Int)) →
      ∀ k fuel, k ≤ fuel →
        (∀ i, i < k → w.handshake_ret (ws.io_log.length + i) < 0 ∧
          w.error_is_fatal (w.handshake_ret (ws.io_log.length + i)) = false) →
        (0 ≤ w.handshake_ret (ws.io_log.length + k) →
          tls_rekey w fuel ws now = some (result.ok ()
            { ws with io_log := ws.io_log ++ List.replicate (k + 1) Event.tls_handshake,
                      last_tls_rehandshake := now })) ∧
        (w.handshake_ret (ws.io_log.length + k) < 0 ∧
            w.error_is_fatal (w.handshake_ret (ws.io_log.length + k)) = true →
          tls_rekey w fuel ws now = some (result.exited
            { ws with io_log := ws.io_log ++ List.replicate (k + 1) Event.tls_handshake }))) ∧
    (∀ (c : pkt_types) (fuel : Nat) (rx : Bool) (t : Int),
      tls_arm c w fuel ws (net_read.code GNUTLS_E_REHANDSHAKE) rx now t =
        if GNUTLS_FATAL_ERR w GNUTLS_E_REHANDSHAKE = true then some (result.exited ws)
        else tls_rekey w fuel ws now) ∧
    (∀ (c : pkt_types) (fuel fuel2 : Nat) (ws1 ws2 ws3 ws4 : worker_st)
        (inp1 inp2 : loop_input) (u1 c1 rx : Bool) (loc loc1 loc2 : loop_locals)
        (inps : List loop_input) (t : Int),
      0 < now →
      tls_rekey w fuel ws now = some (result.ok () ws1) →
      loop_udp c w inp1 u1 c1 loc ws1 = result.ok loc1 ws2 →
      (∀ inp, inp ∈ inps → inp.tls_recv.ret ≠ GNUTLS_E_REHANDSHAKE) →
      loop_run c w inps loc1 ws2 = some (loc2, ws3) →
      inp2.now - now < ((ws.config.cookie_validity / 3 : Nat) : Int) →
      (ws4 = (periodic_check c w ws3 loc2.mtu_overhead inp2.now).2 ∨
        tun_arm c w (periodic_check c w ws3 loc2.mtu_overhead inp2.now).2 inp2.tun
          inp2.tx_allowed = result.ok flow.next ws4) →
      ws4.last_tls_rehandshake = now ∧
      tls_arm c w fuel2 ws4 (net_read.code GNUTLS_E_REHANDSHAKE) rx inp2.now t =
        some (if GNUTLS_FATAL_ERR w GNUTLS_E_REHANDSHAKE = true then result.exited ws4
              else exit_label ws4)) := by
  refine ⟨fun h fuel => ?_, fun h k fuel hk hretry => ⟨fun h0 => ?_, fun hf => ?_⟩,
    fun c fuel rx t => tls_arm_rehandshake c w fuel ws rx now t, ?_⟩
  · simp only [tls_rekey, if_pos h]
  · have hend : ¬ (w.handshake_ret (ws.io_log.length + k) < 0 ∧
        w.error_is_fatal (w.handshake_ret (ws.io_log.length + k)) = false) := by
      intro hc; omega
    simp only [tls_rekey, if_neg h, handshake_loop_done w k fuel ws hk hretry hend]
    have : GNUTLS_FATAL_ERR w (w.handshake_ret (ws.io_log.length + k)) = false := by
      simp only [GNUTLS_FATAL_ERR, Bool.and_eq_false_imp, decide_eq_true_eq]
      intro hc; omega
    simp [this]
  · have hend : ¬ (w.handshake_ret (ws.io_log.length + k) < 0 ∧
        w.error_is_fatal (w.handshake_ret (ws.io_log.length + k)) = false) := by
      intro hc
      rw [hf.2] at hc
      exact absurd hc.2 (by decide)
    simp only [tls_rekey, if_neg h, handshake_loop_done w k fuel ws hk hretry hend]
    have : GNUTLS_FATAL_ERR w (w.handshake_ret (ws.io_log.length + k)) = true := by
      simp [GNUTLS_FATAL_ERR, hf.1, hf.2]
    simp [this]
  · intro c fuel fuel2 ws1 ws2 ws3 ws4 inp1 inp2 u1 c1 rx loc loc1 loc2 inps t hpos hacc hudp
      hno hrun hlt h4
    have k1 := tls_rekey_records w fuel ws ws1 now hacc
    have k2 := (closed_loop_udp c w inp1 u1 c1 loc ws1 (rekey_stamp_closed _ now ws.config) k1
      loc1 ws2 hudp).1
    have k3 := closed_loop_run c w (fun d => rekey_stamp_closed d now ws.config) inps
      (fun inp hi hre => absurd hre (hno inp hi)) loc1 ws2 loc2 ws3 k2 hrun
    have kp := closed_periodic_check (rekey_stamp_closed 0 now ws.config) c w ws3
      loc2.mtu_overhead inp2.now k3
    have k4 : ws4.last_tls_rehandshake = now ∧ ws4.config = ws.config := by
      rcases h4 with h4 | h4
      · rw [h4]
        exact kp
      · exact closed_tun_arm (rekey_stamp_closed 0 now ws.config) c w _ inp2.tun
          inp2.tx_allowed kp flow.next ws4 h4
    refine ⟨k4.1, ?_⟩
    rw [tls_arm_rehandshake]
    by_cases hf : GNUTLS_FATAL_ERR w GNUTLS_E_REHANDSHAKE = true
    · rw [if_pos hf, if_pos hf]
    · rw [if_neg hf, if_neg hf]
      simp only [tls_rekey]
      rw [if_pos]
      rw [k4.1, k4.2]
      exact ⟨hpos, hlt⟩

/-- C16, witness: in the sample session a first rehandshake request at time
1010 is accepted and recorded; a request at time 1010 in a session whose last
rekey was at time 1000 makes the session exit; and after the accepted request,
an idle iteration and an iteration that forwards a tun packet, a second request
at time 1030 makes the session exit. -/
theorem tls_rekey_throttle_witness :
    tls_rekey sample_world 0 rekey_ready 1010 = some (result.ok () rekey_accepted) ∧
    tls_rekey sample_world 0 rekeyed_ws 1010 = some (exit_label rekeyed_ws) ∧
    loop_step AC_PKT sample_world (rekey_input 1010) sample_locals sample_entry =
      some (result.ok sample_locals rekey_accepted) ∧
    loop_run AC_PKT sample_world [idle_input, tun_input] sample_locals rekey_accepted =
      some rekey_later ∧
    (periodic_check AC_PKT sample_world rekey_later.2 8 1030).2.last_tls_rehandshake = 1010 ∧
    tls_arm AC_PKT sample_world 0 (periodic_check AC_PKT sample_world rekey_later.2 8 1030).2
        (net_read.code GNUTLS_E_REHANDSHAKE) true 1030 0 =
      some (exit_label (periodic_check AC_PKT sample_world rekey_later.2 8 1030).2) ∧
    (loop_step AC_PKT sample_world (rekey_input 1030) rekey_later.1 rekey_later.2).map
      result.is_exited = some true :=
  ⟨((tls_rekey_throttle sample_world rekey_ready 1010).2.1 (by decide) 0 0 (Nat.le_refl 0)
      (fun i hi => absurd hi (Nat.not_lt_zero i))).1 (by decide),
    (tls_rekey_throttle sample_world rekeyed_ws 1010).1 (by decide) 0,
    rfl, rfl,
    ((tls_rekey_throttle sample_world rekey_ready 1010).2.2.2 AC_PKT 0 0 rekey_accepted
      rekey_accepted rekey_later.2 (periodic_check AC_PKT sample_world rekey_later.2 8 1030).2
      idle_input (rekey_input 1030) false false true sample_locals sample_locals rekey_later.1
      [idle_input, tun_input] 0 (by decide) rfl rfl
      (by
        intro inp hi
        simp only [List.mem_cons, List.mem_singleton, List.not_mem_nil, or_false] at hi
        rcases hi with rfl | rfl <;> decide)
      rfl (by decide) (Or.inl rfl)).1,
    ((tls_rekey_throttle sample_world rekey_ready 1010).2.2.2 AC_PKT 0 0 rekey_accepted
      rekey_accepted rekey_later.2 (periodic_check AC_PKT sample_world rekey_later.2 8 1030).2
      idle_input (rekey_input 1030) false false true sample_locals sample_locals rekey_later.1
      [idle_input, tun_input] 0 (by decide) rfl rfl
      (by
        intro inp hi
        simp only [List.mem_cons, List.mem_singleton, List.not_mem_nil, or_false] at hi
        rcases hi with rfl | rfl <;> decide)
      rfl (by decide) (Or.inl rfl)).2,
    rfl⟩

/-- C16, counterexample: two requests that the stated rule gets wrong.  In a
session without an earlier rekey, a rehandshake request at time 1000 whose
handshake ends with a fatal error ends the worker, and no time is recorded.
In a session whose last rekey was at time 1000, a request at time 58600, that
is exactly `cookie_validity / 3 = 57600` seconds later and so not more than
that, is accepted and recorded. -/
theorem tls_rekey_not_recorded :
    sample_ws.last_tls_rehandshake = 0 ∧
    tls_arm AC_PKT fatal_handshake_world 0 sample_ws (net_read.code GNUTLS_E_REHANDSHAKE)
        true 1000 0 = some (result.exited (sample_ws.act Event.tls_handshake)) ∧
    (sample_ws.act Event.tls_handshake).last_tls_rehandshake = 0 ∧
    rekeyed_ws.last_tls_rehandshake = 1000 ∧
    rekeyed_ws.config.cookie_validity / 3 = 57600 ∧
    ¬ ((58600 : Int) - 1000 > 57600) ∧
    tls_arm AC_PKT sample_world 0 rekeyed_ws (net_read.code GNUTLS_E_REHANDSHAKE)
        true 58600 0 =
      some (result.ok () { rekeyed_ws.act Event.tls_handshake with
        last_tls_rehandshake := 58600 }) :=
  ⟨rfl, rfl, rfl, rfl, by decide, by decide, rfl⟩

/-! ### Termination of the MTU back-off -/

/-- A call of `mtu_not_ok` in a state with `last_good_mtu = conn_mtu` that is
not at `MIN_MTU` returns 0 and leaves `last_good_mtu = conn_mtu`, both equal to
`max (2 * conn_mtu mod 2^32 / 3) MIN_MTU`. -/
theorem mtu_not_ok_step (ws : worker_st) (hg : ws.last_good_mtu = ws.conn_mtu)
    (hm : ws.conn_mtu ≠ MIN_MTU ws) :
    (mtu_not_ok ws).1 = 0 ∧
    (mtu_not_ok ws).2.conn_mtu = max (((2 * ws.conn_mtu) % U32) / 3) (MIN_MTU ws) ∧
    (mtu_not_ok ws).2.last_good_mtu = max (((2 * ws.conn_mtu) % U32) / 3) (MIN_MTU ws) := by
  have h1 : ws.last_good_mtu ≠ MIN_MTU ws := by rw [hg]; exact hm
  rw [mtu_not_ok_lower ws h1 (by omega)]
  exact ⟨rfl, (mtu_set_fields _ _).1, (mtu_set_fields _ _).2.1⟩

/-- After any call of `mtu_not_ok` that returns 0, `last_good_mtu = conn_mtu`. -/
theorem mtu_not_ok_aligns (ws : worker_st) (h : ws.last_good_mtu ≠ MIN_MTU ws) :
    (mtu_not_ok ws).1 = 0 ∧ (mtu_not_ok ws).2.last_good_mtu = (mtu_not_ok ws).2.conn_mtu := by
  by_cases hge : ws.conn_mtu ≤ ws.last_good_mtu
  · rw [mtu_not_ok_lower ws h hge]
    exact ⟨rfl, by rw [(mtu_set_fields _ _).1, (mtu_set_fields _ _).2.1]⟩
  · rw [mtu_not_ok_keep ws h (by omega)]
    exact ⟨rfl, by rw [(mtu_set_fields _ _).1, (mtu_set_fields _ _).2.1]⟩

theorem mtu_not_ok_stops (ws : worker_st) (h : ws.last_good_mtu = MIN_MTU ws) :
    (mtu_not_ok ws).1 = -1 ∧ (mtu_not_ok ws).2.udp_state = udp_state_t.UP_DISABLED := by
  rw [mtu_not_ok_fail ws h]
  exact ⟨rfl, rfl⟩

/-- From a state with `last_good_mtu = conn_mtu`, repeated calls of `mtu_not_ok`
reach a call that returns -1. -/
theorem mtu_not_ok_chain (c : Nat) :
    ∀ ws : worker_st, ws.conn_mtu = c → ws.last_good_mtu = c →
      ∃ n, (∀ k, k < n → (mtu_not_ok (mtu_not_ok_iter k ws)).1 = 0) ∧
        (mtu_not_ok (mtu_not_ok_iter n ws)).1 = -1 ∧
        (mtu_not_ok (mtu_not_ok_iter n ws)).2.udp_state = udp_state_t.UP_DISABLED := by
  induction c using Nat.strong_induction_on with
  | _ c ih =>
    intro ws hc hg
    by_cases hm : ws.conn_mtu = MIN_MTU ws
    · refine ⟨0, fun k hk => absurd hk (Nat.not_lt_zero k), ?_⟩
      exact mtu_not_ok_stops ws (by rw [hg, ← hc, hm])
    · obtain ⟨s1, s2, s3⟩ := mtu_not_ok_step ws (by rw [hg, hc]) hm
      have hmin := MIN_MTU_mtu_not_ok ws
      have hdiv : ((2 * ws.conn_mtu) % U32) / 3 ≤ 2 * ws.conn_mtu / 3 :=
        Nat.div_le_div_right (Nat.mod_le _ _)
      by_cases hlt : ws.conn_mtu < MIN_MTU ws
      · have hM : max (((2 * ws.conn_mtu) % U32) / 3) (MIN_MTU ws) = MIN_MTU ws :=
          max_eq_right (by omega)
        refine ⟨1, ?_, ?_⟩
        · intro k hk
          have : k = 0 := by omega
          subst this
          exact s1
        · refine mtu_not_ok_stops (mtu_not_ok ws).2 ?_
          rw [s3, hM, hmin]
      · have hM1 : max (((2 * ws.conn_mtu) % U32) / 3) (MIN_MTU ws) < c := by
          rw [← hc]
          exact max_lt (by omega) (by omega)
        obtain ⟨n, h1, h2⟩ := ih _ hM1 (mtu_not_ok ws).2 s2 s3
        refine ⟨n + 1, ?_, h2⟩
        intro k hk
        cases k with
        | zero => exact s1
        | succ j => exact h1 j (by omega)

/-- C24: the MTU back-off terminates.  From every state, repeated calls of
`mtu_not_ok` reach, after finitely many calls that return 0, a call that
returns -1 and sets `udp_state = DISABLED`.  In a state with
`last_good_mtu = conn_mtu > MIN_MTU` a call returns 0, makes `conn_mtu`
strictly smaller but not smaller than `MIN_MTU`, and leaves
`last_good_mtu = conn_mtu`. -/
theorem mtu_backoff_terminates (ws : worker_st) :
    (∃ n, (∀ k, k < n → (mtu_not_ok (mtu_not_ok_iter k ws)).1 = 0) ∧
      (mtu_not_ok (mtu_not_ok_iter n ws)).1 = -1 ∧
      (mtu_not_ok (mtu_not_ok_iter n ws)).2.udp_state = udp_state_t.UP_DISABLED) ∧
    (ws.last_good_mtu = ws.conn_mtu → MIN_MTU ws < ws.conn_mtu →
      (mtu_not_ok ws).1 = 0 ∧ (mtu_not_ok ws).2.conn_mtu < ws.conn_mtu ∧
      MIN_MTU ws ≤ (mtu_not_ok ws).2.conn_mtu ∧
      (mtu_not_ok ws).2.last_good_mtu = (mtu_not_ok ws).2.conn_mtu) := by
  refine ⟨?_, ?_⟩
  · by_cases h : ws.last_good_mtu = MIN_MTU ws
    · exact ⟨0, fun k hk => absurd hk (Nat.not_lt_zero k), mtu_not_ok_stops ws h⟩
    · obtain ⟨a1, a2⟩ := mtu_not_ok_aligns ws h
      obtain ⟨n, h1, h2⟩ := mtu_not_ok_chain _ (mtu_not_ok ws).2 rfl a2
      refine ⟨n + 1, ?_, h2⟩
      intro k hk
      cases k with
      | zero => exact a1
      | succ j => exact h1 j (by omega)
  · intro hg hm
    obtain ⟨s1, s2, s3⟩ := mtu_not_ok_step ws hg (by omega)
    have hdiv : ((2 * ws.conn_mtu) % U32) / 3 ≤ 2 * ws.conn_mtu / 3 :=
      Nat.div_le_div_right (Nat.mod_le _ _)
    refine ⟨s1, ?_, ?_, by rw [s2, s3]⟩
    · rw [s2]
      exact max_lt (by omega) hm
    · rw [s2]
      exact le_max_right _ _

/-- C24, witness: from `conn_mtu = last_good_mtu = 1500` without IPv6, a call
returns 0 and lowers `conn_mtu` to 1000. -/
theorem mtu_backoff_terminates_witness :
    sample_ws.last_good_mtu = sample_ws.conn_mtu ∧ MIN_MTU sample_ws < sample_ws.conn_mtu ∧
    (mtu_not_ok sample_ws).1 = 0 ∧ (mtu_not_ok sample_ws).2.conn_mtu < sample_ws.conn_mtu ∧
    MIN_MTU sample_ws ≤ (mtu_not_ok sample_ws).2.conn_mtu ∧
    (mtu_not_ok sample_ws).2.last_good_mtu = (mtu_not_ok sample_ws).2.conn_mtu :=
  ⟨by decide, by decide, (mtu_backoff_terminates sample_ws).2 (by decide) (by decide)⟩

/-- C23: a datagram send of a tun packet that returns the negative non-fatal
code -28 is followed by a call of `mtu_ok`: the comparison
`ret >= ws->conn_mtu` is made in `unsigned`, where -28 is 4294967268.  At
`conn_mtu = 1000`, `last_bad_mtu = 1500` the failed send raises `conn_mtu` to
1250. -/
theorem mtu_ok_after_failed_send :
    again_world.send_ret probe_active_ws.io_log.length = -28 ∧
    GNUTLS_FATAL_ERR again_world (-28) = false ∧
    probe_active_ws.conn_mtu = 1000 ∧ u32 (-28) = 4294967268 ∧
    tun_arm AC_PKT again_world probe_active_ws (tun_read.data [1, 2, 3]) true =
      result.ok flow.next
        (mtu_ok (probe_active_ws.act (Event.record_send channel.dtls [0, 1, 2, 3]))) ∧
    (tun_arm AC_PKT again_world probe_active_ws (tun_read.data [1, 2, 3]) true).state.conn_mtu =
      1250 :=
  ⟨by decide, by decide, by decide, by decide, rfl, by decide⟩

/-! ### Switching between the channels -/

theorem mtu_not_ok_udp_state (ws : worker_st) :
    (mtu_not_ok ws).2.udp_state =
      if ws.last_good_mtu = MIN_MTU ws then udp_state_t.UP_DISABLED else ws.udp_state := by
  by_cases h : ws.last_good_mtu = MIN_MTU ws
  · rw [mtu_not_ok_fail ws h, if_pos h]
  · rw [if_neg h]
    by_cases hge : ws.conn_mtu ≤ ws.last_good_mtu
    · rw [mtu_not_ok_lower ws h hge]
      exact (mtu_set_fields _ _).2.2.2.1
    · rw [mtu_not_ok_keep ws h (by omega)]
      exact (mtu_set_fields _ _).2.2.2.1

/-- On the reliable channel `parse_data` leaves `udp_state` alone and returns
the type or -1. -/
theorem parse_data_tls_state (c : pkt_types) (w : world) (ws : worker_st) (head : Nat)
    (buf : List Nat) (now : Int) (v : Int) (ws1 : worker_st)
    (h : parse_data c w ws channel.tls head buf now = result.ok v ws1) :
    ws1.udp_state = ws.udp_state ∧ (v = (head : Int) ∨ v = -1) := by
  simp only [parse_data] at h
  split_ifs at h <;> simp only [result.ok.injEq] at h <;> obtain ⟨rfl, rfl⟩ := h <;>
    first
      | exact ⟨rfl, Or.inl rfl⟩
      | exact ⟨rfl, Or.inr rfl⟩

/-- On the datagram channel `parse_data` returns the type or -1, and it changes
`udp_state` only when the answer to a `DPD_OUT` frame is too large and the MTU
is at its floor. -/
theorem parse_data_dtls_state (c : pkt_types) (w : world) (ws : worker_st) (head : Nat)
    (buf : List Nat) (now : Int) (v : Int) (ws1 : worker_st)
    (h : parse_data c w ws channel.dtls head buf now = result.ok v ws1) :
    (v = (head : Int) ∨ v = -1) ∧
    (ws1.udp_state = ws.udp_state ∨
      (ws1.udp_state = udp_state_t.UP_DISABLED ∧ head = c.AC_PKT_DPD_OUT ∧
        w.send_ret ws.io_log.length = GNUTLS_E_LARGE_PACKET ∧
        ws.last_good_mtu = MIN_MTU ws)) := by
  have hm := mtu_not_ok_udp_state (ws.act (Event.record_send channel.dtls [c.AC_PKT_DPD_RESP]))
  have hmin : MIN_MTU (ws.act (Event.record_send channel.dtls [c.AC_PKT_DPD_RESP])) =
      MIN_MTU ws := rfl
  have hgood : (ws.act (Event.record_send channel.dtls [c.AC_PKT_DPD_RESP])).last_good_mtu =
      ws.last_good_mtu := rfl
  have hst : (ws.act (Event.record_send channel.dtls [c.AC_PKT_DPD_RESP])).udp_state =
      ws.udp_state := rfl
  rw [hmin, hgood, hst] at hm
  have hm2 : ((mtu_not_ok (ws.act (Event.record_send channel.dtls [c.AC_PKT_DPD_RESP]))).2.act
      (Event.record_send channel.dtls [c.AC_PKT_DPD_RESP])).udp_state =
      if ws.last_good_mtu = MIN_MTU ws then udp_state_t.UP_DISABLED else ws.udp_state := hm
  simp only [parse_data] at h
  split_ifs at h with h1 h2 h3 h4 h5 <;> simp only [result.ok.injEq] at h <;>
    obtain ⟨rfl, rfl⟩ := h <;>
    first
      | exact ⟨Or.inl rfl, Or.inl rfl⟩
      | exact ⟨Or.inr rfl, Or.inl rfl⟩
      | (refine ⟨by first | exact Or.inl rfl | exact Or.inr rfl, ?_⟩
         rw [hm2]
         by_cases hg : ws.last_good_mtu = MIN_MTU ws
         · rw [if_pos hg]
           exact Or.inr ⟨rfl, h3, h4, hg⟩
         · rw [if_neg hg]
           exact Or.inl rfl)

/-- The cases `ACTIVE` / `INACTIVE` of the UDP arm set `udp_recv_time` to `now`
whenever they return, also when the receive returned no data. -/
theorem udp_arm_recv_time (c : pkt_types) (w : world) (ws : worker_st) (rcv : net_read)
    (rx : Bool) (now : Int) :
    (∀ t1 ws1, udp_arm_recv c w ws rcv rx now = result.ok t1 ws1 → t1 = now) ∧
    (GNUTLS_FATAL_ERR w rcv.ret = false → rcv.ret ≤ 0 → rcv.ret ≠ GNUTLS_E_REHANDSHAKE →
      udp_arm_recv c w ws rcv rx now = result.ok now ws) := by
  refine ⟨?_, ?_⟩
  · intro t1 ws1 hv
    unfold udp_arm_recv at hv
    by_cases h1 : GNUTLS_FATAL_ERR w rcv.ret = true
    · rw [if_pos h1] at hv
      cases hv
    · rw [if_neg h1] at hv
      revert hv
      generalize udp_arm_parse c w ws rcv rx now = x
      intro hv
      cases x with
      | ok ret ws3 =>
        simp only at hv
        split_ifs at hv <;> simp only [result.ok.injEq] at hv <;> exact hv.1.symm
      | exited ws3 => cases hv
      | null_deref ws3 => cases hv
  · intro h1 h2 h3
    have hp : udp_arm_parse c w ws rcv rx now = result.ok rcv.ret ws := by
      unfold udp_arm_parse
      rw [if_neg (by omega)]
    unfold udp_arm_recv
    rw [if_neg (by rw [h1]; decide), hp]
    simp only
    rw [if_neg h3]

/-- C21 (amended): switch to the reliable channel on observed TCP `DATA`.  For
a frame that the reliable-receive arm decodes while `udp_state = ACTIVE` and
for which the arm returns (the frame is well formed, and the value is its
type), `udp_state` becomes `INACTIVE` if and only if the type is `DATA` and
`now - udp_recv_time > 15`, and stays `ACTIVE` otherwise; a well-formed `DATA`
frame whose payload is written to the tun device does make the arm return.
Here `udp_recv_time` is the local that the UDP arm sets to `now` at every
receive in `ACTIVE` or `INACTIVE` from which it returns, also when that receive
returned no data. -/
theorem tls_data_switch (c : pkt_types) (w : world) (ws : worker_st) (b : List Nat)
    (now t : Int) (h : ws.udp_state = udp_state_t.UP_ACTIVE) :
    (∀ v ws1, tls_arm_data c w ws b true now t = result.ok v ws1 →
      cstp_well_formed b ∧ v = (b.getD 6 0 : Int) ∧
      (ws1.udp_state = udp_state_t.UP_INACTIVE ↔
        b.getD 6 0 = c.AC_PKT_DATA ∧ now - t > 15) ∧
      (ws1.udp_state = udp_state_t.UP_INACTIVE ∨ ws1.udp_state = udp_state_t.UP_ACTIVE)) ∧
    (c.distinct → cstp_well_formed b → b.getD 6 0 = c.AC_PKT_DATA →
      w.force_write_ret ws.io_log.length ≠ -1 →
      ∃ ws1, tls_arm_data c w ws b true now t = result.ok (c.AC_PKT_DATA : Int) ws1) ∧
    (∀ ws2 rcv rx t1 ws3, udp_arm_recv c w ws2 rcv rx now = result.ok t1 ws3 → t1 = now) ∧
    (∀ ws2 rcv rx, GNUTLS_FATAL_ERR w rcv.ret = false → rcv.ret ≤ 0 →
      rcv.ret ≠ GNUTLS_E_REHANDSHAKE → udp_arm_recv c w ws2 rcv rx now = result.ok now ws2) := by
  refine ⟨?_, ?_, fun ws2 rcv rx => (udp_arm_recv_time c w ws2 rcv rx now).1,
    fun ws2 rcv rx => (udp_arm_recv_time c w ws2 rcv rx now).2⟩
  · intro v ws1 hv
    unfold tls_arm_data at hv
    rw [if_neg (by decide)] at hv
    by_cases hwf : cstp_well_formed b
    · rw [parse_cstp_data_accept c w ws b now hwf] at hv
      have hp := parse_data_tls_state c w ws (b.getD 6 0) (b.drop 8) now
      revert hv hp
      generalize parse_data c w ws channel.tls (b.getD 6 0) (b.drop 8) now = x
      intro hv hp
      cases x with
      | ok r ws2 =>
        obtain ⟨hs, hr⟩ := hp r ws2 rfl
        simp only [result.then_set] at hv
        by_cases hneg : r < 0
        · rw [if_pos hneg] at hv
          simp [exit_label] at hv
        · rw [if_neg hneg] at hv
          have hrv : r = (b.getD 6 0 : Int) := by
            rcases hr with hr | hr
            · exact hr
            · omega
          have hact : ({ ws2 with last_msg_tcp := now } : worker_st).udp_state =
              udp_state_t.UP_ACTIVE := hs.trans h
          by_cases hc : r = (c.AC_PKT_DATA : Int) ∧
              ({ ws2 with last_msg_tcp := now } : worker_st).udp_state = udp_state_t.UP_ACTIVE ∧
              now - t > 15
          · rw [if_pos hc] at hv
            simp only [result.ok.injEq] at hv
            obtain ⟨rfl, rfl⟩ := hv
            refine ⟨hwf, hrv, ?_, Or.inl rfl⟩
            constructor
            · intro _
              refine ⟨?_, hc.2.2⟩
              have := hc.1
              rw [hrv] at this
              exact_mod_cast this
            · intro _
              rfl
          · rw [if_neg hc] at hv
            simp only [result.ok.injEq] at hv
            obtain ⟨rfl, rfl⟩ := hv
            refine ⟨hwf, hrv, ?_, Or.inr hact⟩
            constructor
            · intro hi
              rw [hact] at hi
              cases hi
            · rintro ⟨hd, ht⟩
              exact absurd ⟨by rw [hrv, hd], hact, ht⟩ hc
      | exited ws2 => simp [result.then_set] at hv
      | null_deref ws2 => simp [result.then_set] at hv
    · rw [parse_cstp_data_reject c w ws b now hwf] at hv
      simp [exit_label] at hv
  · intro hd hwf hty hwr
    simp only [pkt_types.distinct, List.nodup_cons, List.mem_cons, List.mem_singleton,
      not_or, List.not_mem_nil, not_false_eq_true, List.nodup_nil, and_true] at hd
    obtain ⟨⟨-, -, -, h4⟩, ⟨-, -, h7⟩, ⟨-, h9⟩, h10⟩ := hd
    have hpd : parse_data c w ws channel.tls (b.getD 6 0) (b.drop 8) now =
        result.ok (c.AC_PKT_DATA : Int) (ws.act (Event.tun_write (b.drop 8))) := by
      rw [hty]
      simp only [parse_data, if_neg (Ne.symm h4), if_neg (Ne.symm h7), if_neg (Ne.symm h9),
        if_neg (Ne.symm h10), if_true, if_neg hwr]
    unfold tls_arm_data
    rw [if_neg (by decide), parse_cstp_data_accept c w ws b now hwf, hpd]
    simp only [result.then_set]
    rw [if_neg (by omega)]
    split_ifs
    · exact ⟨_, rfl⟩
    · exact ⟨_, rfl⟩

/-- C21, witness: a `DATA` frame decoded at time 1030 in a session with an
active datagram channel whose `udp_recv_time` is 1000 makes the channel
inactive. -/
theorem tls_data_switch_witness :
    active_ws.udp_state = udp_state_t.UP_ACTIVE ∧
    (tls_arm_data AC_PKT sample_world active_ws [83, 84, 70, 1, 0, 1, 0, 0, 9] true 1030
      1000).value = some 0 ∧
    ((tls_arm_data AC_PKT sample_world active_ws [83, 84, 70, 1, 0, 1, 0, 0, 9] true 1030
        1000).state.udp_state = udp_state_t.UP_INACTIVE ↔
      ([83, 84, 70, 1, 0, 1, 0, 0, 9] : List Nat).getD 6 0 = AC_PKT.AC_PKT_DATA ∧
        (1030 : Int) - 1000 > 15) :=
  ⟨rfl, by decide,
    ((tls_data_switch AC_PKT sample_world active_ws [83, 84, 70, 1, 0, 1, 0, 0, 9] 1030 1000
      rfl).1 0 _ rfl).2.2.1⟩

/-- C21, counterexample: the last datagram frame is received at time 1000 (it
sets `last_msg_udp`), at 1020 the UDP socket is readable but the receive
returns no data, and at 1030 a `DATA` frame is decoded on the reliable channel
and written to the tun device.  More than 15 seconds have passed since the
last datagram frame, yet `udp_state` stays `ACTIVE`: the empty receive has
moved `udp_recv_time` to 1020. -/
theorem tls_data_switch_missed :
    switch_run.map (fun p => (p.1.udp_recv_time, p.2.udp_state, p.2.last_msg_udp)) =
      some (1020, udp_state_t.UP_ACTIVE, 1000) ∧
    switch_run.map (fun p => decide (Event.tun_write [9] ∈ p.2.io_log)) = some true ∧
    (1030 : Int) - 1000 > 15 := by
  decide

/-- What a returning `parse_dtls_data` has done: either it returns a negative
value, or it has set `last_msg_udp` and changed `udp_state` at most by the MTU
floor of the `DPD_OUT` answer. -/
theorem parse_dtls_data_state (c : pkt_types) (w : world) (ws : worker_st) (buf : List Nat)
    (now : Int) (r : Int) (ws1 : worker_st)
    (h : parse_dtls_data c w ws buf now = result.ok r ws1) :
    r < 0 ∨ (ws1.last_msg_udp = now ∧
      (ws1.udp_state = ws.udp_state ∨
        (ws1.udp_state = udp_state_t.UP_DISABLED ∧ buf.getD 0 0 = c.AC_PKT_DPD_OUT ∧
          w.send_ret ws.io_log.length = GNUTLS_E_LARGE_PACKET ∧
          ws.last_good_mtu = MIN_MTU ws))) := by
  unfold parse_dtls_data at h
  by_cases hl : buf.length < 1
  · rw [if_pos hl] at h
    simp only [result.ok.injEq] at h
    exact Or.inl (by omega)
  · rw [if_neg hl] at h
    have hp := parse_data_dtls_state c w ws (buf.getD 0 0)
      ((buf.drop 1).take (buf.length - 1)) now
    revert h hp
    generalize parse_data c w ws channel.dtls (buf.getD 0 0)
      ((buf.drop 1).take (buf.length - 1)) now = x
    intro h hp
    cases x with
    | ok v ws2 =>
      simp only [result.then_set, result.ok.injEq] at h
      obtain ⟨rfl, rfl⟩ := h
      exact Or.inr ⟨rfl, (hp _ ws2 rfl).2⟩
    | exited ws2 => simp [result.then_set] at h
    | null_deref ws2 => simp [result.then_set] at h

/-- The state in which `udp_arm_parse` returns. -/
theorem udp_arm_parse_state (c : pkt_types) (w : world) (ws : worker_st) (rcv : net_read)
    (rx : Bool) (now : Int) (r : Int) (ws3 : worker_st)
    (h : udp_arm_parse c w ws rcv rx now = result.ok r ws3) :
    (rcv.ret ≤ 0 → ws3 = ws) ∧
    (rcv.ret > 0 →
      (ws3.udp_state = udp_state_t.UP_ACTIVE ∨
        (ws3.udp_state = udp_state_t.UP_DISABLED ∧ rx = true ∧
          rcv.bytes.getD 0 0 = c.AC_PKT_DPD_OUT ∧
          w.send_ret ws.io_log.length = GNUTLS_E_LARGE_PACKET ∧
          ws.last_good_mtu = MIN_MTU ws)) ∧
      (rx = true → ws3.last_msg_udp = now) ∧
      (rx = false → ws3 = { ws with udp_state := udp_state_t.UP_ACTIVE })) := by
  unfold udp_arm_parse at h
  by_cases h1 : rcv.ret > 0
  · rw [if_pos h1] at h
    refine ⟨fun hle => by omega, fun _ => ?_⟩
    by_cases h2 : rx = false
    · rw [if_pos h2] at h
      simp only [result.ok.injEq] at h
      obtain ⟨-, rfl⟩ := h
      refine ⟨Or.inl rfl, ?_, fun _ => rfl⟩
      intro ht
      rw [h2] at ht
      cases ht
    · rw [if_neg h2] at h
      have hrx : rx = true := by cases rx <;> simp_all
      have hp := parse_dtls_data_state c w { ws with udp_state := udp_state_t.UP_ACTIVE }
        rcv.bytes now
      revert h hp
      generalize parse_dtls_data c w { ws with udp_state := udp_state_t.UP_ACTIVE } rcv.bytes
        now = x
      intro h hp
      cases x with
      | ok v ws2 =>
        simp only at h
        by_cases h3 : v < 0
        · rw [if_pos h3] at h
          simp [exit_label] at h
        · rw [if_neg h3] at h
          simp only [result.ok.injEq] at h
          obtain ⟨rfl, rfl⟩ := h
          rcases hp _ _ rfl with hneg | ⟨hm, hs⟩
          · exact absurd hneg h3
          · refine ⟨?_, fun _ => hm, fun hf => absurd hf h2⟩
            rcases hs with hs | ⟨hs1, hs2, hs3, hs4⟩
            · exact Or.inl hs
            · exact Or.inr ⟨hs1, hrx, hs2, hs3, hs4⟩
      | exited ws2 => cases h
      | null_deref ws2 => cases h
  · rw [if_neg h1] at h
    simp only [result.ok.injEq] at h
    obtain ⟨-, rfl⟩ := h
    exact ⟨fun _ => rfl, fun hgt => absurd hgt h1⟩

/-- The rehandshake loop does not touch `udp_state`. -/
theorem handshake_loop_udp_state (w : world) (fuel : Nat) :
    ∀ (ws : worker_st) (ret : Int) (ws1 : worker_st),
      handshake_loop w fuel ws = some (ret, ws1) → ws1.udp_state = ws.udp_state := by
  induction fuel with
  | zero =>
    intro ws ret ws1 hv
    unfold handshake_loop at hv
    dsimp only at hv
    split_ifs at hv
    cases hv
    rfl
  | succ n ih =>
    intro ws ret ws1 hv
    unfold handshake_loop at hv
    dsimp only at hv
    split_ifs at hv
    · exact (ih _ ret ws1 hv).trans rfl
    · cases hv
      rfl

/-- While the datagram channel is not active, the reliable-receive arm does
not touch `udp_state`. -/
theorem tls_arm_udp_state (c : pkt_types) (w : world) (fuel : Nat) (ws : worker_st)
    (rcv : net_read) (rx : Bool) (now t : Int) (hs : ws.udp_state ≠ udp_state_t.UP_ACTIVE)
    (r : result Unit) (hr : tls_arm c w fuel ws rcv rx now t = some r) :
    r.sat (fun _ ws1 => ws1.udp_state = ws.udp_state) := by
  have hdata : (tls_arm_data c w ws rcv.bytes rx now t).sat
      (fun _ ws1 => ws1.udp_state = ws.udp_state) := by
    intro v ws1 hv
    unfold tls_arm_data at hv
    by_cases h1 : rx = false
    · rw [if_pos h1] at hv
      cases hv
      rfl
    · rw [if_neg h1] at hv
      by_cases hwf : cstp_well_formed rcv.bytes
      · rw [parse_cstp_data_accept c w ws rcv.bytes now hwf] at hv
        have hp := parse_data_tls_state c w ws (rcv.bytes.getD 6 0) (rcv.bytes.drop 8) now
        revert hv hp
        generalize parse_data c w ws channel.tls (rcv.bytes.getD 6 0) (rcv.bytes.drop 8)
          now = x
        intro hv hp
        cases x with
        | ok v2 ws2 =>
          have hst := (hp v2 ws2 rfl).1
          simp only [result.then_set] at hv
          split_ifs at hv with h2 h3
          · simp [exit_label] at hv
          · exact absurd (h3.2.1.symm.trans hst) (Ne.symm hs)
          · cases hv
            exact hst
        | exited ws2 => simp [result.then_set] at hv
        | null_deref ws2 => simp [result.then_set] at hv
      · rw [parse_cstp_data_reject c w ws rcv.bytes now hwf] at hv
        simp [exit_label] at hv
  unfold tls_arm at hr
  by_cases h1 : GNUTLS_FATAL_ERR w rcv.ret = true
  · rw [if_pos h1] at hr
    cases hr
    intro v ws1 hv
    cases hv
  · rw [if_neg h1] at hr
    by_cases h2 : rcv.ret = 0
    · rw [if_pos h2] at hr
      cases hr
      intro v ws1 hv
      cases hv
    · rw [if_neg h2] at hr
      have hx : (if rcv.ret > 0 then tls_arm_data c w ws rcv.bytes rx now t
          else result.ok rcv.ret ws).sat (fun _ ws1 => ws1.udp_state = ws.udp_state) := by
        split_ifs
        · exact hdata
        · intro v ws1 hv
          cases hv
          rfl
      revert hr hx
      generalize (if rcv.ret > 0 then tls_arm_data c w ws rcv.bytes rx now t
          else result.ok rcv.ret ws) = x
      intro hr hx
      cases x with
      | ok ret ws2 =>
        have h2 : ws2.udp_state = ws.udp_state := hx ret ws2 rfl
        simp only at hr
        split_ifs at hr
        · intro v ws1 hv
          subst hv
          unfold tls_rekey at hr
          split_ifs at hr
          · simp [exit_label] at hr
          · cases hl : handshake_loop w fuel ws2 with
            | none => rw [hl] at hr; cases hr
            | some pr =>
              obtain ⟨ret2, ws4⟩ := pr
              rw [hl] at hr
              simp only at hr
              split_ifs at hr
              · cases hr
              · simp only [Option.some.injEq, result.ok.injEq, true_and] at hr
                rw [← hr]
                exact (handshake_loop_udp_state w fuel ws2 ret2 ws4 hl).trans h2
        · cases hr
          intro v ws1 hv
          cases hv
          exact h2
      | exited ws2 =>
        cases hr
        intro v ws1 hv
        cases hv
      | null_deref ws2 =>
        cases hr
        intro v ws1 hv
        cases hv

/-- While the datagram channel is not active, the tun arm does not touch
`udp_state`. -/
theorem tun_arm_udp_state (c : pkt_types) (w : world) (ws : worker_st) (rd : tun_read)
    (tx : Bool) (hs : ws.udp_state ≠ udp_state_t.UP_ACTIVE) :
    (tun_arm c w ws rd tx).sat (fun _ ws1 => ws1.udp_state = ws.udp_state) := by
  intro v ws1 hv
  cases rd with
  | error tr =>
    simp only [tun_arm] at hv
    split_ifs at hv
    · cases hv
      rfl
    · simp [exit_label] at hv
  | data p =>
    simp only [tun_arm, if_neg hs, tun_send_tls] at hv
    split_ifs at hv <;> cases hv <;> rfl

/-- The cases `ACTIVE` / `INACTIVE` of the UDP arm return in the state in which
`udp_arm_parse` returned, up to the log. -/
theorem udp_arm_recv_state (c : pkt_types) (w : world) (ws : worker_st) (rcv : net_read)
    (rx : Bool) (now : Int) (t1 : Int) (ws1 : worker_st)
    (h : udp_arm_recv c w ws rcv rx now = result.ok t1 ws1) :
    ∃ r ws3 l, udp_arm_parse c w ws rcv rx now = result.ok r ws3 ∧
      ws1 = { ws3 with io_log := l } := by
  unfold udp_arm_recv at h
  by_cases h1 : GNUTLS_FATAL_ERR w rcv.ret = true
  · rw [if_pos h1] at h
    cases h
  · rw [if_neg h1] at h
    revert h
    generalize udp_arm_parse c w ws rcv rx now = x
    intro h
    cases x with
    | ok ret ws3 =>
      simp only at h
      split_ifs at h
      · cases h
        exact ⟨ret, ws3, _, rfl, rfl⟩
      · cases h
        exact ⟨ret, ws1, _, rfl, rfl⟩
    | exited ws3 => cases h
    | null_deref ws3 => cases h

theorem udp_arm_inactive (c : pkt_types) (w : world) (ws : worker_st) (rcv : net_read)
    (rx : Bool) (now : Int) (d : Nat) (t : Int)
    (h : ws.udp_state = udp_state_t.UP_INACTIVE) :
    udp_arm c w ws rcv rx now d t = udp_arm_recv c w ws rcv rx now := by
  simp only [udp_arm, h]

/-- C22 (amended): reactivation of the datagram channel.  When the UDP arm
runs with `udp_state = INACTIVE` and returns: if the receive returned no data
`udp_state` stays `INACTIVE`; if it returned at least one byte `udp_state` is
`ACTIVE` afterwards, except that it is `DISABLED` when the frame is a `DPD_OUT`
frame admitted by the RX limiter whose answer is too large while
`last_good_mtu = MIN_MTU`; a frame admitted by the RX limiter sets
`last_msg_udp` to `now`, one dropped by it changes nothing but `udp_state`.
`periodic_check`, the tun arm, the reliable-receive arm and the command arm
leave `udp_state = INACTIVE` as it is. -/
theorem udp_reactivation (c : pkt_types) (w : world) (ws : worker_st) (rcv : net_read)
    (rx : Bool) (now : Int) (d : Nat) (t : Int) (fuel o : Nat)
    (h : ws.udp_state = udp_state_t.UP_INACTIVE) :
    (rcv.ret ≤ 0 → ∀ t1 ws1, udp_arm c w ws rcv rx now d t = result.ok t1 ws1 →
      ws1.udp_state = udp_state_t.UP_INACTIVE) ∧
    (rcv.ret > 0 → ∀ t1 ws1, udp_arm c w ws rcv rx now d t = result.ok t1 ws1 →
      (ws1.udp_state = udp_state_t.UP_ACTIVE ∨
        (ws1.udp_state = udp_state_t.UP_DISABLED ∧ rx = true ∧
          rcv.bytes.getD 0 0 = c.AC_PKT_DPD_OUT ∧
          w.send_ret ws.io_log.length = GNUTLS_E_LARGE_PACKET ∧
          ws.last_good_mtu = MIN_MTU ws)) ∧
      (rx = true → ws1.last_msg_udp = now)) ∧
    (rcv.ret > 0 → rx = false →
      udp_arm c w ws rcv rx now d t =
        result.ok now { ws with udp_state := udp_state_t.UP_ACTIVE }) ∧
    (periodic_check c w ws o now).2.udp_state = udp_state_t.UP_INACTIVE ∧
    (∀ rd tx, (tun_arm c w ws rd tx).sat
      (fun _ ws1 => ws1.udp_state = udp_state_t.UP_INACTIVE)) ∧
    (∀ rcv2 rx2 r, tls_arm c w fuel ws rcv2 rx2 now t = some r →
      r.sat (fun _ ws1 => ws1.udp_state = udp_state_t.UP_INACTIVE)) ∧
    (∀ inp cr loc, (loop_cmd inp cr loc ws).sat
      (fun _ ws1 => ws1.udp_state = udp_state_t.UP_INACTIVE)) := by
  have hna : ws.udp_state ≠ udp_state_t.UP_ACTIVE := by rw [h]; decide
  refine ⟨?_, ?_, ?_, ?_, ?_, ?_, ?_⟩
  · intro hle t1 ws1 hv
    rw [udp_arm_inactive c w ws rcv rx now d t h] at hv
    obtain ⟨r, ws3, l, hp, rfl⟩ := udp_arm_recv_state c w ws rcv rx now t1 ws1 hv
    have := (udp_arm_parse_state c w ws rcv rx now r ws3 hp).1 hle
    rw [this]
    exact h
  · intro hgt t1 ws1 hv
    rw [udp_arm_inactive c w ws rcv rx now d t h] at hv
    obtain ⟨r, ws3, l, hp, rfl⟩ := udp_arm_recv_state c w ws rcv rx now t1 ws1 hv
    obtain ⟨h1, h2, -⟩ := (udp_arm_parse_state c w ws rcv rx now r ws3 hp).2 hgt
    exact ⟨h1, h2⟩
  · intro hgt hrx
    rw [udp_arm_inactive c w ws rcv rx now d t h]
    have hf : ¬ GNUTLS_FATAL_ERR w rcv.ret = true := by
      simp only [GNUTLS_FATAL_ERR, Bool.and_eq_true, decide_eq_true_eq, not_and]
      intro hc
      omega
    have hp : udp_arm_parse c w ws rcv rx now =
        result.ok rcv.ret { ws with udp_state := udp_state_t.UP_ACTIVE } := by
      unfold udp_arm_parse
      rw [if_pos hgt, if_pos hrx]
    have hre : ¬ rcv.ret = GNUTLS_E_REHANDSHAKE := by
      intro hc
      rw [hc] at hgt
      exact absurd hgt (by decide)
    unfold udp_arm_recv
    rw [if_neg hf, hp]
    simp only
    rw [if_neg hre]
  · rw [periodic_check_udp_state]
    simp [h]
  · intro rd tx v ws1 hv
    exact (tun_arm_udp_state c w ws rd tx hna v ws1 hv).trans h
  · intro rcv2 rx2 r hr v ws1 hv
    exact (tls_arm_udp_state c w fuel ws rcv2 rx2 now t hna r hr v ws1 hv).trans h
  · intro inp cr loc v ws1 hv
    have hc : handle_worker_commands ws inp.udp_fd_handover inp.cmd_ret = (inp.cmd_ret, ws) := by
      unfold handle_worker_commands
      rw [if_neg]
      rintro ⟨-, hw⟩
      rw [h] at hw
      cases hw
    unfold loop_cmd at hv
    rw [hc] at hv
    split_ifs at hv
    · simp [exit_label] at hv
    · cases hv
      exact h
    · cases hv
      exact h

/-- C22, witness: a `KEEPALIVE` datagram received at time 1010 while the
channel is inactive makes it active and sets `last_msg_udp`. -/
theorem udp_reactivation_witness :
    inactive_ws.udp_state = udp_state_t.UP_INACTIVE ∧ (net_read.data [7]).ret > 0 ∧
    (udp_arm AC_PKT sample_world inactive_ws (net_read.data [7]) true 1010 0 0).value =
      some 1010 ∧
    (udp_arm AC_PKT sample_world inactive_ws (net_read.data [7]) true 1010 0
      0).state.udp_state = udp_state_t.UP_ACTIVE ∧
    (udp_arm AC_PKT sample_world inactive_ws (net_read.data [7]) true 1010 0
      0).state.last_msg_udp = 1010 :=
  ⟨rfl, by decide, by decide, by decide,
    ((udp_reactivation AC_PKT sample_world inactive_ws (net_read.data [7]) true 1010 0 0 0 0
      rfl).2.1 (by decide) 1010 _ rfl).2 rfl⟩

/-- C22, counterexample: a `DPD_OUT` datagram is received while the channel is
inactive and `last_good_mtu = MIN_MTU`; the send of the answer reports
`GNUTLS_E_LARGE_PACKET` (-7), `mtu_not_ok` disables the channel, the second
send succeeds, and the arm returns with `udp_state = DISABLED`. -/
theorem udp_reactivation_floor :
    floor_inactive_ws.udp_state = udp_state_t.UP_INACTIVE ∧ (net_read.data [3]).ret > 0 ∧
    GNUTLS_E_LARGE_PACKET = -7 ∧
    large_packet_world.send_ret floor_inactive_ws.io_log.length = GNUTLS_E_LARGE_PACKET ∧
    large_packet_world.error_is_fatal GNUTLS_E_LARGE_PACKET = false ∧
    floor_inactive_ws.last_good_mtu = MIN_MTU floor_inactive_ws ∧
    (udp_arm AC_PKT large_packet_world floor_inactive_ws (net_read.data [3]) true 1010 0
      0).value = some 1010 ∧
    (udp_arm AC_PKT large_packet_world floor_inactive_ws (net_read.data [3]) true 1010 0
      0).state.udp_state = udp_state_t.UP_DISABLED := by
  decide

end Ocserv
